import Mathlib

/-!
# PeykNowruzi: the character matrix

A shallow embedding of `CharMatrix` (src/CharMatrix.hpp, src/CharMatrix.cpp) and
theorems about its constructor, its setters, the plot operation, the classifier
of coordinate pairs, equality, the ordering, the binary record and the validator
of coordinates.

Conventions of the embedding.

* A `char` is its byte value, a natural number; the line break is 10, the space 32.
* A `std::uint32_t` is a natural number; every 32-bit operation of the source is
  written with an explicit reduction modulo `UINT32_MOD`.
* `std::size_t` is taken to be 64 bits wide.
* The buffer `std::vector<char>` is a `List Nat`. An iterator is its offset from
  `begin()`, an integer, since the loops of `setX_AxisLen` step an iterator to
  just before `begin()`; only reading or writing through an offset outside the
  buffer is an error of the model.
* `std::copy_n` on `char` moves the block as a whole (the library copies
  trivially copyable ranges with `memmove`), so the source block is read before
  the destination is written.
* A member function that may throw or misbehave returns an `Outcome`; a thrown
  exception carries the state of the object at the moment of the throw.
* `setCharacterMatrix` first binds the result of the classifier to its local `ch`
  and then runs its body; the body is `CharMatrix.plot`.
-/

namespace peyknowruzi

/-! ## Machine arithmetic -/

/-- Number of values of `std::uint32_t`. -/
def UINT32_MOD : Nat := 4294967296

/-- Number of values of `std::size_t`. -/
def SIZE_MOD : Nat := 18446744073709551616

/-- Product of two `std::uint32_t`. -/
def u32mul (a b : Nat) : Nat := (a * b) % UINT32_MOD

/-- Sum of two `std::uint32_t`. -/
def u32add (a b : Nat) : Nat := (a + b) % UINT32_MOD

/-- Difference of two `std::uint32_t`, wrapping below zero. -/
def u32sub (a b : Nat) : Nat := (a + UINT32_MOD - b % UINT32_MOD) % UINT32_MOD

/-- Conversion of an exact integer to `std::int64_t` (two's complement). -/
def toInt64 (v : Int) : Int := (v + 9223372036854775808) % 18446744073709551616 - 9223372036854775808

/-! ## Constants of CharMatrix.cpp -/

def min_allowed_y_axis_len : Nat := 1
def min_allowed_x_axis_len : Nat := 2
def max_allowed_y_axis_len : Nat := 50
def max_allowed_x_axis_len : Nat := 168

/-- The character written at the end of every row, the line break. -/
def newline : Nat := 10

/-! ## The drawing characters -/

/-- The enumeration `AllowedChars` of CharMatrix.hpp. -/
inductive AllowedChars where
  | Dash
  | BackSlash
  | ForwardSlash
  | VerticalSlash
deriving DecidableEq, Repr

/-- The `char` value of an enumerator. -/
def AllowedChars.toChar : AllowedChars → Nat
  | .Dash => 45
  | .BackSlash => 92
  | .ForwardSlash => 47
  | .VerticalSlash => 124

/-- The set `chars_for_drawing`. -/
def chars_for_drawing : List AllowedChars :=
  [.Dash, .BackSlash, .ForwardSlash, .VerticalSlash]

/-- The test `chars_for_drawing.contains( static_cast<AllowedChars>( c ) )`. -/
def chars_for_drawing_contains (c : Nat) : Bool :=
  chars_for_drawing.any (fun a => a.toChar == c)

/-! ## The object and the outcome of a call -/

/-- The data members of `CharMatrix`. -/
structure CharMatrix where
  m_Y_AxisLen : Nat
  m_X_AxisLen : Nat
  m_fillCharacter : Nat
  m_characterMatrix : List Nat
deriving DecidableEq, Repr

/-- The exceptions the class throws: the three `std::invalid_argument` messages of
the setters and the `std::length_error` of `std::vector::resize`. -/
inductive Exception where
  | Invalid_Y_Axis_Len_Exception
  | Invalid_X_Axis_Len_Exception
  | Invalid_Fill_Character_Exception
  | length_error
deriving DecidableEq, Repr

/-- Result of a member function: it returns, leaving the object in a state; or it
throws, the object being in a state at that moment; or it reads or writes
outside the buffer or never leaves a loop. -/
inductive Outcome where
  | returned (m : CharMatrix)
  | threw (e : Exception) (m : CharMatrix)
  | undefined
deriving DecidableEq, Repr

/-- The accessor `getY_AxisLen`. -/
def CharMatrix.getY_AxisLen (m : CharMatrix) : Nat := m.m_Y_AxisLen

/-- The accessor `getX_AxisLen`. -/
def CharMatrix.getX_AxisLen (m : CharMatrix) : Nat := m.m_X_AxisLen

/-- The accessor `getFillCharacter`. -/
def CharMatrix.getFillCharacter (m : CharMatrix) : Nat := m.m_fillCharacter

/-- The accessor `getCharacterMatrix`. -/
def CharMatrix.getCharacterMatrix (m : CharMatrix) : List Nat := m.m_characterMatrix

/-! ## Operations on the buffer -/

/-- The call `v.resize( n, c )`. -/
def resize (buf : List Nat) (n : Nat) (c : Nat) : List Nat :=
  buf.take n ++ List.replicate (n - buf.length) c

/-- Overwrite the cells from offset `pos` on with `xs`. -/
def writeRange (buf : List Nat) (pos : Nat) (xs : List Nat) : List Nat :=
  buf.take pos ++ xs ++ buf.drop (pos + xs.length)

/-- The assignment `*it = c` through an iterator at offset `pos`. -/
def store (buf : List Nat) (pos : Int) (c : Nat) : Option (List Nat) :=
  if 0 ≤ pos ∧ pos < buf.length then some (buf.set pos.toNat c) else none

/-- The call `std::fill_n( it, n, c )` with `it` at offset `pos`. -/
def fill_n (buf : List Nat) (pos : Int) (n : Nat) (c : Nat) : Option (List Nat) :=
  if n = 0 then some buf
  else if 0 ≤ pos ∧ pos + n ≤ buf.length then
    some (writeRange buf pos.toNat (List.replicate n c))
  else none

/-- The call `std::copy_n( first, n, result )` inside one buffer, `first` at offset
`src` and `result` at offset `dst`. -/
def copy_n (buf : List Nat) (src : Int) (n : Nat) (dst : Int) : Option (List Nat) :=
  if n = 0 then some buf
  else if 0 ≤ src ∧ src + n ≤ buf.length ∧ 0 ≤ dst ∧ dst + n ≤ buf.length then
    some (writeRange buf dst.toNat ((buf.drop src.toNat).take n))
  else none

/-- The call `std::ranges::replace( v, old, new )`. -/
def replace (buf : List Nat) (old new : Nat) : List Nat :=
  buf.map (fun c => if c = old then new else c)

/-- The loop `for ( ; last_idx_of_row < size; last_idx_of_row += step ) v[ last_idx_of_row ] = newline`
of the constructor and of `setY_AxisLen`. The first argument bounds the number
of iterations; `none` means the bound was reached. -/
def stampRows (step : Nat) : Nat → Nat → List Nat → Option (List Nat)
  | 0, _, _ => none
  | fuel + 1, last_idx_of_row, buf =>
    if last_idx_of_row < buf.length then
      stampRows step fuel ((last_idx_of_row + step) % SIZE_MOD) (buf.set last_idx_of_row newline)
    else some buf

/-! ## The constructor -/

/-- The constructor `CharMatrix( Y_AxisLen, X_AxisLen, fillCharacter )`. -/
def CharMatrix.construct (Y_AxisLen X_AxisLen fillCharacter : Nat) : Outcome :=
  let buf := List.replicate (u32mul Y_AxisLen X_AxisLen) fillCharacter
  match stampRows X_AxisLen (buf.length + 1) (u32sub X_AxisLen 1) buf with
  | some buf1 => .returned ⟨Y_AxisLen, X_AxisLen, fillCharacter, buf1⟩
  | none => .undefined

/-! ## setY_AxisLen -/

/-- The member function `setY_AxisLen`. -/
def CharMatrix.setY_AxisLen (m : CharMatrix) (Y_AxisLen : Nat) : Outcome :=
  if Y_AxisLen > max_allowed_y_axis_len ∨ Y_AxisLen < min_allowed_y_axis_len then
    .threw .Invalid_Y_Axis_Len_Exception m
  else if Y_AxisLen = m.m_Y_AxisLen then .returned m
  else if Y_AxisLen > m.m_Y_AxisLen then
    let grown := resize m.m_characterMatrix
      (m.m_characterMatrix.length + u32mul (u32sub Y_AxisLen m.m_Y_AxisLen) m.m_X_AxisLen)
      m.m_fillCharacter
    match stampRows m.m_X_AxisLen (grown.length + 1)
        (u32sub (u32mul (u32add m.m_Y_AxisLen 1) m.m_X_AxisLen) 1) grown with
    | some buf => .returned { m with m_characterMatrix := buf, m_Y_AxisLen := Y_AxisLen }
    | none => .undefined
  else
    let cut := u32mul (u32sub m.m_Y_AxisLen Y_AxisLen) m.m_X_AxisLen
    if cut ≤ m.m_characterMatrix.length then
      .returned { m with
        m_characterMatrix := resize m.m_characterMatrix (m.m_characterMatrix.length - cut) 0,
        m_Y_AxisLen := Y_AxisLen }
    else .threw .length_error m

/-! ## setX_AxisLen -/

/-- The loop of the growing branch of `setX_AxisLen`, rows taken from the last to
the first. `new_pos` and `old_pos` are the offsets of the two iterators. -/
def growLoop (current_X_AxisLen new_X_AxisLen fillCharacter : Nat) :
    Nat → Int → Int → List Nat → Option (List Nat)
  | 0, _, _, _ => none
  | fuel + 1, new_pos, old_pos, buf =>
    if 0 ≤ old_pos then
      (store buf new_pos newline).bind fun buf1 =>
      let new_pos1 := new_pos - (u32sub new_X_AxisLen current_X_AxisLen : Nat)
      (fill_n buf1 new_pos1 (u32sub new_X_AxisLen current_X_AxisLen) fillCharacter).bind fun buf2 =>
      let new_pos2 := new_pos1 - (u32sub current_X_AxisLen 1 : Nat)
      (copy_n buf2 old_pos (u32sub current_X_AxisLen 1) new_pos2).bind fun buf3 =>
      growLoop current_X_AxisLen new_X_AxisLen fillCharacter fuel
        (new_pos2 - 1) (old_pos - (current_X_AxisLen : Nat)) buf3
    else some buf

/-- The loop of the shrinking branch of `setX_AxisLen`, rows taken from the first
to the last. -/
def shrinkLoop (current_X_AxisLen new_X_AxisLen : Nat) :
    Nat → Int → Int → List Nat → Option (List Nat)
  | 0, _, _, _ => none
  | fuel + 1, new_pos, old_pos, buf =>
    if old_pos ≠ (buf.length : Int) then
      (copy_n buf old_pos (u32sub new_X_AxisLen 1) new_pos).bind fun buf1 =>
      let new_pos1 := new_pos + (u32sub new_X_AxisLen 1 : Nat)
      (store buf1 new_pos1 newline).bind fun buf2 =>
      shrinkLoop current_X_AxisLen new_X_AxisLen fuel
        (new_pos1 + 1) (old_pos + (current_X_AxisLen : Nat)) buf2
    else some buf

/-- The member function `setX_AxisLen`. -/
def CharMatrix.setX_AxisLen (m : CharMatrix) (X_AxisLen : Nat) : Outcome :=
  if X_AxisLen > max_allowed_x_axis_len ∨ X_AxisLen < min_allowed_x_axis_len then
    .threw .Invalid_X_Axis_Len_Exception m
  else if X_AxisLen = m.m_X_AxisLen then .returned m
  else if X_AxisLen > m.m_X_AxisLen then
    let grown := resize m.m_characterMatrix (u32mul m.m_Y_AxisLen X_AxisLen) m.m_fillCharacter
    match growLoop m.m_X_AxisLen X_AxisLen m.m_fillCharacter (grown.length + 1)
        ((grown.length : Int) - 1) (u32mul (u32sub m.m_Y_AxisLen 1) m.m_X_AxisLen : Nat) grown with
    | some buf => .returned { m with m_characterMatrix := buf, m_X_AxisLen := X_AxisLen }
    | none => .undefined
  else
    match shrinkLoop m.m_X_AxisLen X_AxisLen (m.m_characterMatrix.length + 1) 0 0
        m.m_characterMatrix with
    | some buf =>
      .returned { m with
        m_characterMatrix := resize buf (u32mul m.m_Y_AxisLen X_AxisLen) 0,
        m_X_AxisLen := X_AxisLen }
    | none => .undefined

/-! ## setFillCharacter -/

/-- The member function `setFillCharacter`. -/
def CharMatrix.setFillCharacter (m : CharMatrix) (fillCharacter : Nat) : Outcome :=
  if chars_for_drawing_contains fillCharacter then
    .threw .Invalid_Fill_Character_Exception m
  else if fillCharacter = m.m_fillCharacter then .returned m
  else
    .returned { m with
      m_characterMatrix := replace m.m_characterMatrix m.m_fillCharacter fillCharacter,
      m_fillCharacter := fillCharacter }

/-! ## The classifier and the plot -/

/-- The array `coordsOfChar`, in the order `x1, y1, x2, y2`. -/
structure Coords where
  x1 : Nat
  y1 : Nat
  x2 : Nat
  y2 : Nat
deriving DecidableEq, Repr

/-- The static member function `processCoordsToObtainCharType`. -/
def processCoordsToObtainCharType (c : Coords) : Option AllowedChars :=
  let isDifferenceOfX_AxisLensEqualTo_1 : Bool :=
    (toInt64 (toInt64 (c.x1 : Int) - toInt64 (c.x2 : Int))).natAbs == 1
  let isDifferenceOfY_AxisLensEqualTo_1 : Bool :=
    (toInt64 (toInt64 (c.y1 : Int) - toInt64 (c.y2 : Int))).natAbs == 1
  if isDifferenceOfX_AxisLensEqualTo_1 && c.y1 == c.y2 then
    some .Dash
  else if isDifferenceOfY_AxisLensEqualTo_1 && c.x1 == c.x2 then
    some .VerticalSlash
  else if isDifferenceOfX_AxisLensEqualTo_1 && isDifferenceOfY_AxisLensEqualTo_1 &&
      ((decide (c.x1 < c.x2) && decide (c.y1 > c.y2)) ||
       (decide (c.x1 > c.x2) && decide (c.y1 < c.y2))) then
    some .ForwardSlash
  else if isDifferenceOfX_AxisLensEqualTo_1 && isDifferenceOfY_AxisLensEqualTo_1 &&
      ((decide (c.x1 < c.x2) && decide (c.y1 < c.y2)) ||
       (decide (c.x1 > c.x2) && decide (c.y1 > c.y2))) then
    some .BackSlash
  else
    none

/-- The offset `Y_Axis * getX_AxisLen( ) + X_Axis` computed by `operator[ ]`. -/
def CharMatrix.cellIndex (m : CharMatrix) (X_Axis Y_Axis : Nat) : Nat :=
  (Y_Axis * m.m_X_AxisLen + X_Axis) % SIZE_MOD

/-- The assignment `( *this )[ X_Axis, Y_Axis ] = c`. -/
def CharMatrix.assignCell (m : CharMatrix) (X_Axis Y_Axis : Nat) (c : Nat) : Option CharMatrix :=
  (store m.m_characterMatrix (m.cellIndex X_Axis Y_Axis : Nat) c).map
    fun buf => { m with m_characterMatrix := buf }

/-- The body of `setCharacterMatrix` once the local `ch` holds the result of the
classifier: both end points receive the character. -/
def CharMatrix.plot (m : CharMatrix) (coordsOfChar : Coords) (ch : Option AllowedChars) :
    Outcome :=
  match ch with
  | some ch =>
    if chars_for_drawing.contains ch then
      match (m.assignCell coordsOfChar.x1 coordsOfChar.y1 ch.toChar).bind
          (fun m1 => m1.assignCell coordsOfChar.x2 coordsOfChar.y2 ch.toChar) with
      | some m2 => .returned m2
      | none => .undefined
    else .returned m
  | none => .returned m

/-- The member function `setCharacterMatrix`. -/
def CharMatrix.setCharacterMatrix (m : CharMatrix) (coordsOfChar : Coords) : Outcome :=
  m.plot coordsOfChar (processCoordsToObtainCharType coordsOfChar)

/-! ## Equality -/

/-- The member function `operator==`. -/
def CharMatrix.operatorEq (m rhs : CharMatrix) : Bool :=
  m.m_Y_AxisLen == rhs.m_Y_AxisLen &&
  m.m_X_AxisLen == rhs.m_X_AxisLen &&
  m.m_fillCharacter == rhs.m_fillCharacter

/-! ## The binary record

A file stream is the sequence of its bytes, each the value of one `char`, and its
fail state. The host is little-endian, so the object representation of a
`std::uint32_t` is its four bytes from the lowest to the highest. Memory is
taken to suffice for every `resize`. The scratch object `temp_char_matrix` of
`operator>>` has static storage: it is an argument and a result of the call. -/

/-- The object representation of a `std::uint32_t`. -/
def uint32_bytes (v : Nat) : List Nat :=
  [v % 256, v / 256 % 256, v / 65536 % 256, v / 16777216 % 256]

/-- The `std::uint32_t` that four bytes represent. -/
def uint32_of_bytes (bs : List Nat) : Nat :=
  (bs.getD 0 0 + 256 * bs.getD 1 0 + 65536 * bs.getD 2 0 + 16777216 * bs.getD 3 0) % UINT32_MOD

/-- The bytes of an object after the bytes `got` were stored from its start on. -/
def overlay (old got : List Nat) : List Nat :=
  got ++ old.drop got.length

/-- An output file stream: the bytes written so far and the fail state. -/
structure OStream where
  bytes : List Nat
  failed : Bool
deriving DecidableEq, Repr

/-- The call `ofs.write( p, n )`, `data` being the `n` bytes at `p`. -/
def OStream.write (ofs : OStream) (data : List Nat) : OStream :=
  if ofs.failed then ofs else ⟨ofs.bytes ++ data, false⟩

/-- The function `operator<<`. -/
def operatorShiftLeft (ofs : OStream) (char_matrix : CharMatrix) : OStream :=
  (((ofs.write (uint32_bytes char_matrix.getY_AxisLen)).write
    (uint32_bytes char_matrix.getX_AxisLen)).write
    [char_matrix.getFillCharacter]).write char_matrix.getCharacterMatrix

/-- An input file stream: the bytes not yet read and the fail state. -/
structure IStream where
  bytes : List Nat
  failed : Bool
deriving DecidableEq, Repr

/-- The call `ifs.read( p, n )`: the bytes stored from `p` on and the stream
afterwards. A stream in the fail state stores nothing; a stream that holds fewer
than `n` bytes stores them all and enters the fail state. -/
def IStream.read (ifs : IStream) (n : Nat) : List Nat × IStream :=
  if ifs.failed then ([], ifs)
  else if n ≤ ifs.bytes.length then (ifs.bytes.take n, ⟨ifs.bytes.drop n, false⟩)
  else (ifs.bytes, ⟨[], true⟩)

/-- The first half of `operator>>`: the four reads into `temp_char_matrix`, with
the `resize` of its buffer before the last one. -/
def readRecord (ifs : IStream) (temp_char_matrix : CharMatrix) : CharMatrix × IStream :=
  let r1 := ifs.read 4
  let t1 := { temp_char_matrix with
    m_Y_AxisLen := uint32_of_bytes (overlay (uint32_bytes temp_char_matrix.m_Y_AxisLen) r1.1) }
  let r2 := r1.2.read 4
  let t2 := { t1 with
    m_X_AxisLen := uint32_of_bytes (overlay (uint32_bytes t1.m_X_AxisLen) r2.1) }
  let r3 := r2.2.read 1
  let t3 := { t2 with m_fillCharacter := (overlay [t2.m_fillCharacter] r3.1).headD 0 }
  let t4 := { t3 with
    m_characterMatrix :=
      resize t3.m_characterMatrix (u32mul t3.getY_AxisLen t3.getX_AxisLen) 0 }
  let r4 := r3.2.read t4.m_characterMatrix.length
  ({ t4 with m_characterMatrix := overlay t4.m_characterMatrix r4.1 }, r4.2)

/-- Continue with `f` after a call that returned; pass on a throw or an undefined
run. -/
def Outcome.andThen (o : Outcome) (f : CharMatrix → Outcome) : Outcome :=
  match o with
  | .returned m => f m
  | .threw e m => .threw e m
  | .undefined => .undefined

/-- The second half of `operator>>`: each member of `char_matrix` is assigned from
`temp` and then passed to its setter, and the buffer is replaced at the end. -/
def assignFromTemp (char_matrix temp : CharMatrix) : Outcome :=
  (({ char_matrix with m_Y_AxisLen := temp.getY_AxisLen }).setY_AxisLen temp.getY_AxisLen).andThen
    fun c1 =>
  (({ c1 with m_X_AxisLen := temp.getX_AxisLen }).setX_AxisLen temp.getX_AxisLen).andThen
    fun c2 =>
  (({ c2 with m_fillCharacter := temp.getFillCharacter }).setFillCharacter
    temp.getFillCharacter).andThen
    fun c3 =>
  .returned { c3 with m_characterMatrix := temp.getCharacterMatrix }

/-- What a call of `operator>>` leaves: the outcome for `char_matrix`, the static
scratch object and the stream. -/
structure ReadResult where
  char_matrix : Outcome
  temp_char_matrix : CharMatrix
  ifs : IStream
deriving DecidableEq, Repr

/-- The function `operator>>`. -/
def operatorShiftRight (ifs : IStream) (temp_char_matrix char_matrix : CharMatrix) :
    ReadResult :=
  let r := readRecord ifs temp_char_matrix
  ⟨assignFromTemp char_matrix r.1, r.1, r.2⟩

/-! ## Ordering -/

/-- The values of `std::strong_ordering`. -/
inductive strong_ordering where
  | less
  | equal
  | greater
deriving DecidableEq, Repr

/-- The values of `std::partial_ordering`. -/
inductive partial_ordering where
  | less
  | equivalent
  | greater
  | unordered
deriving DecidableEq, Repr

/-- The three-way comparison `a <=> b` of two `std::uint32_t`. -/
def uint32_compare (a b : Nat) : strong_ordering :=
  if a < b then .less else if a = b then .equal else .greater

/-- The conversion of a `std::strong_ordering` to `std::partial_ordering`. -/
def strong_ordering.to_partial_ordering : strong_ordering → partial_ordering
  | .less => .less
  | .equal => .equivalent
  | .greater => .greater

/-- The member function `operator<=>`. -/
def CharMatrix.operatorSpaceship (m rhs : CharMatrix) : partial_ordering :=
  let cmp := uint32_compare (u32mul m.m_Y_AxisLen m.m_X_AxisLen)
    (u32mul rhs.m_Y_AxisLen rhs.m_X_AxisLen)
  if cmp ≠ .equal then cmp.to_partial_ordering
  else
    let cmp := uint32_compare m.m_Y_AxisLen rhs.m_Y_AxisLen
    if cmp ≠ .equal then cmp.to_partial_ordering
    else if m.m_fillCharacter = rhs.m_fillCharacter then .equivalent else .unordered

/-! ## The validator of coordinates

`validateEnteredCoords` calls `util::tokenize_fast` and
`util::convert_specific_tokens_to_integers`, which belong to Util.hpp and are not
part of the two source files. A line of text and a token are sequences of
`char`. -/

/-- Modelled from the spec: the two collaborators the validator leaves open, the
tokenization of a line and the reading of a number. `tokenize_fast line n` gives
the tokens stored in the array of `n` tokens and the number of tokens it
reports; `to_integer token` gives the value of a token that is an integer. -/
structure Util where
  tokenize_fast : List Nat → Nat → List (List Nat) × Nat
  to_integer : List Nat → Option Nat

/-- The element of the array `coordsOfChar` at an index. -/
def Coords.get (c : Coords) (i : Nat) : Nat :=
  match i with
  | 0 => c.x1
  | 1 => c.y1
  | 2 => c.x2
  | _ => c.y2

/-- The array `coordsOfChar` after an assignment to the element at an index. -/
def Coords.set (c : Coords) (i : Nat) (v : Nat) : Coords :=
  match i with
  | 0 => { c with x1 := v }
  | 1 => { c with y1 := v }
  | 2 => { c with x2 := v }
  | _ => { c with y2 := v }

/-- Modelled from the spec: `util::convert_specific_tokens_to_integers`, which
reads the tokens at the given indices as integers, checks each against the
bounds `min` and `max`, and stores each at its index of the output array. It
accepts when every such token is an integer inside the bounds; on a token that
is not, it stops and rejects, the values read before it being stored. -/
def Util.convert_specific_tokens_to_integers (u : Util) (tokens : List (List Nat))
    (result_ints_OUT : Coords) (min max : Nat) : List Nat → Bool × Coords
  | [] => (true, result_ints_OUT)
  | idx :: rest =>
    match u.to_integer (tokens.getD idx []) with
    | some v =>
      if min ≤ v ∧ v ≤ max then
        u.convert_specific_tokens_to_integers tokens (result_ints_OUT.set idx v) min max rest
      else (false, result_ints_OUT)
    | none => (false, result_ints_OUT)

/-- What a call of `validateEnteredCoords` leaves: the flag it returns, the output
array and the object, which the member function, being `const`, passes on. -/
structure ValidationResult where
  isValid : Bool
  int_enteredCoords_OUT : Coords
  object : CharMatrix
deriving DecidableEq, Repr

/-- The member function `validateEnteredCoords`. -/
def CharMatrix.validateEnteredCoords (u : Util) (m : CharMatrix)
    (str_enteredCoords : List Nat) (int_enteredCoords_OUT : Coords) : ValidationResult :=
  let max_allowed_y := u32sub m.getY_AxisLen 1
  let max_allowed_x := u32sub m.getX_AxisLen 2
  let found := u.tokenize_fast str_enteredCoords 4
  if found.2 = 4 then
    let converted_y := u.convert_specific_tokens_to_integers found.1 int_enteredCoords_OUT
      0 max_allowed_y [1, 3]
    if converted_y.1 then
      let converted_x := u.convert_specific_tokens_to_integers found.1 converted_y.2
        0 max_allowed_x [0, 2]
      ⟨converted_x.1, converted_x.2, m⟩
    else ⟨false, converted_y.2, m⟩
  else ⟨false, int_enteredCoords_OUT, m⟩

/-! ## Sample objects

Concrete states used to instantiate the theorems below. The constructor accepts
any dimensions, and a moved-from object has both dimensions zero and an empty
buffer, so each of these is a state an object of the class can be in. -/

/-- Two rows of three cells. -/
def grid_2x3 : CharMatrix := ⟨2, 3, 32, [1, 2, 10, 3, 4, 10]⟩

/-- Two rows of five cells. -/
def grid_2x5 : CharMatrix := ⟨2, 5, 32, [1, 2, 3, 4, 10, 5, 6, 7, 8, 10]⟩

/-- The object `CharMatrix( 0, 5, 32 )`: no row, an empty buffer. -/
def grid_0x5 : CharMatrix := ⟨0, 5, 32, []⟩

/-- The object `CharMatrix( 1, 1, 32 )`: one row holding only its line break. -/
def grid_1x1 : CharMatrix := ⟨1, 1, 32, [10]⟩

/-- The object `CharMatrix( 1, 200, 32 )`: one row of two hundred cells. -/
def grid_1x200 : CharMatrix := ⟨1, 200, 32, List.replicate 199 32 ++ [10]⟩

/-- A moved-from object. -/
def grid_moved_from : CharMatrix := ⟨0, 0, 0, []⟩

/-- The object `CharMatrix( 0, 2147483648, 32 )`: no row, an empty buffer. -/
def grid_0xhuge : CharMatrix := ⟨0, 2147483648, 32, []⟩

/-- A state with 2147483648 rows of two cells, every cell a line break. -/
def grid_huge_x2 : CharMatrix := ⟨2147483648, 2, 32, List.replicate 4294967296 10⟩

/-- A state with 2147483648 rows of three cells, every cell a line break. -/
def grid_huge_x3 : CharMatrix := ⟨2147483648, 3, 32, List.replicate 6442450944 10⟩

/-- A state with 2147483649 rows of two cells, every cell a line break. -/
def grid_hugex2 : CharMatrix := ⟨2147483649, 2, 32, List.replicate 4294967298 10⟩

/-- The coordinates of two horizontal neighbours. -/
def coords_dash : Coords := ⟨0, 0, 1, 0⟩

/-- The coordinates of one point taken twice. -/
def coords_same_point : Coords := ⟨5, 5, 5, 5⟩

/-- One row of three cells: a dash, the fill character, the line break. -/
def grid_1x3 : CharMatrix := ⟨1, 3, 32, [45, 32, 10]⟩

/-- The object `CharMatrix( 1, 2, 10 )`, with the line break as fill character. -/
def grid_newline_fill : CharMatrix := ⟨1, 2, 10, [10, 10]⟩

/-- Two rows of three cells with two dashes in the first row. -/
def grid_2x3_dashes : CharMatrix := ⟨2, 3, 32, [45, 45, 10, 32, 32, 10]⟩

/-- The grid of five rows of two cells; it has the area of `grid_2x5`. -/
def grid_5x2 : CharMatrix := ⟨5, 2, 32, [1, 10, 2, 10, 3, 10, 4, 10, 5, 10]⟩

/-- The grid of two rows of three cells with the full stop as fill character. -/
def grid_2x3_stops : CharMatrix := ⟨2, 3, 46, [46, 46, 10, 46, 46, 10]⟩

/-- A state of 2147483648 rows of two cells in which every cell, the fill character
included, is the line break; the 32-bit product of its rows and four is zero. -/
def grid_huge_newlines : CharMatrix := ⟨2147483648, 2, 10, List.replicate 4294967296 10⟩

/-- Modelled from the spec: a tokenizer for the samples. The tokens are the runs of
characters between spaces; all of them are counted and the first `n` are
stored. -/
def sample_tokenize (line : List Nat) (n : Nat) : List (List Nat) × Nat :=
  let tokens := (line.splitOn 32).filter (fun t => !t.isEmpty)
  (tokens.take n, tokens.length)

/-- Modelled from the spec: a reader of numbers for the samples. A token is an
integer when it is a run of at least one decimal digit. -/
def sample_to_integer (token : List Nat) : Option Nat :=
  if token ≠ [] ∧ token.all (fun c => decide (48 ≤ c ∧ c ≤ 57)) then
    some (token.foldl (fun acc c => 10 * acc + (c - 48)) 0)
  else none

/-- The collaborators used in the samples. -/
def sample_util : Util := ⟨sample_tokenize, sample_to_integer⟩

/-- The line `1 0 0 1`. -/
def line_1_0_0_1 : List Nat := [49, 32, 48, 32, 48, 32, 49]

/-- The line `5 0 5 0`. -/
def line_5_0_5_0 : List Nat := [53, 32, 48, 32, 53, 32, 48]

/-- The line `0 7 0 7`. -/
def line_0_7_0_7 : List Nat := [48, 32, 55, 32, 48, 32, 55]

/-! ## Lemmas on the buffer operations and on the branches of the setters -/

/-- The length after `resize`. -/
theorem length_resize (buf : List Nat) (n c : Nat) : (resize buf n c).length = n := by
  simp only [resize, List.length_append, List.length_take, List.length_replicate]
  omega

/-- The cells after `resize`: the old ones, then the given character. -/
theorem getElem?_resize (buf : List Nat) (n c i : Nat) :
    (resize buf n c)[i]? =
      if i < n then (if i < buf.length then buf[i]? else some c) else none := by
  unfold resize
  rw [List.getElem?_append]
  simp only [List.length_take, List.getElem?_take, List.getElem?_replicate]
  split_ifs <;> first | rfl | omega

/-- Overwriting a block inside the buffer keeps the length. -/
theorem length_writeRange (buf : List Nat) (pos : Nat) (xs : List Nat)
    (h : pos + xs.length ≤ buf.length) : (writeRange buf pos xs).length = buf.length := by
  simp only [writeRange, List.length_append, List.length_take, List.length_drop]
  omega

/-- The cells after overwriting a block inside the buffer. -/
theorem getElem?_writeRange (buf : List Nat) (pos : Nat) (xs : List Nat)
    (h : pos + xs.length ≤ buf.length) (i : Nat) :
    (writeRange buf pos xs)[i]? =
      if pos ≤ i ∧ i < pos + xs.length then xs[i - pos]? else buf[i]? := by
  unfold writeRange
  rw [List.getElem?_append, List.getElem?_append]
  simp only [List.length_take, List.length_append, List.getElem?_take, List.getElem?_drop]
  split_ifs <;> first | rfl | omega | (congr 1; omega)

/-- A store inside the buffer succeeds and changes that cell only. -/
theorem store_spec (buf : List Nat) (p c : Nat) (h : p < buf.length) :
    ∃ buf1, store buf (p : Int) c = some buf1 ∧ buf1.length = buf.length ∧
      ∀ i, buf1[i]? = if i = p then some c else buf[i]? := by
  refine ⟨buf.set p c, ?_, by simp, ?_⟩
  · unfold store
    rw [if_pos ⟨by omega, by omega⟩]
    simp
  · intro i
    rw [List.getElem?_set]
    split_ifs <;> first | rfl | omega 

/-- A fill inside the buffer succeeds and changes the filled cells only. -/
theorem fill_n_spec (buf : List Nat) (p n c : Nat) (h : p + n ≤ buf.length) :
    ∃ buf1, fill_n buf (p : Int) n c = some buf1 ∧ buf1.length = buf.length ∧
      ∀ i, buf1[i]? = if p ≤ i ∧ i < p + n then some c else buf[i]? := by
  unfold fill_n
  by_cases hn : n = 0
  · subst hn
    refine ⟨buf, by simp, rfl, ?_⟩
    intro i
    rw [if_neg (by omega)]
  · rw [if_neg hn, if_pos ⟨by omega, by omega⟩]
    refine ⟨_, rfl, ?_, ?_⟩
    · exact length_writeRange _ _ _ (by simpa using h)
    · intro i
      rw [getElem?_writeRange _ _ _ (by simpa using h)]
      simp only [Int.toNat_ofNat, List.length_replicate, List.getElem?_replicate]
      split_ifs <;> first | rfl | omega

/-- A copy between two blocks inside the buffer succeeds; the destination block
receives the former content of the source block, the other cells keep theirs. -/
theorem copy_n_spec (buf : List Nat) (s n d : Nat) (hs : s + n ≤ buf.length)
    (hd : d + n ≤ buf.length) :
    ∃ buf1, copy_n buf (s : Int) n (d : Int) = some buf1 ∧ buf1.length = buf.length ∧
      ∀ i, buf1[i]? = if d ≤ i ∧ i < d + n then buf[s + (i - d)]? else buf[i]? := by
  unfold copy_n
  by_cases hn : n = 0
  · subst hn
    refine ⟨buf, by simp, rfl, ?_⟩
    intro i
    rw [if_neg (by omega)]
  · have hlen : ((buf.drop s).take n).length = n := by
      simp only [List.length_take, List.length_drop]; omega
    rw [if_neg hn, if_pos ⟨by omega, by omega, by omega, by omega⟩]
    refine ⟨_, rfl, ?_, ?_⟩
    · exact length_writeRange _ _ _ (by simp only [Int.toNat_ofNat, hlen]; exact hd)
    · intro i
      rw [getElem?_writeRange _ _ _ (by simp only [Int.toNat_ofNat, hlen]; exact hd)]
      simp only [Int.toNat_ofNat, hlen, List.getElem?_take, List.getElem?_drop]
      split_ifs <;> first | rfl | omega

/-- A 32-bit difference that stays above zero is the exact difference. -/
theorem u32sub_eq (a b : Nat) (hb : b ≤ a) (ha : a < UINT32_MOD) : u32sub a b = a - b := by
  unfold u32sub UINT32_MOD at *
  omega

/-- A 32-bit product that fits is the exact product. -/
theorem u32mul_eq (a b : Nat) (h : a * b < UINT32_MOD) : u32mul a b = a * b := by
  unfold u32mul
  exact Nat.mod_eq_of_lt h

/-- The growing loop, entered with `k` rows left: it returns, keeps the length and
the cells from `k * new` on, and lays out each of the first `k` rows. -/
theorem growLoop_spec (cur new fill : Nat) (hc : 1 ≤ cur) (hcn : cur < new)
    (hn : new < UINT32_MOD) :
    ∀ (k fuel : Nat) (buf : List Nat), k < fuel → k * new ≤ buf.length →
      ∃ buf1, growLoop cur new fill fuel (((k * new : Nat) : Int) - 1)
          (((k * cur : Nat) : Int) - (cur : Nat)) buf = some buf1 ∧
        buf1.length = buf.length ∧
        (∀ i, k * new ≤ i → buf1[i]? = buf[i]?) ∧
        (∀ r x, r < k → x < new → buf1[r * new + x]? =
          if x < cur - 1 then buf[r * cur + x]?
          else if x < new - 1 then some fill else some newline) := by
  have e1 : u32sub new cur = new - cur := u32sub_eq _ _ (by omega) hn
  have e2 : u32sub cur 1 = cur - 1 := u32sub_eq _ _ hc (by omega)
  intro k
  induction k with
  | zero =>
    intro fuel buf hf _
    obtain ⟨f, rfl⟩ : ∃ f, fuel = f + 1 := ⟨fuel - 1, by omega⟩
    refine ⟨buf, ?_, rfl, fun _ _ => rfl, ?_⟩
    · unfold growLoop
      rw [if_neg (by omega)]
    · intro r x hr
      omega
  | succ k ih =>
    intro fuel buf hf hlen
    obtain ⟨f, rfl⟩ : ∃ f, fuel = f + 1 := ⟨fuel - 1, by omega⟩
    have hN : (k + 1) * new = k * new + new := Nat.succ_mul k new
    have hC : (k + 1) * cur = k * cur + cur := Nat.succ_mul k cur
    have hCN : k * cur ≤ k * new := Nat.mul_le_mul_left k (by omega)
    generalize hNd : k * new = N at *
    generalize hCd : k * cur = C at *
    obtain ⟨b1, hb1, l1, g1⟩ := store_spec buf (N + new - 1) newline (by omega)
    obtain ⟨b2, hb2, l2, g2⟩ := fill_n_spec b1 (N + cur - 1) (new - cur) fill (by omega)
    obtain ⟨b3, hb3, l3, g3⟩ := copy_n_spec b2 C (cur - 1) N (by omega) (by omega)
    obtain ⟨b4, hb4, l4, g4, g5⟩ := ih f b3 (by omega) (by omega)
    refine ⟨b4, ?_, by omega, ?_, ?_⟩
    · unfold growLoop
      rw [if_pos (by omega), e1, e2]
      have p1 : (((k + 1) * new : Nat) : Int) - 1 = ((N + new - 1 : Nat) : Int) := by omega
      rw [p1, hb1]
      simp only [Option.some_bind]
      have p2 : ((N + new - 1 : Nat) : Int) - ((new - cur : Nat) : Int)
          = ((N + cur - 1 : Nat) : Int) := by omega
      rw [p2, hb2]
      simp only [Option.some_bind]
      have p3 : (((k + 1) * cur : Nat) : Int) - (cur : Nat) = (C : Int) := by omega
      have p4 : ((N + cur - 1 : Nat) : Int) - ((cur - 1 : Nat) : Int) = (N : Int) := by omega
      rw [p3, p4, hb3]
      simp only [Option.some_bind]
      exact hb4
    · intro i hi
      rw [g4 i (by omega)]
      simp only [g3, g2, g1]
      split_ifs <;> first | rfl | omega
    · intro r x hr hx
      by_cases hrk : r < k
      · have hr1 : r * cur + cur ≤ C := by
          rw [← hCd, ← Nat.succ_mul]; exact Nat.mul_le_mul_right cur hrk
        rw [g5 r x hrk hx]
        split_ifs with hx1
        · simp only [g3, g2, g1]
          split_ifs <;> first | rfl | omega
        · rfl
        · rfl
      · have hrk2 : r = k := by omega
        subst hrk2
        rw [hNd, hCd, g4 _ (by omega)]
        simp only [g3, g2, g1]
        split_ifs <;> first | rfl | omega | rw [Nat.add_sub_cancel_left]

/-- The shrinking loop, entered after `j` rows with `k` rows left: it returns,
keeps the length and the cells before `j * new`, and compacts each of the
remaining rows. -/
theorem shrinkLoop_spec (cur new : Nat) (hn : 1 ≤ new) (hnc : new < cur)
    (hc : new < UINT32_MOD) :
    ∀ (k j fuel : Nat) (buf : List Nat), k < fuel → buf.length = (j + k) * cur →
      ∃ buf1, shrinkLoop cur new fuel ((j * new : Nat) : Int) ((j * cur : Nat) : Int) buf
          = some buf1 ∧
        buf1.length = buf.length ∧
        (∀ i, i < j * new → buf1[i]? = buf[i]?) ∧
        (∀ r x, j ≤ r → r < j + k → x < new → buf1[r * new + x]? =
          if x < new - 1 then buf[r * cur + x]? else some newline) := by
  have e1 : u32sub new 1 = new - 1 := u32sub_eq _ _ hn hc
  intro k
  induction k with
  | zero =>
    intro j fuel buf hf hlen
    obtain ⟨f, rfl⟩ : ∃ f, fuel = f + 1 := ⟨fuel - 1, by omega⟩
    refine ⟨buf, ?_, rfl, fun _ _ => rfl, ?_⟩
    · unfold shrinkLoop
      rw [if_neg (by rw [hlen]; simp)]
    · intro r x h1 h2
      omega
  | succ k ih =>
    intro j fuel buf hf hlen
    obtain ⟨f, rfl⟩ : ∃ f, fuel = f + 1 := ⟨fuel - 1, by omega⟩
    have hN : (j + 1) * new = j * new + new := Nat.succ_mul j new
    have hC : (j + 1) * cur = j * cur + cur := Nat.succ_mul j cur
    have hNC : j * new ≤ j * cur := Nat.mul_le_mul_left j (by omega)
    have hL : (j + (k + 1)) * cur = j * cur + cur + k * cur := by ring
    have hL2 : (j + 1 + k) * cur = j * cur + cur + k * cur := by ring
    obtain ⟨b1, hb1, l1, g1⟩ :=
      copy_n_spec buf (j * cur) (new - 1) (j * new) (by omega) (by omega)
    obtain ⟨b2, hb2, l2, g2⟩ := store_spec b1 (j * new + new - 1) newline (by omega)
    obtain ⟨b3, hb3, l3, g3, g4⟩ := ih (j + 1) f b2 (by omega) (by omega)
    refine ⟨b3, ?_, by omega, ?_, ?_⟩
    · unfold shrinkLoop
      rw [if_pos (by omega), e1, hb1]
      simp only [Option.some_bind]
      have p1 : ((j * new : Nat) : Int) + ((new - 1 : Nat) : Int)
          = ((j * new + new - 1 : Nat) : Int) := by omega
      rw [p1, hb2]
      simp only [Option.some_bind]
      have p2 : ((j * new + new - 1 : Nat) : Int) + 1 = (((j + 1) * new : Nat) : Int) := by
        omega
      have p3 : ((j * cur : Nat) : Int) + (cur : Nat) = (((j + 1) * cur : Nat) : Int) := by
        omega
      rw [p2, p3]
      exact hb3
    · intro i hi
      rw [g3 i (by omega)]
      simp only [g2, g1]
      split_ifs <;> first | rfl | omega
    · intro r x hr1 hr2 hx
      by_cases hrj : r = j
      · subst hrj
        rw [g3 _ (by omega)]
        simp only [g2, g1]
        split_ifs <;> first | rfl | omega | rw [Nat.add_sub_cancel_left]
      · have hr3 : (j + 1) * cur ≤ r * cur := Nat.mul_le_mul_right cur (by omega)
        rw [g4 r x (by omega) (by omega) hx]
        split_ifs with hx1
        · simp only [g2, g1]
          split_ifs <;> first | rfl | omega
        · rfl

/-- The stamping loop, entered at the last cell of row `j` of a buffer of `j + k`
rows: it returns, keeps the length, and writes the line break at the last cell
of every row from `j` on and nowhere else. -/
theorem stampRows_spec (step : Nat) (hs : 1 ≤ step) :
    ∀ (k j fuel : Nat) (buf : List Nat), k < fuel → buf.length = (j + k) * step →
      buf.length + step ≤ SIZE_MOD →
      ∃ buf1, stampRows step fuel (j * step + step - 1) buf = some buf1 ∧
        buf1.length = buf.length ∧
        (∀ i, i < j * step → buf1[i]? = buf[i]?) ∧
        (∀ r x, j ≤ r → r < j + k → x < step → buf1[r * step + x]? =
          if x < step - 1 then buf[r * step + x]? else some newline) := by
  intro k
  induction k with
  | zero =>
    intro j fuel buf hf hlen _
    obtain ⟨f, rfl⟩ : ∃ f, fuel = f + 1 := ⟨fuel - 1, by omega⟩
    refine ⟨buf, ?_, rfl, fun _ _ => rfl, ?_⟩
    · unfold stampRows
      rw [if_neg (by rw [hlen]; simp only [Nat.add_zero]; omega)]
    · intro r x h1 h2
      omega
  | succ k ih =>
    intro j fuel buf hf hlen hsz
    obtain ⟨f, rfl⟩ : ∃ f, fuel = f + 1 := ⟨fuel - 1, by omega⟩
    have hC : (j + 1) * step = j * step + step := Nat.succ_mul j step
    have hL : (j + (k + 1)) * step = j * step + step + k * step := by ring
    have hL2 : (j + 1 + k) * step = j * step + step + k * step := by ring
    obtain ⟨b3, hb3, l3, g3, g4⟩ :=
      ih (j + 1) f (buf.set (j * step + step - 1) newline) (by omega)
        (by rw [List.length_set]; omega) (by rw [List.length_set]; omega)
    rw [List.length_set] at l3
    have g1 : ∀ i, (buf.set (j * step + step - 1) newline)[i]? =
        if i = j * step + step - 1 then some newline else buf[i]? := by
      intro i
      rw [List.getElem?_set]
      split_ifs <;> first | rfl | omega
    refine ⟨b3, ?_, l3, ?_, ?_⟩
    · unfold stampRows
      rw [if_pos (by omega)]
      have p1 : (j * step + step - 1 + step) % SIZE_MOD = (j + 1) * step + step - 1 := by
        rw [Nat.mod_eq_of_lt (by omega)]; omega
      rw [p1]
      exact hb3
    · intro i hi
      rw [g3 i (by omega), g1]
      split_ifs <;> first | rfl | omega
    · intro r x hr1 hr2 hx
      by_cases hrj : r = j
      · subst hrj
        rw [g3 _ (by omega), g1]
        split_ifs <;> first | rfl | omega
      · have hr3 : (j + 1) * step ≤ r * step := Nat.mul_le_mul_right step (by omega)
        rw [g4 r x (by omega) (by omega) hx]
        split_ifs with hx1
        · rw [g1]
          split_ifs <;> first | rfl | omega
        · rfl

/-- The growing branch of `setX_AxisLen` on a grid of at least one row whose
buffer has `rows * cols` cells, the product `rows * newCols` fitting 32 bits. -/
theorem setX_AxisLen_grow_spec (m : CharMatrix) (newCols : Nat)
    (hlen : m.m_characterMatrix.length = m.m_Y_AxisLen * m.m_X_AxisLen)
    (hold : 1 ≤ m.m_X_AxisLen) (hgt : m.m_X_AxisLen < newCols) (hmin : 2 ≤ newCols)
    (hmax : newCols ≤ 168)
    (hrows : 1 ≤ m.m_Y_AxisLen) (hfit : m.m_Y_AxisLen * newCols < UINT32_MOD) :
    ∃ buf, m.setX_AxisLen newCols =
        .returned ⟨m.m_Y_AxisLen, newCols, m.m_fillCharacter, buf⟩ ∧
      buf.length = m.m_Y_AxisLen * newCols ∧
      ∀ r x, r < m.m_Y_AxisLen → x < newCols → buf[r * newCols + x]? =
        if x < m.m_X_AxisLen - 1 then m.m_characterMatrix[r * m.m_X_AxisLen + x]?
        else if x < newCols - 1 then some m.m_fillCharacter else some newline := by
  obtain ⟨Y, X, fill, old⟩ := m
  simp only at hlen hold hgt hrows hfit ⊢
  have hU : UINT32_MOD = 4294967296 := rfl
  have hYX : Y * X ≤ Y * newCols := Nat.mul_le_mul_left Y (by omega)
  have hY1 : (Y - 1) * X + X = Y * X := by
    rw [← Nat.succ_mul]; congr 1; omega
  have e0 : u32mul Y newCols = Y * newCols := u32mul_eq _ _ hfit
  have hYN : Y ≤ Y * newCols := Nat.le_mul_of_pos_right Y (by omega)
  have hYlt : Y < UINT32_MOD := by omega
  have e1 : u32sub Y 1 = Y - 1 := u32sub_eq _ _ hrows hYlt
  have e2 : u32mul (Y - 1) X = (Y - 1) * X := u32mul_eq (Y - 1) X (by omega)
  obtain ⟨buf, hb, hl, -, hg⟩ := growLoop_spec X newCols fill hold hgt (by omega) Y
    (Y * newCols + 1) (resize old (Y * newCols) fill) (by omega) (by rw [length_resize])
  rw [length_resize] at hl
  refine ⟨buf, ?_, hl, ?_⟩
  · unfold CharMatrix.setX_AxisLen
    simp only [max_allowed_x_axis_len, min_allowed_x_axis_len]
    rw [if_neg (by omega), if_neg (by omega), if_pos (by omega)]
    simp only [e0, e1, e2, length_resize]
    have p1 : (((Y - 1) * X : Nat) : Int) = ((Y * X : Nat) : Int) - (X : Nat) := by omega
    rw [p1, hb]
  · intro r x hr hx
    have hr1 : r * X + X ≤ Y * X := by
      rw [← Nat.succ_mul]; exact Nat.mul_le_mul_right X hr
    rw [hg r x hr hx]
    split_ifs with h1
    · rw [getElem?_resize, if_pos (by omega), if_pos (by omega)]
    · rfl
    · rfl

/-- The shrinking branch of `setX_AxisLen` on a grid whose buffer has
`rows * cols` cells, the product `rows * newCols` fitting 32 bits. -/
theorem setX_AxisLen_shrink_spec (m : CharMatrix) (newCols : Nat)
    (hlen : m.m_characterMatrix.length = m.m_Y_AxisLen * m.m_X_AxisLen)
    (hmin : 2 ≤ newCols) (hlt : newCols < m.m_X_AxisLen) (hmax : newCols ≤ 168)
    (hfit : m.m_Y_AxisLen * newCols < UINT32_MOD) :
    ∃ buf, m.setX_AxisLen newCols =
        .returned ⟨m.m_Y_AxisLen, newCols, m.m_fillCharacter, buf⟩ ∧
      buf.length = m.m_Y_AxisLen * newCols ∧
      ∀ r x, r < m.m_Y_AxisLen → x < newCols → buf[r * newCols + x]? =
        if x < newCols - 1 then m.m_characterMatrix[r * m.m_X_AxisLen + x]?
        else some newline := by
  obtain ⟨Y, X, fill, old⟩ := m
  simp only at hlen hlt hfit ⊢
  have hU : UINT32_MOD = 4294967296 := rfl
  have hYX : Y * newCols ≤ Y * X := Nat.mul_le_mul_left Y (by omega)
  have e0 : u32mul Y newCols = Y * newCols := u32mul_eq _ _ hfit
  obtain ⟨buf, hb, hl, -, hg⟩ := shrinkLoop_spec X newCols (by omega) hlt (by omega) Y 0
    (old.length + 1) old (by rw [hlen]; exact Nat.lt_succ_of_le (Nat.le_mul_of_pos_right Y (by omega)))
    (by rw [hlen, Nat.zero_add])
  simp only [Nat.zero_mul, Nat.cast_zero, Nat.zero_add] at hb hg
  refine ⟨resize buf (Y * newCols) 0, ?_, length_resize _ _ _, ?_⟩
  · unfold CharMatrix.setX_AxisLen
    simp only [max_allowed_x_axis_len, min_allowed_x_axis_len]
    rw [if_neg (by omega), if_neg (by omega), if_neg (by omega)]
    simp only [e0, hb]
  · intro r x hr hx
    have hr1 : r * newCols + newCols ≤ Y * newCols := by
      rw [← Nat.succ_mul]; exact Nat.mul_le_mul_right newCols hr
    rw [getElem?_resize, if_pos (by omega), if_pos (by omega), hg r x (Nat.zero_le r) hr hx]

/-- A store that succeeds keeps the length. -/
theorem store_length {buf buf1 : List Nat} {pos : Int} {c : Nat}
    (h : store buf pos c = some buf1) : buf1.length = buf.length := by
  unfold store at h
  split_ifs at h
  cases h
  exact List.length_set _ _ _

/-- A fill that succeeds keeps the length. -/
theorem fill_n_length {buf buf1 : List Nat} {pos : Int} {n c : Nat}
    (h : fill_n buf pos n c = some buf1) : buf1.length = buf.length := by
  unfold fill_n at h
  split_ifs at h with h1 h2
  · cases h; rfl
  · cases h
    apply length_writeRange
    rw [List.length_replicate]
    omega

/-- A copy that succeeds keeps the length. -/
theorem copy_n_length {buf buf1 : List Nat} {src dst : Int} {n : Nat}
    (h : copy_n buf src n dst = some buf1) : buf1.length = buf.length := by
  unfold copy_n at h
  split_ifs at h with h1 h2
  · cases h; rfl
  · cases h
    apply length_writeRange
    rw [List.length_take, List.length_drop]
    omega

/-- Whenever the growing loop returns, the buffer has kept its length. -/
theorem growLoop_length (cur new fill : Nat) :
    ∀ (fuel : Nat) (new_pos old_pos : Int) (buf buf1 : List Nat),
      growLoop cur new fill fuel new_pos old_pos buf = some buf1 → buf1.length = buf.length := by
  intro fuel
  induction fuel with
  | zero => intro _ _ _ _ h; simp [growLoop] at h
  | succ f ih =>
    intro new_pos old_pos buf buf1 h
    unfold growLoop at h
    split_ifs at h with h0
    · simp only [Option.bind_eq_some] at h
      obtain ⟨b1, hb1, b2, hb2, b3, hb3, h4⟩ := h
      rw [ih _ _ _ _ h4, copy_n_length hb3, fill_n_length hb2, store_length hb1]
    · cases h; rfl

/-- Whenever `setX_AxisLen` returns after a change of width, the buffer has as
many cells as the 32-bit product of the rows and the new width. -/
theorem setX_AxisLen_returned_length (m m1 : CharMatrix) (n : Nat) (hne : n ≠ m.m_X_AxisLen)
    (h : m.setX_AxisLen n = .returned m1) :
    m1.m_characterMatrix.length = u32mul m.m_Y_AxisLen n := by
  unfold CharMatrix.setX_AxisLen at h
  split_ifs at h with h1 h2
  · dsimp only at h
    split at h
    · rename_i buf hb
      cases h
      simp only
      rw [growLoop_length _ _ _ _ _ _ _ _ hb, length_resize]
    · cases h
  · split at h
    · cases h
      simp only
      rw [length_resize]
    · cases h

/-- When the 32-bit product of the rows and the new width is zero, the growing
branch of `setX_AxisLen` writes before the first cell of an empty buffer. -/
theorem setX_AxisLen_grow_wrap (m : CharMatrix) (n : Nat) (h1 : 2 ≤ n) (h2 : n ≤ 168)
    (h3 : m.m_X_AxisLen < n) (h4 : u32mul m.m_Y_AxisLen n = 0) :
    m.setX_AxisLen n = .undefined := by
  have hr : resize m.m_characterMatrix 0 m.m_fillCharacter = [] :=
    List.length_eq_zero.mp (length_resize _ _ _)
  unfold CharMatrix.setX_AxisLen
  simp only [max_allowed_x_axis_len, min_allowed_x_axis_len]
  rw [if_neg (by omega), if_neg (by omega), if_pos (by omega)]
  simp only [h4, hr, List.length_nil, Nat.zero_add]
  unfold growLoop
  rw [if_pos (Int.natCast_nonneg _)]
  have hs : store [] ((0 : Nat) - 1 : Int) newline = none := by
    unfold store
    rw [if_neg (by simp)]
  simp only [Nat.cast_zero] at hs ⊢
  rw [hs]
  rfl

/-- A 32-bit sum that fits is the exact sum. -/
theorem u32add_eq (a b : Nat) (h : a + b < UINT32_MOD) : u32add a b = a + b := by
  unfold u32add
  exact Nat.mod_eq_of_lt h

/-- A `resize` to at most the current length keeps the first cells. -/
theorem resize_eq_take (buf : List Nat) (n c : Nat) (h : n ≤ buf.length) :
    resize buf n c = buf.take n := by
  unfold resize
  rw [Nat.sub_eq_zero_of_le h]
  simp

/-- The growing branch of `setY_AxisLen` on a grid of at least one column whose
buffer has `rows * cols` cells, the product `newRows * cols` fitting 32 bits. -/
theorem setY_AxisLen_grow_spec (m : CharMatrix) (newRows : Nat)
    (hlen : m.m_characterMatrix.length = m.m_Y_AxisLen * m.m_X_AxisLen)
    (hmax : newRows ≤ 50) (hgt : m.m_Y_AxisLen < newRows) (hcols : 1 ≤ m.m_X_AxisLen)
    (hfit : newRows * m.m_X_AxisLen < UINT32_MOD) :
    ∃ buf, m.setY_AxisLen newRows =
        .returned ⟨newRows, m.m_X_AxisLen, m.m_fillCharacter, buf⟩ ∧
      buf.length = newRows * m.m_X_AxisLen ∧
      (∀ i, i < m.m_Y_AxisLen * m.m_X_AxisLen → buf[i]? = m.m_characterMatrix[i]?) ∧
      ∀ r x, m.m_Y_AxisLen ≤ r → r < newRows → x < m.m_X_AxisLen → buf[r * m.m_X_AxisLen + x]? =
        if x < m.m_X_AxisLen - 1 then some m.m_fillCharacter else some newline := by
  obtain ⟨Y, X, fill, old⟩ := m
  simp only at hlen hgt hcols hfit ⊢
  have hU : UINT32_MOD = 4294967296 := rfl
  have hS : SIZE_MOD = 18446744073709551616 := rfl
  obtain ⟨d, rfl⟩ : ∃ d, newRows = Y + d := ⟨newRows - Y, by omega⟩
  have hm1 : (Y + d) * X = Y * X + d * X := Nat.add_mul Y d X
  have hm2 : (Y + 1) * X = Y * X + X := Nat.succ_mul Y X
  have hdX : X ≤ d * X := Nat.le_mul_of_pos_left X (by omega)
  have hdd : d ≤ d * X := Nat.le_mul_of_pos_right d hcols
  have e1 : u32sub (Y + d) Y = d := by rw [u32sub_eq _ _ (by omega) (by omega)]; omega
  have e2 : u32mul d X = d * X := u32mul_eq d X (by omega)
  have e3 : u32add Y 1 = Y + 1 := u32add_eq Y 1 (by omega)
  have e4 : u32mul (Y + 1) X = (Y + 1) * X := u32mul_eq (Y + 1) X (by omega)
  have e5 : u32sub ((Y + 1) * X) 1 = Y * X + X - 1 := by
    rw [u32sub_eq _ _ (by omega) (by omega)]; omega
  have hgl : (resize old (old.length + d * X) fill).length = (Y + d) * X := by
    rw [length_resize]; omega
  obtain ⟨buf, hb, hl, h1, h2⟩ := stampRows_spec X hcols d Y
    ((resize old (old.length + d * X) fill).length + 1) (resize old (old.length + d * X) fill)
    (by rw [hgl]; omega) hgl (by rw [hgl]; omega)
  refine ⟨buf, ?_, by rw [hl, hgl], ?_, ?_⟩
  · unfold CharMatrix.setY_AxisLen
    simp only [max_allowed_y_axis_len, min_allowed_y_axis_len]
    rw [if_neg (by omega), if_neg (by omega), if_pos (by omega)]
    simp only [e1, e2, e3, e4, e5, hb]
  · intro i hi
    rw [h1 i hi, getElem?_resize, if_pos (by omega), if_pos (by omega)]
  · intro r x hr1 hr2 hx
    have hr3 : Y * X ≤ r * X := Nat.mul_le_mul_right X hr1
    have hr4 : r * X + X ≤ (Y + d) * X := by
      rw [← Nat.succ_mul]; exact Nat.mul_le_mul_right X hr2
    rw [h2 r x hr1 hr2 hx]
    split_ifs with hx1
    · rw [getElem?_resize, if_pos (by omega), if_neg (by omega)]
    · rfl

/-- The shrinking branch of `setY_AxisLen` on a grid whose buffer has
`rows * cols` cells, the product `rows * cols` fitting 32 bits. -/
theorem setY_AxisLen_shrink_spec (m : CharMatrix) (newRows : Nat)
    (hlen : m.m_characterMatrix.length = m.m_Y_AxisLen * m.m_X_AxisLen)
    (hmin : 1 ≤ newRows) (hmax : newRows ≤ 50) (hlt : newRows < m.m_Y_AxisLen)
    (hcols : 1 ≤ m.m_X_AxisLen)
    (hfit : m.m_Y_AxisLen * m.m_X_AxisLen < UINT32_MOD) :
    m.setY_AxisLen newRows =
      .returned ⟨newRows, m.m_X_AxisLen, m.m_fillCharacter,
        m.m_characterMatrix.take (newRows * m.m_X_AxisLen)⟩ := by
  obtain ⟨Y, X, fill, old⟩ := m
  simp only at hlen hlt hcols hfit ⊢
  have hU : UINT32_MOD = 4294967296 := rfl
  obtain ⟨d, rfl⟩ : ∃ d, Y = newRows + d := ⟨Y - newRows, by omega⟩
  have hm1 : (newRows + d) * X = newRows * X + d * X := Nat.add_mul newRows d X
  have hY : newRows + d ≤ (newRows + d) * X := Nat.le_mul_of_pos_right _ (by omega)
  have e1 : u32sub (newRows + d) newRows = d := by
    rw [u32sub_eq _ _ (by omega) (by omega)]; omega
  have e2 : u32mul d X = d * X := u32mul_eq d X (by omega)
  unfold CharMatrix.setY_AxisLen
  simp only [max_allowed_y_axis_len, min_allowed_y_axis_len]
  rw [if_neg (by omega), if_neg (by omega), if_neg (by omega)]
  simp only [e1, e2]
  rw [if_pos (by omega), resize_eq_take _ _ _ (by omega)]
  have : old.length - d * X = newRows * X := by omega
  rw [this]

/-- Whenever `setY_AxisLen` returns from its shrinking branch, the buffer has lost
as many cells as the 32-bit product of the row difference and the width. -/
theorem setY_AxisLen_shrink_length (m m1 : CharMatrix) (n : Nat) (h1 : 1 ≤ n) (h2 : n ≤ 50)
    (h3 : n < m.m_Y_AxisLen) (h : m.setY_AxisLen n = .returned m1) :
    m1.m_characterMatrix.length =
      m.m_characterMatrix.length - u32mul (u32sub m.m_Y_AxisLen n) m.m_X_AxisLen := by
  unfold CharMatrix.setY_AxisLen at h
  simp only [max_allowed_y_axis_len, min_allowed_y_axis_len] at h
  rw [if_neg (by omega), if_neg (by omega), if_neg (by omega)] at h
  split_ifs at h with h4
  cases h
  simp only
  rw [length_resize]

/-- An integer inside the range of `std::int64_t` converts to itself. -/
theorem toInt64_eq (v : Int) (h1 : -9223372036854775808 ≤ v) (h2 : v < 9223372036854775808) :
    toInt64 v = v := by
  unfold toInt64
  omega

/-- Every enumerator is in `chars_for_drawing`. -/
theorem chars_for_drawing_contains_toChar (g : AllowedChars) :
    chars_for_drawing.contains g = true := by
  cases g <;> decide

/-- The test on a `char` holds exactly for the four drawing characters. -/
theorem chars_for_drawing_contains_iff (c : Nat) :
    chars_for_drawing_contains c = true ↔
      (c = AllowedChars.Dash.toChar ∨ c = AllowedChars.BackSlash.toChar ∨
        c = AllowedChars.ForwardSlash.toChar ∨ c = AllowedChars.VerticalSlash.toChar) := by
  simp only [chars_for_drawing_contains, chars_for_drawing, List.any_cons, List.any_nil,
    Bool.or_false, Bool.or_eq_true, beq_iff_eq, AllowedChars.toChar]
  omega

/-- One point taken twice is classified as nothing. -/
theorem processCoordsToObtainCharType_same_point (x y : Nat) :
    processCoordsToObtainCharType ⟨x, y, x, y⟩ = none := by
  unfold processCoordsToObtainCharType
  simp [toInt64]

/-- For 32-bit coordinates and a 32-bit width the offset computed by
`operator[ ]` is `y * cols + x`: the 64-bit sum does not wrap. -/
theorem cellIndex_of_uint32 (m : CharMatrix) (x y : Nat) (hx : x < UINT32_MOD)
    (hy : y < UINT32_MOD) (hc : m.m_X_AxisLen < UINT32_MOD) :
    m.cellIndex x y = y * m.m_X_AxisLen + x := by
  have h : y * m.m_X_AxisLen ≤ 4294967295 * 4294967295 :=
    Nat.mul_le_mul (Nat.le_of_lt_succ hy) (Nat.le_of_lt_succ hc)
  unfold CharMatrix.cellIndex SIZE_MOD
  unfold UINT32_MOD at hx
  omega

/-! ## C1: growing the columns -/

/-- Claim C1, as amended. On a grid of at least one row whose buffer has
`rows * oldCols` cells, `oldCols` at least 2, and for every `newCols` with
`oldCols < newCols ≤ 168` whose 32-bit product `rows * newCols` does not wrap,
`setX_AxisLen newCols` returns; the grid then has the same rows and fill
character, `newCols` columns and `rows * newCols` cells, and in every row the
first `oldCols - 1` cells are the old ones, the cells at `oldCols - 1 ≤ x < newCols - 1`
hold the fill character and the last cell holds the line break. -/
theorem setX_AxisLen_grows_columns (m : CharMatrix) (newCols : Nat)
    (hlen : m.m_characterMatrix.length = m.m_Y_AxisLen * m.m_X_AxisLen)
    (hold : 2 ≤ m.m_X_AxisLen) (hgt : m.m_X_AxisLen < newCols) (hmax : newCols ≤ 168)
    (hrows : 1 ≤ m.m_Y_AxisLen) (hfit : m.m_Y_AxisLen * newCols < UINT32_MOD) :
    ∃ m1, m.setX_AxisLen newCols = .returned m1 ∧
      m1.m_Y_AxisLen = m.m_Y_AxisLen ∧ m1.m_X_AxisLen = newCols ∧
      m1.m_fillCharacter = m.m_fillCharacter ∧
      m1.m_characterMatrix.length = m.m_Y_AxisLen * newCols ∧
      ∀ r, r < m.m_Y_AxisLen →
        (∀ x, x < m.m_X_AxisLen - 1 →
          m1.m_characterMatrix[r * newCols + x]? =
            m.m_characterMatrix[r * m.m_X_AxisLen + x]?) ∧
        (∀ x, m.m_X_AxisLen - 1 ≤ x → x < newCols - 1 →
          m1.m_characterMatrix[r * newCols + x]? = some m.m_fillCharacter) ∧
        m1.m_characterMatrix[r * newCols + (newCols - 1)]? = some newline := by
  obtain ⟨buf, hb, hl, hg⟩ :=
    setX_AxisLen_grow_spec m newCols hlen (by omega) hgt (by omega) hmax hrows hfit
  refine ⟨_, hb, rfl, rfl, rfl, hl, ?_⟩
  intro r hr
  refine ⟨?_, ?_, ?_⟩
  · intro x hx
    rw [hg r x hr (by omega), if_pos hx]
  · intro x hx1 hx2
    rw [hg r x hr (by omega), if_neg (by omega), if_pos hx2]
  · rw [hg r _ hr (by omega), if_neg (by omega), if_neg (by omega)]

/-- The hypotheses of claim C1 as amended hold for the grid of two rows of three
cells widened to five columns, and so does its conclusion. -/
theorem setX_AxisLen_grows_columns_witness :
    (grid_2x3.m_characterMatrix.length = grid_2x3.m_Y_AxisLen * grid_2x3.m_X_AxisLen ∧
      2 ≤ grid_2x3.m_X_AxisLen ∧ grid_2x3.m_X_AxisLen < 5 ∧ 5 ≤ 168 ∧
      1 ≤ grid_2x3.m_Y_AxisLen ∧ grid_2x3.m_Y_AxisLen * 5 < UINT32_MOD) ∧
    ∃ m1, grid_2x3.setX_AxisLen 5 = .returned m1 ∧
      m1.m_Y_AxisLen = grid_2x3.m_Y_AxisLen ∧ m1.m_X_AxisLen = 5 ∧
      m1.m_fillCharacter = grid_2x3.m_fillCharacter ∧
      m1.m_characterMatrix.length = grid_2x3.m_Y_AxisLen * 5 ∧
      ∀ r, r < grid_2x3.m_Y_AxisLen →
        (∀ x, x < grid_2x3.m_X_AxisLen - 1 →
          m1.m_characterMatrix[r * 5 + x]? =
            grid_2x3.m_characterMatrix[r * grid_2x3.m_X_AxisLen + x]?) ∧
        (∀ x, grid_2x3.m_X_AxisLen - 1 ≤ x → x < 5 - 1 →
          m1.m_characterMatrix[r * 5 + x]? = some grid_2x3.m_fillCharacter) ∧
        m1.m_characterMatrix[r * 5 + (5 - 1)]? = some newline :=
  ⟨by decide,
   setX_AxisLen_grows_columns grid_2x3 5 (by decide) (by decide) (by decide) (by decide)
     (by decide) (by decide)⟩

/-- Claim C1 fails as stated, at two states that satisfy all it asks for. On
`CharMatrix( 0, 5, 32 )`, whose buffer is empty, `setX_AxisLen 10` stores the line
break one cell before the buffer. On a state of 2147483648 rows of two cells,
`setX_AxisLen 4` resizes the buffer to the wrapped product, zero, and then does
the same. -/
theorem setX_AxisLen_grow_refuted :
    (grid_0x5.m_characterMatrix.length = grid_0x5.m_Y_AxisLen * grid_0x5.m_X_AxisLen ∧
      2 ≤ grid_0x5.m_X_AxisLen ∧ grid_0x5.m_X_AxisLen < 10 ∧ 10 ≤ 168 ∧
      grid_0x5.setX_AxisLen 10 = .undefined) ∧
    (grid_huge_x2.m_characterMatrix.length =
        grid_huge_x2.m_Y_AxisLen * grid_huge_x2.m_X_AxisLen ∧
      2 ≤ grid_huge_x2.m_X_AxisLen ∧ grid_huge_x2.m_X_AxisLen < 4 ∧ 4 ≤ 168 ∧
      grid_huge_x2.setX_AxisLen 4 = .undefined) := by
  refine ⟨by decide, ?_, by decide, by decide, by decide, ?_⟩
  · exact List.length_replicate _ _
  · exact setX_AxisLen_grow_wrap grid_huge_x2 4 (by decide) (by decide) (by decide) (by decide)

/-! ## C2: shrinking the columns -/

/-- Claim C2, as amended. On a grid whose buffer has `rows * oldCols` cells and for
every `newCols` with `2 ≤ newCols < oldCols`, `newCols ≤ 168`, whose 32-bit product
`rows * newCols` does not wrap, `setX_AxisLen newCols` returns; the grid then has
the same rows and fill character, `newCols` columns and `rows * newCols` cells,
and in every row the first `newCols - 1` cells are the old ones and the last cell
holds the line break. -/
theorem setX_AxisLen_shrinks_columns (m : CharMatrix) (newCols : Nat)
    (hlen : m.m_characterMatrix.length = m.m_Y_AxisLen * m.m_X_AxisLen)
    (hmin : 2 ≤ newCols) (hlt : newCols < m.m_X_AxisLen) (hmax : newCols ≤ 168)
    (hfit : m.m_Y_AxisLen * newCols < UINT32_MOD) :
    ∃ m1, m.setX_AxisLen newCols = .returned m1 ∧
      m1.m_Y_AxisLen = m.m_Y_AxisLen ∧ m1.m_X_AxisLen = newCols ∧
      m1.m_fillCharacter = m.m_fillCharacter ∧
      m1.m_characterMatrix.length = m.m_Y_AxisLen * newCols ∧
      ∀ r, r < m.m_Y_AxisLen →
        (∀ x, x < newCols - 1 →
          m1.m_characterMatrix[r * newCols + x]? =
            m.m_characterMatrix[r * m.m_X_AxisLen + x]?) ∧
        m1.m_characterMatrix[r * newCols + (newCols - 1)]? = some newline := by
  obtain ⟨buf, hb, hl, hg⟩ := setX_AxisLen_shrink_spec m newCols hlen hmin hlt hmax hfit
  refine ⟨_, hb, rfl, rfl, rfl, hl, ?_⟩
  intro r hr
  refine ⟨?_, ?_⟩
  · intro x hx
    rw [hg r x hr (by omega), if_pos hx]
  · rw [hg r _ hr (by omega), if_neg (by omega)]

/-- The hypotheses of claim C2 as amended hold for the grid of two rows of five
cells narrowed to three columns, and so does its conclusion. -/
theorem setX_AxisLen_shrinks_columns_witness :
    (grid_2x5.m_characterMatrix.length = grid_2x5.m_Y_AxisLen * grid_2x5.m_X_AxisLen ∧
      2 ≤ 3 ∧ 3 < grid_2x5.m_X_AxisLen ∧ 3 ≤ 168 ∧
      grid_2x5.m_Y_AxisLen * 3 < UINT32_MOD) ∧
    ∃ m1, grid_2x5.setX_AxisLen 3 = .returned m1 ∧
      m1.m_Y_AxisLen = grid_2x5.m_Y_AxisLen ∧ m1.m_X_AxisLen = 3 ∧
      m1.m_fillCharacter = grid_2x5.m_fillCharacter ∧
      m1.m_characterMatrix.length = grid_2x5.m_Y_AxisLen * 3 ∧
      ∀ r, r < grid_2x5.m_Y_AxisLen →
        (∀ x, x < 3 - 1 →
          m1.m_characterMatrix[r * 3 + x]? =
            grid_2x5.m_characterMatrix[r * grid_2x5.m_X_AxisLen + x]?) ∧
        m1.m_characterMatrix[r * 3 + (3 - 1)]? = some newline :=
  ⟨by decide,
   setX_AxisLen_shrinks_columns grid_2x5 3 (by decide) (by decide) (by decide) (by decide)
     (by decide)⟩

/-- Claim C2 fails as stated, at two states that satisfy all it asks for. On
`CharMatrix( 1, 200, 32 )` the call `setX_AxisLen 170` throws, 170 being above the
maximum, and the width stays 200. On a state of 2147483648 rows of three cells
no call `setX_AxisLen 2` returns a buffer of `rows * 2` cells, the buffer being
resized to the wrapped product. -/
theorem setX_AxisLen_shrink_refuted :
    (grid_1x200.m_characterMatrix.length = grid_1x200.m_Y_AxisLen * grid_1x200.m_X_AxisLen ∧
      2 ≤ 170 ∧ 170 < grid_1x200.m_X_AxisLen ∧
      grid_1x200.setX_AxisLen 170 = .threw .Invalid_X_Axis_Len_Exception grid_1x200) ∧
    (grid_huge_x3.m_characterMatrix.length =
        grid_huge_x3.m_Y_AxisLen * grid_huge_x3.m_X_AxisLen ∧
      2 ≤ 2 ∧ 2 < grid_huge_x3.m_X_AxisLen ∧
      ¬ ∃ m1, grid_huge_x3.setX_AxisLen 2 = .returned m1 ∧
        m1.m_characterMatrix.length = grid_huge_x3.m_Y_AxisLen * 2) := by
  refine ⟨⟨?_, by decide, by decide, ?_⟩, ?_, by decide, by decide, ?_⟩
  · show (List.replicate 199 32 ++ [10]).length = 1 * 200
    rw [List.length_append, List.length_replicate]
    rfl
  · unfold CharMatrix.setX_AxisLen
    rw [if_pos (by decide)]
  · exact List.length_replicate _ _
  · rintro ⟨m1, h, hl⟩
    have h2 := setX_AxisLen_returned_length grid_huge_x3 m1 2 (by decide) h
    have h3 : u32mul grid_huge_x3.m_Y_AxisLen 2 = 0 := by decide
    have h4 : grid_huge_x3.m_Y_AxisLen * 2 = 4294967296 := by decide
    omega

/-! ## C3: growing then shrinking the columns -/

/-- Claim C3, as amended. On a grid of at least one row and at least two columns
that satisfies I1 (the buffer has `rows * cols` cells) and I2 (the last cell of
every row holds the line break), and for every `c'` with `cols < c' ≤ 168` whose
32-bit product `rows * c'` does not wrap, `setX_AxisLen c'` returns and
`setX_AxisLen cols` on its result returns the original grid: rows, cols, fill
character and every cell of the buffer. -/
theorem setX_AxisLen_grow_then_shrink (m : CharMatrix) (c' : Nat)
    (hI1 : m.m_characterMatrix.length = m.m_Y_AxisLen * m.m_X_AxisLen)
    (hI2 : ∀ r, r < m.m_Y_AxisLen →
      m.m_characterMatrix[r * m.m_X_AxisLen + (m.m_X_AxisLen - 1)]? = some newline)
    (hc : 2 ≤ m.m_X_AxisLen) (hgt : m.m_X_AxisLen < c') (hmax : c' ≤ 168)
    (hrows : 1 ≤ m.m_Y_AxisLen) (hfit : m.m_Y_AxisLen * c' < UINT32_MOD) :
    ∃ m1, m.setX_AxisLen c' = .returned m1 ∧
      m1.setX_AxisLen m.m_X_AxisLen = .returned m := by
  obtain ⟨buf1, hb1, hl1, hg1⟩ :=
    setX_AxisLen_grow_spec m c' hI1 (by omega) hgt (by omega) hmax hrows hfit
  have hYX : m.m_Y_AxisLen * m.m_X_AxisLen ≤ m.m_Y_AxisLen * c' :=
    Nat.mul_le_mul_left _ (by omega)
  obtain ⟨buf2, hb2, hl2, hg2⟩ :=
    setX_AxisLen_shrink_spec ⟨m.m_Y_AxisLen, c', m.m_fillCharacter, buf1⟩ m.m_X_AxisLen
      hl1 hc hgt (by omega) (by simp only; omega)
  simp only at hb2 hl2 hg2
  refine ⟨_, hb1, ?_⟩
  rw [hb2]
  have hbuf : buf2 = m.m_characterMatrix := by
    apply List.ext_getElem?
    intro i
    by_cases hi : i < m.m_Y_AxisLen * m.m_X_AxisLen
    · have hX : 0 < m.m_X_AxisLen := by omega
      have hr : i / m.m_X_AxisLen < m.m_Y_AxisLen :=
        (Nat.div_lt_iff_lt_mul hX).mpr hi
      have hx : i % m.m_X_AxisLen < m.m_X_AxisLen := Nat.mod_lt _ hX
      have hdecomp : i / m.m_X_AxisLen * m.m_X_AxisLen + i % m.m_X_AxisLen = i := by
        rw [Nat.mul_comm]; exact Nat.div_add_mod i _
      have h2 := hg2 _ _ hr hx
      rw [hdecomp] at h2
      rw [h2]
      split_ifs with hlast
      · rw [hg1 _ _ hr (by omega), if_pos hlast, hdecomp]
      · have h3 := hI2 _ hr
        have h4 : i % m.m_X_AxisLen = m.m_X_AxisLen - 1 := by omega
        rw [← h4, hdecomp] at h3
        exact h3.symm
    · rw [List.getElem?_eq_none (by omega), List.getElem?_eq_none (by omega)]
  rw [hbuf]

/-- The hypotheses of claim C3 as amended hold for the grid of two rows of three
cells widened to five columns and narrowed again, and so does its conclusion. -/
theorem setX_AxisLen_grow_then_shrink_witness :
    (grid_2x3.m_characterMatrix.length = grid_2x3.m_Y_AxisLen * grid_2x3.m_X_AxisLen ∧
      (∀ r, r < grid_2x3.m_Y_AxisLen →
        grid_2x3.m_characterMatrix[r * grid_2x3.m_X_AxisLen + (grid_2x3.m_X_AxisLen - 1)]?
          = some newline) ∧
      2 ≤ grid_2x3.m_X_AxisLen ∧ grid_2x3.m_X_AxisLen < 5 ∧ 5 ≤ 168 ∧
      1 ≤ grid_2x3.m_Y_AxisLen ∧ grid_2x3.m_Y_AxisLen * 5 < UINT32_MOD) ∧
    ∃ m1, grid_2x3.setX_AxisLen 5 = .returned m1 ∧
      m1.setX_AxisLen grid_2x3.m_X_AxisLen = .returned grid_2x3 :=
  ⟨by decide,
   setX_AxisLen_grow_then_shrink grid_2x3 5 (by decide) (by decide) (by decide) (by decide)
     (by decide) (by decide) (by decide)⟩

/-- Claim C3 fails as stated, at three states that satisfy I1 and I2. On
`CharMatrix( 1, 1, 32 )` the widening to two columns returns and the narrowing
back to one column throws, one being below the minimum. On `CharMatrix( 0, 5, 32 )`
the widening stores a cell before the buffer, and so does the widening of a
state of 2147483648 rows of two cells, whose product with the new width wraps. -/
theorem setX_AxisLen_round_trip_refuted :
    (grid_1x1.m_characterMatrix.length = grid_1x1.m_Y_AxisLen * grid_1x1.m_X_AxisLen ∧
      (∀ r, r < grid_1x1.m_Y_AxisLen →
        grid_1x1.m_characterMatrix[r * grid_1x1.m_X_AxisLen + (grid_1x1.m_X_AxisLen - 1)]?
          = some newline) ∧
      grid_1x1.m_X_AxisLen < 2 ∧ 2 ≤ 168 ∧
      grid_1x1.setX_AxisLen 2 = .returned ⟨1, 2, 32, [32, 10]⟩ ∧
      (⟨1, 2, 32, [32, 10]⟩ : CharMatrix).setX_AxisLen grid_1x1.m_X_AxisLen =
        .threw .Invalid_X_Axis_Len_Exception ⟨1, 2, 32, [32, 10]⟩) ∧
    (grid_0x5.m_characterMatrix.length = grid_0x5.m_Y_AxisLen * grid_0x5.m_X_AxisLen ∧
      (∀ r, r < grid_0x5.m_Y_AxisLen →
        grid_0x5.m_characterMatrix[r * grid_0x5.m_X_AxisLen + (grid_0x5.m_X_AxisLen - 1)]?
          = some newline) ∧
      grid_0x5.m_X_AxisLen < 6 ∧ 6 ≤ 168 ∧
      grid_0x5.setX_AxisLen 6 = .undefined) ∧
    (grid_huge_x2.m_characterMatrix.length =
        grid_huge_x2.m_Y_AxisLen * grid_huge_x2.m_X_AxisLen ∧
      (∀ r, r < grid_huge_x2.m_Y_AxisLen →
        grid_huge_x2.m_characterMatrix[r * grid_huge_x2.m_X_AxisLen +
          (grid_huge_x2.m_X_AxisLen - 1)]? = some newline) ∧
      grid_huge_x2.m_X_AxisLen < 8 ∧ 8 ≤ 168 ∧
      grid_huge_x2.setX_AxisLen 8 = .undefined) := by
  refine ⟨by decide, by decide, ?_, ?_, by decide, by decide, ?_⟩
  · exact List.length_replicate _ _
  · intro r hr
    show (List.replicate 4294967296 10)[r * 2 + (2 - 1)]? = some 10
    have hr2 : r < 2147483648 := hr
    rw [List.getElem?_replicate, if_pos (by omega)]
  · exact setX_AxisLen_grow_wrap grid_huge_x2 8 (by decide) (by decide) (by decide) (by decide)

/-! ## C4: resizing the rows -/

/-- Claim C4, as amended. On a grid of at least one column whose buffer has
`oldRows * cols` cells, and for every `newRows` in `[1, 50]`, the 32-bit products
`oldRows * cols` and `newRows * cols` not wrapping, `setY_AxisLen newRows` returns;
the grid then has `newRows` rows, the same cols and fill character and
`newRows * cols` cells. When `newRows > oldRows` the first `oldRows * cols` cells
are the old ones and every added row is `cols - 1` cells holding the fill
character followed by the line break; when `newRows < oldRows` the buffer is the
first `newRows * cols` cells of the old one. -/
theorem setY_AxisLen_resizes_rows (m : CharMatrix) (newRows : Nat)
    (hlen : m.m_characterMatrix.length = m.m_Y_AxisLen * m.m_X_AxisLen)
    (hmin : 1 ≤ newRows) (hmax : newRows ≤ 50) (hcols : 1 ≤ m.m_X_AxisLen)
    (hfitOld : m.m_Y_AxisLen * m.m_X_AxisLen < UINT32_MOD)
    (hfitNew : newRows * m.m_X_AxisLen < UINT32_MOD) :
    ∃ m1, m.setY_AxisLen newRows = .returned m1 ∧
      m1.m_Y_AxisLen = newRows ∧ m1.m_X_AxisLen = m.m_X_AxisLen ∧
      m1.m_fillCharacter = m.m_fillCharacter ∧
      m1.m_characterMatrix.length = newRows * m.m_X_AxisLen ∧
      (m.m_Y_AxisLen < newRows →
        (∀ i, i < m.m_Y_AxisLen * m.m_X_AxisLen →
          m1.m_characterMatrix[i]? = m.m_characterMatrix[i]?) ∧
        ∀ r, m.m_Y_AxisLen ≤ r → r < newRows →
          (∀ x, x < m.m_X_AxisLen - 1 →
            m1.m_characterMatrix[r * m.m_X_AxisLen + x]? = some m.m_fillCharacter) ∧
          m1.m_characterMatrix[r * m.m_X_AxisLen + (m.m_X_AxisLen - 1)]? = some newline) ∧
      (newRows < m.m_Y_AxisLen →
        m1.m_characterMatrix = m.m_characterMatrix.take (newRows * m.m_X_AxisLen)) := by
  rcases Nat.lt_trichotomy m.m_Y_AxisLen newRows with hlt | heq | hgt
  · obtain ⟨buf, hb, hl, h1, h2⟩ := setY_AxisLen_grow_spec m newRows hlen hmax hlt hcols hfitNew
    refine ⟨_, hb, rfl, rfl, rfl, hl, ?_, ?_⟩
    · intro _
      refine ⟨h1, ?_⟩
      intro r hr1 hr2
      refine ⟨?_, ?_⟩
      · intro x hx
        rw [h2 r x hr1 hr2 (by omega), if_pos hx]
      · rw [h2 r _ hr1 hr2 (by omega), if_neg (by omega)]
    · intro h
      omega
  · refine ⟨m, ?_, heq, rfl, rfl, by rw [hlen, heq], ?_, ?_⟩
    · unfold CharMatrix.setY_AxisLen
      simp only [max_allowed_y_axis_len, min_allowed_y_axis_len]
      rw [if_neg (by omega), if_pos heq.symm]
    · intro h
      omega
    · intro h
      omega
  · have hle : newRows * m.m_X_AxisLen ≤ m.m_Y_AxisLen * m.m_X_AxisLen :=
      Nat.mul_le_mul_right _ (by omega)
    refine ⟨_, setY_AxisLen_shrink_spec m newRows hlen hmin hmax hgt hcols hfitOld,
      rfl, rfl, rfl, ?_, ?_, ?_⟩
    · simp only [List.length_take]
      omega
    · intro h
      omega
    · intro _
      rfl

/-- The hypotheses of claim C4 as amended hold for the grid of two rows of three
cells resized to four rows, and so does its conclusion. -/
theorem setY_AxisLen_resizes_rows_witness :
    (grid_2x3.m_characterMatrix.length = grid_2x3.m_Y_AxisLen * grid_2x3.m_X_AxisLen ∧
      1 ≤ 4 ∧ 4 ≤ 50 ∧ 1 ≤ grid_2x3.m_X_AxisLen ∧
      grid_2x3.m_Y_AxisLen * grid_2x3.m_X_AxisLen < UINT32_MOD ∧
      4 * grid_2x3.m_X_AxisLen < UINT32_MOD) ∧
    ∃ m1, grid_2x3.setY_AxisLen 4 = .returned m1 ∧
      m1.m_Y_AxisLen = 4 ∧ m1.m_X_AxisLen = grid_2x3.m_X_AxisLen ∧
      m1.m_fillCharacter = grid_2x3.m_fillCharacter ∧
      m1.m_characterMatrix.length = 4 * grid_2x3.m_X_AxisLen ∧
      (grid_2x3.m_Y_AxisLen < 4 →
        (∀ i, i < grid_2x3.m_Y_AxisLen * grid_2x3.m_X_AxisLen →
          m1.m_characterMatrix[i]? = grid_2x3.m_characterMatrix[i]?) ∧
        ∀ r, grid_2x3.m_Y_AxisLen ≤ r → r < 4 →
          (∀ x, x < grid_2x3.m_X_AxisLen - 1 →
            m1.m_characterMatrix[r * grid_2x3.m_X_AxisLen + x]? =
              some grid_2x3.m_fillCharacter) ∧
          m1.m_characterMatrix[r * grid_2x3.m_X_AxisLen + (grid_2x3.m_X_AxisLen - 1)]? =
            some newline) ∧
      (4 < grid_2x3.m_Y_AxisLen →
        m1.m_characterMatrix = grid_2x3.m_characterMatrix.take (4 * grid_2x3.m_X_AxisLen)) :=
  ⟨by decide,
   setY_AxisLen_resizes_rows grid_2x3 4 (by decide) (by decide) (by decide) (by decide)
     (by decide) (by decide)⟩

/-- Claim C4 fails as stated, at three states whose buffers have `rows * cols`
cells. A moved-from object has no column: `setY_AxisLen 1` returns an empty
buffer, so the added row has no cell to hold the line break. On
`CharMatrix( 0, 2147483648, 32 )` the call `setY_AxisLen 2` returns an empty
buffer, the product of the two added rows and the width wrapping to zero. On a
state of 2147483649 rows of two cells no call `setY_AxisLen 1` returns a buffer
of `1 * cols` cells, the number of cells to drop wrapping to zero. -/
theorem setY_AxisLen_resize_refuted :
    (grid_moved_from.m_characterMatrix.length =
        grid_moved_from.m_Y_AxisLen * grid_moved_from.m_X_AxisLen ∧
      grid_moved_from.setY_AxisLen 1 = .returned ⟨1, 0, 0, []⟩ ∧
      ([] : List Nat)[0 * grid_moved_from.m_X_AxisLen + (grid_moved_from.m_X_AxisLen - 1)]? ≠
        some newline) ∧
    (grid_0xhuge.m_characterMatrix.length = grid_0xhuge.m_Y_AxisLen * grid_0xhuge.m_X_AxisLen ∧
      grid_0xhuge.setY_AxisLen 2 = .returned ⟨2, 2147483648, 32, []⟩ ∧
      ([] : List Nat).length ≠ 2 * grid_0xhuge.m_X_AxisLen) ∧
    (grid_hugex2.m_characterMatrix.length = grid_hugex2.m_Y_AxisLen * grid_hugex2.m_X_AxisLen ∧
      ¬ ∃ m1, grid_hugex2.setY_AxisLen 1 = .returned m1 ∧
        m1.m_characterMatrix.length = 1 * grid_hugex2.m_X_AxisLen) := by
  refine ⟨by decide, by decide, ?_, ?_⟩
  · exact List.length_replicate _ _
  · rintro ⟨m1, h, hl⟩
    have h2 := setY_AxisLen_shrink_length grid_hugex2 m1 1 (by decide) (by decide) (by decide) h
    have h3 : u32mul (u32sub grid_hugex2.m_Y_AxisLen 1) grid_hugex2.m_X_AxisLen = 0 := by decide
    have h4 : grid_hugex2.m_characterMatrix.length = 4294967298 := List.length_replicate _ _
    have h5 : grid_hugex2.m_X_AxisLen = 2 := rfl
    omega

/-! ## C5: the constructed grid -/

/-- Claim C5. For every `rows` in `[1, 50]`, `cols` in `[2, 168]` and fill character
that is not a drawing character, the constructor returns a grid that satisfies
I1 to I4: its buffer has `rows * cols` cells, the last cell of every row holds
the line break, every other cell holds the fill character, there are at least
two columns, the fill character is not a drawing character, and the three
accessors return the given values. -/
theorem construct_invariants (rows cols fill : Nat)
    (hr1 : 1 ≤ rows) (hr2 : rows ≤ 50) (hc1 : 2 ≤ cols) (hc2 : cols ≤ 168)
    (hfill : chars_for_drawing_contains fill = false) :
    ∃ m, CharMatrix.construct rows cols fill = .returned m ∧
      m.getCharacterMatrix.length = rows * cols ∧
      (∀ r, r < rows → m.getCharacterMatrix[r * cols + (cols - 1)]? = some newline) ∧
      (∀ r x, r < rows → x < cols - 1 → m.getCharacterMatrix[r * cols + x]? = some fill) ∧
      2 ≤ m.getX_AxisLen ∧ chars_for_drawing_contains m.getFillCharacter = false ∧
      m.getY_AxisLen = rows ∧ m.getX_AxisLen = cols ∧ m.getFillCharacter = fill := by
  have hU : UINT32_MOD = 4294967296 := rfl
  have hS : SIZE_MOD = 18446744073709551616 := rfl
  have hrc : rows * cols ≤ 50 * 168 := Nat.mul_le_mul hr2 hc2
  have hrr : rows ≤ rows * cols := Nat.le_mul_of_pos_right rows (by omega)
  have e1 : u32mul rows cols = rows * cols := u32mul_eq rows cols (by omega)
  have e2 : u32sub cols 1 = 0 * cols + cols - 1 := by
    rw [u32sub_eq _ _ (by omega) (by omega)]; omega
  obtain ⟨buf, hb, hl, -, hg⟩ := stampRows_spec cols (by omega) rows 0
    ((List.replicate (rows * cols) fill).length + 1) (List.replicate (rows * cols) fill)
    (by rw [List.length_replicate]; omega) (by rw [List.length_replicate, Nat.zero_add])
    (by rw [List.length_replicate]; omega)
  rw [List.length_replicate] at hl
  refine ⟨⟨rows, cols, fill, buf⟩, ?_, hl, ?_, ?_, hc1, hfill, rfl, rfl, rfl⟩
  · unfold CharMatrix.construct
    simp only [e1, e2, hb]
  · intro r hr
    show buf[r * cols + (cols - 1)]? = some newline
    rw [hg r _ (Nat.zero_le r) (by omega) (by omega), if_neg (by omega)]
  · intro r x hr hx
    have hr1 : r * cols + cols ≤ rows * cols := by
      rw [← Nat.succ_mul]; exact Nat.mul_le_mul_right cols hr
    show buf[r * cols + x]? = some fill
    rw [hg r x (Nat.zero_le r) (by omega) (by omega), if_pos hx,
      List.getElem?_replicate, if_pos (by omega)]

/-- The hypotheses of claim C5 hold for two rows, three columns and the space as
fill character, and so does its conclusion. -/
theorem construct_invariants_witness :
    (1 ≤ 2 ∧ 2 ≤ 50 ∧ 2 ≤ 3 ∧ 3 ≤ 168 ∧ chars_for_drawing_contains 32 = false) ∧
    ∃ m, CharMatrix.construct 2 3 32 = .returned m ∧
      m.getCharacterMatrix.length = 2 * 3 ∧
      (∀ r, r < 2 → m.getCharacterMatrix[r * 3 + (3 - 1)]? = some newline) ∧
      (∀ r x, r < 2 → x < 3 - 1 → m.getCharacterMatrix[r * 3 + x]? = some 32) ∧
      2 ≤ m.getX_AxisLen ∧ chars_for_drawing_contains m.getFillCharacter = false ∧
      m.getY_AxisLen = 2 ∧ m.getX_AxisLen = 3 ∧ m.getFillCharacter = 32 :=
  ⟨by decide,
   construct_invariants 2 3 32 (by decide) (by decide) (by decide) (by decide) (by decide)⟩

/-! ## C6: the classifier -/

/-- Claim C6. For all 32-bit unsigned `x1, y1, x2, y2`, the differences being exact
integers, the classifier returns the dash iff `|x1 - x2| = 1` and `y1 = y2`; the
vertical bar iff `|y1 - y2| = 1` and `x1 = x2`; the forward slash iff both
differences are 1 in absolute value and the two coordinates move in opposite
directions; the backslash iff both are 1 and the coordinates move in the same
direction; and nothing in every other case. -/
theorem processCoordsToObtainCharType_table (c : Coords)
    (hx1 : c.x1 < UINT32_MOD) (hy1 : c.y1 < UINT32_MOD)
    (hx2 : c.x2 < UINT32_MOD) (hy2 : c.y2 < UINT32_MOD) :
    (processCoordsToObtainCharType c = some .Dash ↔
      |(c.x1 : Int) - (c.x2 : Int)| = 1 ∧ c.y1 = c.y2) ∧
    (processCoordsToObtainCharType c = some .VerticalSlash ↔
      |(c.y1 : Int) - (c.y2 : Int)| = 1 ∧ c.x1 = c.x2) ∧
    (processCoordsToObtainCharType c = some .ForwardSlash ↔
      |(c.x1 : Int) - (c.x2 : Int)| = 1 ∧ |(c.y1 : Int) - (c.y2 : Int)| = 1 ∧
        ((c.x1 < c.x2 ∧ c.y1 > c.y2) ∨ (c.x1 > c.x2 ∧ c.y1 < c.y2))) ∧
    (processCoordsToObtainCharType c = some .BackSlash ↔
      |(c.x1 : Int) - (c.x2 : Int)| = 1 ∧ |(c.y1 : Int) - (c.y2 : Int)| = 1 ∧
        ((c.x1 < c.x2 ∧ c.y1 < c.y2) ∨ (c.x1 > c.x2 ∧ c.y1 > c.y2))) ∧
    (processCoordsToObtainCharType c = none ↔
      ¬ (|(c.x1 : Int) - (c.x2 : Int)| = 1 ∧ c.y1 = c.y2) ∧
      ¬ (|(c.y1 : Int) - (c.y2 : Int)| = 1 ∧ c.x1 = c.x2) ∧
      ¬ (|(c.x1 : Int) - (c.x2 : Int)| = 1 ∧ |(c.y1 : Int) - (c.y2 : Int)| = 1 ∧
        ((c.x1 < c.x2 ∧ c.y1 > c.y2) ∨ (c.x1 > c.x2 ∧ c.y1 < c.y2))) ∧
      ¬ (|(c.x1 : Int) - (c.x2 : Int)| = 1 ∧ |(c.y1 : Int) - (c.y2 : Int)| = 1 ∧
        ((c.x1 < c.x2 ∧ c.y1 < c.y2) ∨ (c.x1 > c.x2 ∧ c.y1 > c.y2)))) := by
  obtain ⟨x1, y1, x2, y2⟩ := c
  simp only at hx1 hy1 hx2 hy2 ⊢
  have hU : UINT32_MOD = 4294967296 := rfl
  have ex1 : toInt64 (x1 : Int) = x1 := toInt64_eq _ (by omega) (by omega)
  have ex2 : toInt64 (x2 : Int) = x2 := toInt64_eq _ (by omega) (by omega)
  have ey1 : toInt64 (y1 : Int) = y1 := toInt64_eq _ (by omega) (by omega)
  have ey2 : toInt64 (y2 : Int) = y2 := toInt64_eq _ (by omega) (by omega)
  have edx : toInt64 ((x1 : Int) - x2) = (x1 : Int) - x2 := toInt64_eq _ (by omega) (by omega)
  have edy : toInt64 ((y1 : Int) - y2) = (y1 : Int) - y2 := toInt64_eq _ (by omega) (by omega)
  unfold processCoordsToObtainCharType
  simp only [ex1, ex2, ey1, ey2, edx, edy, Int.abs_eq_natAbs]
  clear ex1 ex2 ey1 ey2 edx edy
  split_ifs with h1 h2 h3 h4 <;>
    simp only [Bool.and_eq_true, Bool.or_eq_true, beq_iff_eq, decide_eq_true_eq] at * <;>
    simp only [Option.some.injEq, reduceCtorEq, true_iff, false_iff, iff_true, iff_false] <;>
    omega

/-- The hypotheses of claim C6 hold for the quadruple `(0, 0, 1, 0)`, and so does
its conclusion. -/
theorem processCoordsToObtainCharType_table_witness :
    (coords_dash.x1 < UINT32_MOD ∧ coords_dash.y1 < UINT32_MOD ∧
      coords_dash.x2 < UINT32_MOD ∧ coords_dash.y2 < UINT32_MOD) ∧
    ((processCoordsToObtainCharType coords_dash = some .Dash ↔
      |(coords_dash.x1 : Int) - (coords_dash.x2 : Int)| = 1 ∧ coords_dash.y1 = coords_dash.y2) ∧
    (processCoordsToObtainCharType coords_dash = some .VerticalSlash ↔
      |(coords_dash.y1 : Int) - (coords_dash.y2 : Int)| = 1 ∧ coords_dash.x1 = coords_dash.x2) ∧
    (processCoordsToObtainCharType coords_dash = some .ForwardSlash ↔
      |(coords_dash.x1 : Int) - (coords_dash.x2 : Int)| = 1 ∧ |(coords_dash.y1 : Int) - (coords_dash.y2 : Int)| = 1 ∧
        ((coords_dash.x1 < coords_dash.x2 ∧ coords_dash.y1 > coords_dash.y2) ∨ (coords_dash.x1 > coords_dash.x2 ∧ coords_dash.y1 < coords_dash.y2))) ∧
    (processCoordsToObtainCharType coords_dash = some .BackSlash ↔
      |(coords_dash.x1 : Int) - (coords_dash.x2 : Int)| = 1 ∧ |(coords_dash.y1 : Int) - (coords_dash.y2 : Int)| = 1 ∧
        ((coords_dash.x1 < coords_dash.x2 ∧ coords_dash.y1 < coords_dash.y2) ∨ (coords_dash.x1 > coords_dash.x2 ∧ coords_dash.y1 > coords_dash.y2))) ∧
    (processCoordsToObtainCharType coords_dash = none ↔
      ¬ (|(coords_dash.x1 : Int) - (coords_dash.x2 : Int)| = 1 ∧ coords_dash.y1 = coords_dash.y2) ∧
      ¬ (|(coords_dash.y1 : Int) - (coords_dash.y2 : Int)| = 1 ∧ coords_dash.x1 = coords_dash.x2) ∧
      ¬ (|(coords_dash.x1 : Int) - (coords_dash.x2 : Int)| = 1 ∧ |(coords_dash.y1 : Int) - (coords_dash.y2 : Int)| = 1 ∧
        ((coords_dash.x1 < coords_dash.x2 ∧ coords_dash.y1 > coords_dash.y2) ∨ (coords_dash.x1 > coords_dash.x2 ∧ coords_dash.y1 < coords_dash.y2))) ∧
      ¬ (|(coords_dash.x1 : Int) - (coords_dash.x2 : Int)| = 1 ∧ |(coords_dash.y1 : Int) - (coords_dash.y2 : Int)| = 1 ∧
        ((coords_dash.x1 < coords_dash.x2 ∧ coords_dash.y1 < coords_dash.y2) ∨ (coords_dash.x1 > coords_dash.x2 ∧ coords_dash.y1 > coords_dash.y2))))) :=
  ⟨by decide,
   processCoordsToObtainCharType_table coords_dash (by decide) (by decide) (by decide)
     (by decide)⟩

/-! ## C7: the plot writes both end points -/

/-- Claim C7. For every grid and every quadruple whose two cell indices, the
offsets `y * cols + x` computed by `operator[ ]`, lie inside the buffer and for
which the classifier returns a character `g`, `setCharacterMatrix` returns; the
cells at `(x1, y1)` and `(x2, y2)` then both hold `g`, every other cell of the
buffer is unchanged, and so are the length of the buffer, rows, cols and the
fill character. -/
theorem setCharacterMatrix_writes_endpoints (m : CharMatrix) (c : Coords) (g : AllowedChars)
    (h1 : m.cellIndex c.x1 c.y1 < m.m_characterMatrix.length)
    (h2 : m.cellIndex c.x2 c.y2 < m.m_characterMatrix.length)
    (hg : processCoordsToObtainCharType c = some g) :
    ∃ m1, m.setCharacterMatrix c = .returned m1 ∧
      m1.m_characterMatrix[m.cellIndex c.x1 c.y1]? = some g.toChar ∧
      m1.m_characterMatrix[m.cellIndex c.x2 c.y2]? = some g.toChar ∧
      (∀ i, i ≠ m.cellIndex c.x1 c.y1 → i ≠ m.cellIndex c.x2 c.y2 →
        m1.m_characterMatrix[i]? = m.m_characterMatrix[i]?) ∧
      m1.m_characterMatrix.length = m.m_characterMatrix.length ∧
      m1.m_Y_AxisLen = m.m_Y_AxisLen ∧ m1.m_X_AxisLen = m.m_X_AxisLen ∧
      m1.m_fillCharacter = m.m_fillCharacter := by
  obtain ⟨b1, hb1, l1, g1⟩ := store_spec m.m_characterMatrix _ g.toChar h1
  obtain ⟨b2, hb2, l2, g2⟩ := store_spec b1 (m.cellIndex c.x2 c.y2) g.toChar (by omega)
  refine ⟨{ m with m_characterMatrix := b2 }, ?_, ?_, ?_, ?_, by simp only; omega, rfl, rfl, rfl⟩
  · unfold CharMatrix.setCharacterMatrix
    rw [hg]
    unfold CharMatrix.plot
    simp only [chars_for_drawing_contains_toChar, if_true, CharMatrix.assignCell, hb1,
      Option.map_some', Option.some_bind]
    have : CharMatrix.cellIndex { m with m_characterMatrix := b1 } c.x2 c.y2
        = m.cellIndex c.x2 c.y2 := rfl
    rw [this, hb2]
    rfl
  · simp only [g2, g1]
    split_ifs <;> rfl
  · rw [g2, if_pos rfl]
  · intro i hi1 hi2
    simp only [g2, g1]
    rw [if_neg hi2, if_neg hi1]

/-- The hypotheses of claim C7 hold for the grid of two rows of three cells and
the quadruple `(0, 0, 1, 0)`, and so does its conclusion. -/
theorem setCharacterMatrix_writes_endpoints_witness :
    (grid_2x3.cellIndex 0 0 < grid_2x3.m_characterMatrix.length ∧
      grid_2x3.cellIndex 1 0 < grid_2x3.m_characterMatrix.length ∧
      processCoordsToObtainCharType ⟨0, 0, 1, 0⟩ = some .Dash) ∧
    ∃ m1, grid_2x3.setCharacterMatrix ⟨0, 0, 1, 0⟩ = .returned m1 ∧
      m1.m_characterMatrix[grid_2x3.cellIndex 0 0]? = some AllowedChars.Dash.toChar ∧
      m1.m_characterMatrix[grid_2x3.cellIndex 1 0]? = some AllowedChars.Dash.toChar ∧
      (∀ i, i ≠ grid_2x3.cellIndex 0 0 → i ≠ grid_2x3.cellIndex 1 0 →
        m1.m_characterMatrix[i]? = grid_2x3.m_characterMatrix[i]?) ∧
      m1.m_characterMatrix.length = grid_2x3.m_characterMatrix.length ∧
      m1.m_Y_AxisLen = grid_2x3.m_Y_AxisLen ∧ m1.m_X_AxisLen = grid_2x3.m_X_AxisLen ∧
      m1.m_fillCharacter = grid_2x3.m_fillCharacter :=
  ⟨by decide,
   setCharacterMatrix_writes_endpoints grid_2x3 ⟨0, 0, 1, 0⟩ .Dash (by decide) (by decide)
     (by decide)⟩

/-! ## C8: the plot of an unrelated pair -/

/-- Claim C8. For every grid and every quadruple for which the classifier returns
nothing, `setCharacterMatrix` returns the grid unchanged: rows, cols, fill
character and buffer. Every quadruple made of one point taken twice, such as
`(5, 5, 5, 5)`, is classified so and is therefore left without effect. -/
theorem setCharacterMatrix_unrelated_is_noop (m : CharMatrix) (c : Coords)
    (h : processCoordsToObtainCharType c = none) :
    m.setCharacterMatrix c = .returned m ∧
    ∀ x y, processCoordsToObtainCharType ⟨x, y, x, y⟩ = none ∧
      m.setCharacterMatrix ⟨x, y, x, y⟩ = .returned m := by
  have key : ∀ c, processCoordsToObtainCharType c = none →
      m.setCharacterMatrix c = .returned m := by
    intro c hc
    unfold CharMatrix.setCharacterMatrix
    rw [hc]
    rfl
  exact ⟨key c h, fun x y =>
    ⟨processCoordsToObtainCharType_same_point x y,
     key _ (processCoordsToObtainCharType_same_point x y)⟩⟩

/-- The hypothesis of claim C8 holds for the quadruple `(5, 5, 5, 5)`, and so does
its conclusion on the grid of two rows of three cells. -/
theorem setCharacterMatrix_unrelated_is_noop_witness :
    processCoordsToObtainCharType ⟨5, 5, 5, 5⟩ = none ∧
    (grid_2x3.setCharacterMatrix ⟨5, 5, 5, 5⟩ = .returned grid_2x3 ∧
      ∀ x y, processCoordsToObtainCharType ⟨x, y, x, y⟩ = none ∧
        grid_2x3.setCharacterMatrix ⟨x, y, x, y⟩ = .returned grid_2x3) :=
  ⟨by decide, setCharacterMatrix_unrelated_is_noop grid_2x3 ⟨5, 5, 5, 5⟩ (by decide)⟩

/-! ## C9: rejection by the dimension setters -/

/-- Claim C9, as amended. `setY_AxisLen n` throws its invalid dimension exception
iff `n < 1` or `n > 50`, and `setX_AxisLen n` throws its own iff `n < 2` or
`n > 168`; whenever either setter throws, the object is in the state it had
before the call; and when `n` is inside the range and equals the current
dimension the call returns the grid unchanged. -/
theorem setters_reject_out_of_range (m : CharMatrix) (n : Nat) :
    ((∃ m1, m.setY_AxisLen n = .threw .Invalid_Y_Axis_Len_Exception m1) ↔ (n < 1 ∨ n > 50)) ∧
    ((∃ m1, m.setX_AxisLen n = .threw .Invalid_X_Axis_Len_Exception m1) ↔ (n < 2 ∨ n > 168)) ∧
    (∀ e m1, m.setY_AxisLen n = .threw e m1 → m1 = m) ∧
    (∀ e m1, m.setX_AxisLen n = .threw e m1 → m1 = m) ∧
    (1 ≤ n → n ≤ 50 → n = m.m_Y_AxisLen → m.setY_AxisLen n = .returned m) ∧
    (2 ≤ n → n ≤ 168 → n = m.m_X_AxisLen → m.setX_AxisLen n = .returned m) := by
  have hY : ∀ e m1, m.setY_AxisLen n = .threw e m1 →
      m1 = m ∧ (e = .Invalid_Y_Axis_Len_Exception → n < 1 ∨ n > 50) := by
    intro e m1 h
    unfold CharMatrix.setY_AxisLen at h
    simp only [max_allowed_y_axis_len, min_allowed_y_axis_len] at h
    split_ifs at h with h1 h2 h3 h4 <;>
      first
      | (cases h; exact ⟨rfl, fun he => by first | omega | cases he⟩)
      | (split at h <;> cases h)
  have hX : ∀ e m1, m.setX_AxisLen n = .threw e m1 →
      m1 = m ∧ (e = .Invalid_X_Axis_Len_Exception → n < 2 ∨ n > 168) := by
    intro e m1 h
    unfold CharMatrix.setX_AxisLen at h
    simp only [max_allowed_x_axis_len, min_allowed_x_axis_len] at h
    split_ifs at h with h1 h2 h3 <;>
      first
      | (cases h; exact ⟨rfl, fun _ => by omega⟩)
      | (split at h <;> cases h)
  refine ⟨⟨?_, ?_⟩, ⟨?_, ?_⟩, fun e m1 h => (hY e m1 h).1, fun e m1 h => (hX e m1 h).1, ?_, ?_⟩
  · rintro ⟨m1, h⟩
    exact (hY _ _ h).2 rfl
  · intro h
    refine ⟨m, ?_⟩
    unfold CharMatrix.setY_AxisLen
    simp only [max_allowed_y_axis_len, min_allowed_y_axis_len]
    rw [if_pos (by omega)]
  · rintro ⟨m1, h⟩
    exact (hX _ _ h).2 rfl
  · intro h
    refine ⟨m, ?_⟩
    unfold CharMatrix.setX_AxisLen
    simp only [max_allowed_x_axis_len, min_allowed_x_axis_len]
    rw [if_pos (by omega)]
  · intro h1 h2 h3
    unfold CharMatrix.setY_AxisLen
    simp only [max_allowed_y_axis_len, min_allowed_y_axis_len]
    rw [if_neg (by omega), if_pos h3]
  · intro h1 h2 h3
    unfold CharMatrix.setX_AxisLen
    simp only [max_allowed_x_axis_len, min_allowed_x_axis_len]
    rw [if_neg (by omega), if_pos h3]

/-- The hypotheses of the last two parts of claim C9 as amended hold for the grid
of two rows of three cells, and so do their conclusions. -/
theorem setters_reject_out_of_range_witness :
    ((1 ≤ 2 ∧ 2 ≤ 50 ∧ 2 = grid_2x3.m_Y_AxisLen) ∧
      grid_2x3.setY_AxisLen 2 = .returned grid_2x3) ∧
    ((2 ≤ 3 ∧ 3 ≤ 168 ∧ 3 = grid_2x3.m_X_AxisLen) ∧
      grid_2x3.setX_AxisLen 3 = .returned grid_2x3) :=
  ⟨⟨by decide,
    (setters_reject_out_of_range grid_2x3 2).2.2.2.2.1 (by decide) (by decide) (by decide)⟩,
   ⟨by decide,
    (setters_reject_out_of_range grid_2x3 3).2.2.2.2.2 (by decide) (by decide) (by decide)⟩⟩

/-- Claim C9 fails as stated in its last part. A moved-from object has both
dimensions zero; calling either setter with the current dimension, zero, throws
instead of returning. -/
theorem setters_same_dimension_refuted :
    grid_moved_from.setY_AxisLen grid_moved_from.m_Y_AxisLen =
      .threw .Invalid_Y_Axis_Len_Exception grid_moved_from ∧
    grid_moved_from.setX_AxisLen grid_moved_from.m_X_AxisLen =
      .threw .Invalid_X_Axis_Len_Exception grid_moved_from := by
  decide

/-! ## C10: rejection by setFillCharacter -/

/-- Claim C10. `setFillCharacter c` throws its invalid fill character exception iff
`c` is one of the four drawing characters, the dash, the backslash, the forward
slash and the vertical bar; and whenever it throws, the object is in the state
it had before the call: rows, cols, fill character and buffer. -/
theorem setFillCharacter_rejects_glyphs (m : CharMatrix) (c : Nat) :
    ((∃ m1, m.setFillCharacter c = .threw .Invalid_Fill_Character_Exception m1) ↔
      (c = AllowedChars.Dash.toChar ∨ c = AllowedChars.BackSlash.toChar ∨
        c = AllowedChars.ForwardSlash.toChar ∨ c = AllowedChars.VerticalSlash.toChar)) ∧
    (∀ e m1, m.setFillCharacter c = .threw e m1 → m1 = m) := by
  have key : ∀ e m1, m.setFillCharacter c = .threw e m1 →
      m1 = m ∧ chars_for_drawing_contains c = true := by
    intro e m1 h
    unfold CharMatrix.setFillCharacter at h
    split_ifs at h with h1
    cases h
    exact ⟨rfl, h1⟩
  refine ⟨⟨?_, ?_⟩, fun e m1 h => (key e m1 h).1⟩
  · rintro ⟨m1, h⟩
    exact (chars_for_drawing_contains_iff c).mp (key _ _ h).2
  · intro h
    refine ⟨m, ?_⟩
    unfold CharMatrix.setFillCharacter
    rw [if_pos ((chars_for_drawing_contains_iff c).mpr h)]

/-! ## Lemmas on the fill character, the constructor and the binary record -/

/-- The constructor returns whenever the grid has at least one row and one column
and the 32-bit product of the dimensions does not wrap. -/
theorem construct_returns (rows cols fill : Nat) (hr : 1 ≤ rows) (hc : 1 ≤ cols)
    (hfit : rows * cols < UINT32_MOD) :
    ∃ buf, CharMatrix.construct rows cols fill = .returned ⟨rows, cols, fill, buf⟩ ∧
      buf.length = rows * cols := by
  have hU : UINT32_MOD = 4294967296 := rfl
  have hS : SIZE_MOD = 18446744073709551616 := rfl
  have hrr : rows ≤ rows * cols := Nat.le_mul_of_pos_right rows (by omega)
  have hcc : cols ≤ rows * cols := Nat.le_mul_of_pos_left cols (by omega)
  have e1 : u32mul rows cols = rows * cols := u32mul_eq rows cols hfit
  have e2 : u32sub cols 1 = 0 * cols + cols - 1 := by
    rw [u32sub_eq _ _ (by omega) (by omega)]; omega
  obtain ⟨buf, hb, hl, -, -⟩ := stampRows_spec cols (by omega) rows 0
    ((List.replicate (rows * cols) fill).length + 1) (List.replicate (rows * cols) fill)
    (by rw [List.length_replicate]; omega) (by rw [List.length_replicate, Nat.zero_add])
    (by rw [List.length_replicate]; omega)
  rw [List.length_replicate] at hl
  refine ⟨buf, ?_, hl⟩
  unfold CharMatrix.construct
  simp only [e1, e2, hb]

/-- The cells after `replace`. -/
theorem getElem?_replace (buf : List Nat) (old new i : Nat) :
    (replace buf old new)[i]? = (buf[i]?).map (fun c => if c = old then new else c) := by
  unfold replace
  rw [List.getElem?_map]

/-- Every content cell of the sample row of three cells holds the fill character
or a drawing character. -/
theorem grid_1x3_content : ∀ r x, r < grid_1x3.m_Y_AxisLen → x < grid_1x3.m_X_AxisLen - 1 →
    ∃ v, grid_1x3.m_characterMatrix[r * grid_1x3.m_X_AxisLen + x]? = some v ∧
      (v = grid_1x3.m_fillCharacter ∨ chars_for_drawing_contains v = true) := by
  intro r x hr hx
  have hr0 : r = 0 := by
    have : grid_1x3.m_Y_AxisLen = 1 := rfl
    omega
  have hx2 : x = 0 ∨ x = 1 := by
    have : grid_1x3.m_X_AxisLen = 3 := rfl
    omega
  subst hr0
  rcases hx2 with rfl | rfl
  · exact ⟨45, by decide, by decide⟩
  · exact ⟨32, by decide, by decide⟩

/-- The four bytes of a `std::uint32_t` are the digits of its value in base 256,
the lowest first. -/
theorem uint32_bytes_digits (v : Nat) :
    (uint32_bytes v).length = 4 ∧ (∀ b ∈ uint32_bytes v, b < 256) ∧
    (uint32_bytes v).getD 0 0 + 256 * (uint32_bytes v).getD 1 0 +
      65536 * (uint32_bytes v).getD 2 0 + 16777216 * (uint32_bytes v).getD 3 0
      = v % UINT32_MOD := by
  refine ⟨rfl, ?_, ?_⟩
  · intro b hb
    simp only [uint32_bytes, List.mem_cons, List.mem_singleton, List.not_mem_nil, or_false] at hb
    omega
  · simp only [uint32_bytes, List.getD_cons_zero, List.getD_cons_succ, UINT32_MOD]
    omega

/-- Storing the four bytes of a 32-bit value over a `std::uint32_t` gives that
value. -/
theorem uint32_of_bytes_overlay (old v : Nat) (hv : v < UINT32_MOD) :
    uint32_of_bytes (overlay (uint32_bytes old) (uint32_bytes v)) = v := by
  have h : overlay (uint32_bytes old) (uint32_bytes v) = uint32_bytes v := by
    simp [overlay, uint32_bytes]
  rw [h]
  unfold uint32_of_bytes
  rw [(uint32_bytes_digits v).2.2]
  exact Nat.mod_eq_of_lt (Nat.mod_lt _ (by decide)) |>.trans (Nat.mod_eq_of_lt hv)

/-- A read of as many bytes as a good stream starts with stores them and leaves
the rest. -/
theorem IStream.read_append (a rest : List Nat) :
    (⟨a ++ rest, false⟩ : IStream).read a.length = (a, ⟨rest, false⟩) := by
  unfold IStream.read
  simp

/-- Reading a stream that starts with a full header: the scratch object receives
the declared rows, cols and fill character, and its buffer, resized to their
32-bit product, receives what the stream still holds. -/
theorem readRecord_header (Y X f : Nat) (rest : List Nat) (temp : CharMatrix)
    (hY : Y < UINT32_MOD) (hX : X < UINT32_MOD) :
    readRecord ⟨uint32_bytes Y ++ (uint32_bytes X ++ (f :: rest)), false⟩ temp =
      (⟨Y, X, f, overlay (resize temp.m_characterMatrix (u32mul Y X) 0)
          ((⟨rest, false⟩ : IStream).read (u32mul Y X)).1⟩,
        ((⟨rest, false⟩ : IStream).read (u32mul Y X)).2) := by
  have r1 := IStream.read_append (uint32_bytes Y) (uint32_bytes X ++ (f :: rest))
  have r2 := IStream.read_append (uint32_bytes X) (f :: rest)
  have r3 := IStream.read_append [f] rest
  have l4 : ∀ v, (uint32_bytes v).length = 4 := fun _ => rfl
  rw [l4] at r1 r2
  simp only [List.length_singleton, List.singleton_append] at r3
  unfold readRecord
  simp only [r1, r2, r3, uint32_of_bytes_overlay _ _ hY, uint32_of_bytes_overlay _ _ hX,
    CharMatrix.getY_AxisLen, CharMatrix.getX_AxisLen, length_resize]
  simp [overlay]

/-- A setter called with the current dimension, inside the range, returns the
object as it is. -/
theorem setY_AxisLen_same (m : CharMatrix) (n : Nat) (h : n = m.m_Y_AxisLen)
    (h1 : 1 ≤ n) (h2 : n ≤ 50) : m.setY_AxisLen n = .returned m := by
  unfold CharMatrix.setY_AxisLen
  simp only [max_allowed_y_axis_len, min_allowed_y_axis_len]
  rw [if_neg (by omega), if_pos h]

/-- The row setter throws on a value outside the range. -/
theorem setY_AxisLen_rejects (m : CharMatrix) (n : Nat) (h : n < 1 ∨ n > 50) :
    m.setY_AxisLen n = .threw .Invalid_Y_Axis_Len_Exception m := by
  unfold CharMatrix.setY_AxisLen
  simp only [max_allowed_y_axis_len, min_allowed_y_axis_len]
  rw [if_pos (by omega)]

/-- The column setter called with the current dimension, inside the range,
returns the object as it is. -/
theorem setX_AxisLen_same (m : CharMatrix) (n : Nat) (h : n = m.m_X_AxisLen)
    (h1 : 2 ≤ n) (h2 : n ≤ 168) : m.setX_AxisLen n = .returned m := by
  unfold CharMatrix.setX_AxisLen
  simp only [max_allowed_x_axis_len, min_allowed_x_axis_len]
  rw [if_neg (by omega), if_pos h]

/-- The column setter throws on a value outside the range. -/
theorem setX_AxisLen_rejects (m : CharMatrix) (n : Nat) (h : n < 2 ∨ n > 168) :
    m.setX_AxisLen n = .threw .Invalid_X_Axis_Len_Exception m := by
  unfold CharMatrix.setX_AxisLen
  simp only [max_allowed_x_axis_len, min_allowed_x_axis_len]
  rw [if_pos (by omega)]

/-- The fill setter called with the current fill character, not a drawing
character, returns the object as it is. -/
theorem setFillCharacter_same (m : CharMatrix) (c : Nat) (h : c = m.m_fillCharacter)
    (hc : chars_for_drawing_contains c = false) : m.setFillCharacter c = .returned m := by
  unfold CharMatrix.setFillCharacter
  rw [hc, if_neg (by simp), if_pos h]

/-- The fill setter throws on a drawing character. -/
theorem setFillCharacter_rejects (m : CharMatrix) (c : Nat)
    (hc : chars_for_drawing_contains c = true) :
    m.setFillCharacter c = .threw .Invalid_Fill_Character_Exception m := by
  unfold CharMatrix.setFillCharacter
  rw [if_pos hc]

/-- The assignments of `operator>>` with declared rows outside their range: the
rows are assigned and the setter then throws. -/
theorem assignFromTemp_bad_rows (d temp : CharMatrix)
    (h : temp.m_Y_AxisLen < 1 ∨ temp.m_Y_AxisLen > 50) :
    assignFromTemp d temp =
      .threw .Invalid_Y_Axis_Len_Exception { d with m_Y_AxisLen := temp.m_Y_AxisLen } := by
  unfold assignFromTemp CharMatrix.getY_AxisLen
  rw [setY_AxisLen_rejects _ _ h]
  rfl

/-- The assignments of `operator>>` with declared rows inside and declared cols
outside their range: rows and cols are assigned and the second setter throws. -/
theorem assignFromTemp_bad_cols (d temp : CharMatrix)
    (hY1 : 1 ≤ temp.m_Y_AxisLen) (hY2 : temp.m_Y_AxisLen ≤ 50)
    (h : temp.m_X_AxisLen < 2 ∨ temp.m_X_AxisLen > 168) :
    assignFromTemp d temp =
      .threw .Invalid_X_Axis_Len_Exception
        { d with m_Y_AxisLen := temp.m_Y_AxisLen, m_X_AxisLen := temp.m_X_AxisLen } := by
  unfold assignFromTemp CharMatrix.getY_AxisLen CharMatrix.getX_AxisLen
  rw [setY_AxisLen_same
    ⟨temp.m_Y_AxisLen, d.m_X_AxisLen, d.m_fillCharacter, d.m_characterMatrix⟩ _ rfl hY1 hY2]
  simp only [Outcome.andThen]
  rw [setX_AxisLen_rejects _ _ h]

/-- The assignments of `operator>>` with declared rows and cols inside their
ranges and a drawing character as fill character: the three members are
assigned and the third setter throws. -/
theorem assignFromTemp_bad_fill (d temp : CharMatrix)
    (hY1 : 1 ≤ temp.m_Y_AxisLen) (hY2 : temp.m_Y_AxisLen ≤ 50)
    (hX1 : 2 ≤ temp.m_X_AxisLen) (hX2 : temp.m_X_AxisLen ≤ 168)
    (h : chars_for_drawing_contains temp.m_fillCharacter = true) :
    assignFromTemp d temp =
      .threw .Invalid_Fill_Character_Exception
        { d with m_Y_AxisLen := temp.m_Y_AxisLen, m_X_AxisLen := temp.m_X_AxisLen,
                 m_fillCharacter := temp.m_fillCharacter } := by
  unfold assignFromTemp CharMatrix.getY_AxisLen CharMatrix.getX_AxisLen
    CharMatrix.getFillCharacter
  rw [setY_AxisLen_same
    ⟨temp.m_Y_AxisLen, d.m_X_AxisLen, d.m_fillCharacter, d.m_characterMatrix⟩ _ rfl hY1 hY2]
  simp only [Outcome.andThen]
  rw [setX_AxisLen_same
    ⟨temp.m_Y_AxisLen, temp.m_X_AxisLen, d.m_fillCharacter, d.m_characterMatrix⟩ _ rfl hX1 hX2]
  simp only
  rw [setFillCharacter_rejects _ _ h]

/-- The assignments of `operator>>` with a valid header: the destination becomes
the scratch object. -/
theorem assignFromTemp_valid (d temp : CharMatrix)
    (hY1 : 1 ≤ temp.m_Y_AxisLen) (hY2 : temp.m_Y_AxisLen ≤ 50)
    (hX1 : 2 ≤ temp.m_X_AxisLen) (hX2 : temp.m_X_AxisLen ≤ 168)
    (h : chars_for_drawing_contains temp.m_fillCharacter = false) :
    assignFromTemp d temp = .returned temp := by
  unfold assignFromTemp CharMatrix.getY_AxisLen CharMatrix.getX_AxisLen
    CharMatrix.getFillCharacter CharMatrix.getCharacterMatrix
  rw [setY_AxisLen_same
    ⟨temp.m_Y_AxisLen, d.m_X_AxisLen, d.m_fillCharacter, d.m_characterMatrix⟩ _ rfl hY1 hY2]
  simp only [Outcome.andThen]
  rw [setX_AxisLen_same
    ⟨temp.m_Y_AxisLen, temp.m_X_AxisLen, d.m_fillCharacter, d.m_characterMatrix⟩ _ rfl hX1 hX2]
  simp only
  rw [setFillCharacter_same
    ⟨temp.m_Y_AxisLen, temp.m_X_AxisLen, temp.m_fillCharacter, d.m_characterMatrix⟩ _ rfl h]

/-- The bytes `operator<<` adds to a good stream. -/
theorem operatorShiftLeft_bytes (ofs : OStream) (g : CharMatrix) (hgood : ofs.failed = false) :
    (operatorShiftLeft ofs g).bytes =
      ofs.bytes ++ (uint32_bytes g.m_Y_AxisLen ++ (uint32_bytes g.m_X_AxisLen ++
        (g.m_fillCharacter :: g.m_characterMatrix))) := by
  obtain ⟨b, f⟩ := ofs
  simp only at hgood
  subst hgood
  simp [operatorShiftLeft, OStream.write, CharMatrix.getY_AxisLen, CharMatrix.getX_AxisLen,
    CharMatrix.getFillCharacter, CharMatrix.getCharacterMatrix]

/-- Reading a record whose buffer part has as many bytes as the 32-bit product of
its declared dimensions: the scratch object becomes the declared grid. -/
theorem readRecord_full (Y X f : Nat) (buf : List Nat) (temp : CharMatrix)
    (hY : Y < UINT32_MOD) (hX : X < UINT32_MOD) (hlen : buf.length = u32mul Y X) :
    readRecord ⟨uint32_bytes Y ++ (uint32_bytes X ++ (f :: buf)), false⟩ temp =
      (⟨Y, X, f, buf⟩, ⟨[], false⟩) := by
  rw [readRecord_header Y X f buf temp hY hX, ← hlen]
  have h := IStream.read_append buf []
  rw [List.append_nil] at h
  rw [h]
  simp only [overlay]
  rw [List.drop_of_length_le (by rw [length_resize]), List.append_nil]

/-! ## C11: the fill character is replaced -/

/-- Claim C11. For every grid with fill character `old` and every character `c`
that is not a drawing character and differs from `old`, `setFillCharacter c`
returns; the buffer then has the same length, every cell that held `old` holds
`c`, every other cell holds what it held, the fill character is `c`, and rows
and cols are unchanged. -/
theorem setFillCharacter_replaces (m : CharMatrix) (c : Nat)
    (hc : chars_for_drawing_contains c = false) (hne : c ≠ m.m_fillCharacter) :
    ∃ m1, m.setFillCharacter c = .returned m1 ∧
      m1.m_characterMatrix.length = m.m_characterMatrix.length ∧
      (∀ (i v : Nat), m.m_characterMatrix[i]? = some v →
        (v = m.m_fillCharacter → m1.m_characterMatrix[i]? = some c) ∧
        (v ≠ m.m_fillCharacter → m1.m_characterMatrix[i]? = some v)) ∧
      m1.m_fillCharacter = c ∧ m1.m_Y_AxisLen = m.m_Y_AxisLen ∧
      m1.m_X_AxisLen = m.m_X_AxisLen := by
  refine ⟨{ m with
      m_characterMatrix := replace m.m_characterMatrix m.m_fillCharacter c,
      m_fillCharacter := c }, ?_, ?_, ?_, rfl, rfl, rfl⟩
  · unfold CharMatrix.setFillCharacter
    rw [hc, if_neg (by simp), if_neg hne]
  · simp [replace]
  · intro i v hv
    simp only [getElem?_replace, hv, Option.map_some']
    refine ⟨fun h => by rw [if_pos h], fun h => by rw [if_neg h]⟩

/-- The hypotheses of claim C11 hold for the grid of two rows of three cells and
the full stop as new fill character, and so does its conclusion. -/
theorem setFillCharacter_replaces_witness :
    (chars_for_drawing_contains 46 = false ∧ 46 ≠ grid_2x3.m_fillCharacter) ∧
    ∃ m1, grid_2x3.setFillCharacter 46 = .returned m1 ∧
      m1.m_characterMatrix.length = grid_2x3.m_characterMatrix.length ∧
      (∀ (i v : Nat), grid_2x3.m_characterMatrix[i]? = some v →
        (v = grid_2x3.m_fillCharacter → m1.m_characterMatrix[i]? = some 46) ∧
        (v ≠ grid_2x3.m_fillCharacter → m1.m_characterMatrix[i]? = some v)) ∧
      m1.m_fillCharacter = 46 ∧ m1.m_Y_AxisLen = grid_2x3.m_Y_AxisLen ∧
      m1.m_X_AxisLen = grid_2x3.m_X_AxisLen :=
  ⟨by decide, setFillCharacter_replaces grid_2x3 46 (by decide) (by decide)⟩

/-! ## C12: setFillCharacter and the invariants -/

/-- Claim C12, as amended. For every grid that satisfies I1 to I4 and whose fill
character is not the line break, and every character `c` that is not a drawing
character, `setFillCharacter c` returns a grid that again satisfies I1 (the
buffer has `rows * cols` cells), I2 (the last cell of every row holds the line
break), I3 (every other cell holds the fill character or a drawing character)
and I4 (at least two columns), with fill character `c`. -/
theorem setFillCharacter_keeps_invariants (m : CharMatrix) (c : Nat)
    (hI1 : m.m_characterMatrix.length = m.m_Y_AxisLen * m.m_X_AxisLen)
    (hI2 : ∀ r, r < m.m_Y_AxisLen →
      m.m_characterMatrix[r * m.m_X_AxisLen + (m.m_X_AxisLen - 1)]? = some newline)
    (hI3 : ∀ r x, r < m.m_Y_AxisLen → x < m.m_X_AxisLen - 1 →
      ∃ v, m.m_characterMatrix[r * m.m_X_AxisLen + x]? = some v ∧
        (v = m.m_fillCharacter ∨ chars_for_drawing_contains v = true))
    (hI4 : 2 ≤ m.m_X_AxisLen)
    (hfill : m.m_fillCharacter ≠ newline)
    (hc : chars_for_drawing_contains c = false) :
    ∃ m1, m.setFillCharacter c = .returned m1 ∧
      m1.m_fillCharacter = c ∧
      m1.m_characterMatrix.length = m1.m_Y_AxisLen * m1.m_X_AxisLen ∧
      (∀ r, r < m1.m_Y_AxisLen →
        m1.m_characterMatrix[r * m1.m_X_AxisLen + (m1.m_X_AxisLen - 1)]? = some newline) ∧
      (∀ r x, r < m1.m_Y_AxisLen → x < m1.m_X_AxisLen - 1 →
        ∃ v, m1.m_characterMatrix[r * m1.m_X_AxisLen + x]? = some v ∧
          (v = m1.m_fillCharacter ∨ chars_for_drawing_contains v = true)) ∧
      2 ≤ m1.m_X_AxisLen := by
  by_cases hne : c = m.m_fillCharacter
  · refine ⟨m, ?_, hne.symm, hI1, hI2, hI3, hI4⟩
    unfold CharMatrix.setFillCharacter
    rw [hc, if_neg (by simp), if_pos hne]
  · refine ⟨{ m with
        m_characterMatrix := replace m.m_characterMatrix m.m_fillCharacter c,
        m_fillCharacter := c }, ?_, rfl, ?_, ?_, ?_, hI4⟩
    · unfold CharMatrix.setFillCharacter
      rw [hc, if_neg (by simp), if_neg hne]
    · simpa [replace] using hI1
    · intro r hr
      simp only [getElem?_replace, hI2 r hr, Option.map_some']
      rw [if_neg (fun h => hfill h.symm)]
    · intro r x hr hx
      obtain ⟨v, hv, hv2⟩ := hI3 r x hr hx
      simp only [getElem?_replace, hv, Option.map_some']
      by_cases hvf : v = m.m_fillCharacter
      · exact ⟨c, by rw [if_pos hvf], Or.inl rfl⟩
      · refine ⟨v, by rw [if_neg hvf], Or.inr ?_⟩
        rcases hv2 with h | h
        · exact absurd h hvf
        · exact h

/-- The hypotheses of claim C12 as amended hold for the row of three cells and the
full stop as new fill character, and so does its conclusion. -/
theorem setFillCharacter_keeps_invariants_witness :
    (grid_1x3.m_characterMatrix.length = grid_1x3.m_Y_AxisLen * grid_1x3.m_X_AxisLen ∧
      (∀ r, r < grid_1x3.m_Y_AxisLen →
        grid_1x3.m_characterMatrix[r * grid_1x3.m_X_AxisLen + (grid_1x3.m_X_AxisLen - 1)]? =
          some newline) ∧
      (∀ r x, r < grid_1x3.m_Y_AxisLen → x < grid_1x3.m_X_AxisLen - 1 →
        ∃ v, grid_1x3.m_characterMatrix[r * grid_1x3.m_X_AxisLen + x]? = some v ∧
          (v = grid_1x3.m_fillCharacter ∨ chars_for_drawing_contains v = true)) ∧
      2 ≤ grid_1x3.m_X_AxisLen ∧ grid_1x3.m_fillCharacter ≠ newline ∧
      chars_for_drawing_contains 46 = false) ∧
    ∃ m1, grid_1x3.setFillCharacter 46 = .returned m1 ∧
      m1.m_fillCharacter = 46 ∧
      m1.m_characterMatrix.length = m1.m_Y_AxisLen * m1.m_X_AxisLen ∧
      (∀ r, r < m1.m_Y_AxisLen →
        m1.m_characterMatrix[r * m1.m_X_AxisLen + (m1.m_X_AxisLen - 1)]? = some newline) ∧
      (∀ r x, r < m1.m_Y_AxisLen → x < m1.m_X_AxisLen - 1 →
        ∃ v, m1.m_characterMatrix[r * m1.m_X_AxisLen + x]? = some v ∧
          (v = m1.m_fillCharacter ∨ chars_for_drawing_contains v = true)) ∧
      2 ≤ m1.m_X_AxisLen :=
  ⟨⟨by decide, by decide, grid_1x3_content, by decide, by decide, by decide⟩,
   setFillCharacter_keeps_invariants grid_1x3 46 (by decide) (by decide) grid_1x3_content
     (by decide) (by decide) (by decide)⟩

/-- Claim C12 fails as stated. The grid `CharMatrix( 1, 2, 10 )`, whose fill
character is the line break, satisfies I1 to I4; `setFillCharacter 32` replaces
every line break, the one that ends the row included, so the last cell of the
row no longer holds the line break. -/
theorem setFillCharacter_breaks_terminator :
    (grid_newline_fill.m_characterMatrix.length =
        grid_newline_fill.m_Y_AxisLen * grid_newline_fill.m_X_AxisLen ∧
      (∀ r, r < grid_newline_fill.m_Y_AxisLen →
        grid_newline_fill.m_characterMatrix[r * grid_newline_fill.m_X_AxisLen +
          (grid_newline_fill.m_X_AxisLen - 1)]? = some newline) ∧
      (∀ r x, r < grid_newline_fill.m_Y_AxisLen → x < grid_newline_fill.m_X_AxisLen - 1 →
        ∃ v, grid_newline_fill.m_characterMatrix[r * grid_newline_fill.m_X_AxisLen + x]? =
            some v ∧
          (v = grid_newline_fill.m_fillCharacter ∨ chars_for_drawing_contains v = true)) ∧
      2 ≤ grid_newline_fill.m_X_AxisLen ∧ chars_for_drawing_contains 32 = false) ∧
    grid_newline_fill.setFillCharacter 32 = .returned ⟨1, 2, 32, [32, 32]⟩ ∧
    ([32, 32] : List Nat)[0 * 2 + (2 - 1)]? ≠ some newline ∧
    CharMatrix.construct 1 2 newline = .returned grid_newline_fill := by
  refine ⟨⟨by decide, by decide, ?_, by decide, by decide⟩, by decide, by decide, by decide⟩
  intro r x hr hx
  have : grid_newline_fill.m_X_AxisLen = 2 := rfl
  have : grid_newline_fill.m_Y_AxisLen = 1 := rfl
  have hr0 : r = 0 := by omega
  have hx0 : x = 0 := by omega
  subst hr0 hx0
  exact ⟨10, by decide, by decide⟩

/-! ## C13: writing then reading a record -/

/-- Claim C13. For every grid `g` with rows in `[1, 50]`, cols in `[2, 168]`, a fill
character that is not a drawing character and a buffer of `rows * cols` cells,
every destination `d` and every state of the static scratch object: reading
with `operator>>` the bytes that `operator<<` wrote for `g` returns, and the
destination then has the rows, cols and fill character of `g`, compares equal
to `g`, and has the buffer of `g` cell for cell. -/
theorem serialization_round_trip (g d temp : CharMatrix)
    (hr1 : 1 ≤ g.m_Y_AxisLen) (hr2 : g.m_Y_AxisLen ≤ 50)
    (hc1 : 2 ≤ g.m_X_AxisLen) (hc2 : g.m_X_AxisLen ≤ 168)
    (hfill : chars_for_drawing_contains g.m_fillCharacter = false)
    (hlen : g.m_characterMatrix.length = g.m_Y_AxisLen * g.m_X_AxisLen) :
    ∃ d1, (operatorShiftRight ⟨(operatorShiftLeft ⟨[], false⟩ g).bytes, false⟩ temp d).char_matrix
        = .returned d1 ∧
      d1.m_Y_AxisLen = g.m_Y_AxisLen ∧ d1.m_X_AxisLen = g.m_X_AxisLen ∧
      d1.m_fillCharacter = g.m_fillCharacter ∧ d1.operatorEq g = true ∧
      d1.m_characterMatrix = g.m_characterMatrix := by
  have hU : UINT32_MOD = 4294967296 := rfl
  have hprod : g.m_Y_AxisLen * g.m_X_AxisLen ≤ 50 * 168 := Nat.mul_le_mul hr2 hc2
  have e1 : u32mul g.m_Y_AxisLen g.m_X_AxisLen = g.m_Y_AxisLen * g.m_X_AxisLen :=
    u32mul_eq _ _ (by omega)
  have hrec := readRecord_full g.m_Y_AxisLen g.m_X_AxisLen g.m_fillCharacter
    g.m_characterMatrix temp (by omega) (by omega) (by rw [e1, hlen])
  refine ⟨g, ?_, rfl, rfl, rfl, ?_, rfl⟩
  · rw [operatorShiftLeft_bytes _ _ rfl, List.nil_append]
    unfold operatorShiftRight
    rw [hrec]
    exact assignFromTemp_valid d g hr1 hr2 hc1 hc2 hfill
  · simp [CharMatrix.operatorEq]

/-- The hypotheses of claim C13 hold for the grid of two rows of three cells, and
so does its conclusion for a destination of one cell. -/
theorem serialization_round_trip_witness :
    (1 ≤ grid_2x3.m_Y_AxisLen ∧ grid_2x3.m_Y_AxisLen ≤ 50 ∧
      2 ≤ grid_2x3.m_X_AxisLen ∧ grid_2x3.m_X_AxisLen ≤ 168 ∧
      chars_for_drawing_contains grid_2x3.m_fillCharacter = false ∧
      grid_2x3.m_characterMatrix.length = grid_2x3.m_Y_AxisLen * grid_2x3.m_X_AxisLen) ∧
    ∃ d1, (operatorShiftRight ⟨(operatorShiftLeft ⟨[], false⟩ grid_2x3).bytes, false⟩
        grid_2x5 grid_1x1).char_matrix = .returned d1 ∧
      d1.m_Y_AxisLen = grid_2x3.m_Y_AxisLen ∧ d1.m_X_AxisLen = grid_2x3.m_X_AxisLen ∧
      d1.m_fillCharacter = grid_2x3.m_fillCharacter ∧ d1.operatorEq grid_2x3 = true ∧
      d1.m_characterMatrix = grid_2x3.m_characterMatrix :=
  ⟨by decide,
   serialization_round_trip grid_2x3 grid_1x1 grid_2x5 (by decide) (by decide) (by decide)
     (by decide) (by decide) (by decide)⟩

/-! ## C14: the layout of the record -/

/-- Claim C14. On a stream that is not in the fail state `operator<<` appends, in
this order and with nothing else, the four bytes of the rows, the four bytes of
the cols, the byte of the fill character and the buffer as it is. The four bytes
of a dimension are below 256 and are its digits in base 256 from the lowest on,
the little-endian encoding. When the buffer has `rows * cols` cells the record
is `9 + rows * cols` bytes long. -/
theorem operatorShiftLeft_layout (ofs : OStream) (g : CharMatrix)
    (hgood : ofs.failed = false) :
    (operatorShiftLeft ofs g).bytes =
      ofs.bytes ++ (uint32_bytes g.m_Y_AxisLen ++ (uint32_bytes g.m_X_AxisLen ++
        ([g.m_fillCharacter] ++ g.m_characterMatrix))) ∧
    ((uint32_bytes g.m_Y_AxisLen).length = 4 ∧ (∀ b ∈ uint32_bytes g.m_Y_AxisLen, b < 256) ∧
      (uint32_bytes g.m_Y_AxisLen).getD 0 0 + 256 * (uint32_bytes g.m_Y_AxisLen).getD 1 0 +
        65536 * (uint32_bytes g.m_Y_AxisLen).getD 2 0 +
        16777216 * (uint32_bytes g.m_Y_AxisLen).getD 3 0 = g.m_Y_AxisLen % UINT32_MOD) ∧
    ((uint32_bytes g.m_X_AxisLen).length = 4 ∧ (∀ b ∈ uint32_bytes g.m_X_AxisLen, b < 256) ∧
      (uint32_bytes g.m_X_AxisLen).getD 0 0 + 256 * (uint32_bytes g.m_X_AxisLen).getD 1 0 +
        65536 * (uint32_bytes g.m_X_AxisLen).getD 2 0 +
        16777216 * (uint32_bytes g.m_X_AxisLen).getD 3 0 = g.m_X_AxisLen % UINT32_MOD) ∧
    (g.m_characterMatrix.length = g.m_Y_AxisLen * g.m_X_AxisLen →
      (operatorShiftLeft ofs g).bytes.length =
        ofs.bytes.length + (9 + g.m_Y_AxisLen * g.m_X_AxisLen)) := by
  have hb := operatorShiftLeft_bytes ofs g hgood
  refine ⟨by rw [hb]; rfl, uint32_bytes_digits _, uint32_bytes_digits _, ?_⟩
  intro hlen
  rw [hb]
  simp only [List.length_append, List.length_cons, (uint32_bytes_digits _).1, hlen]
  omega

/-- The hypothesis of claim C14 holds for an empty good stream; for the grid of two
rows of three cells the record is the fifteen bytes listed. -/
theorem operatorShiftLeft_layout_witness :
    (⟨[], false⟩ : OStream).failed = false ∧
    (operatorShiftLeft ⟨[], false⟩ grid_2x3).bytes =
      [2, 0, 0, 0, 3, 0, 0, 0, 32, 1, 2, 10, 3, 4, 10] ∧
    (operatorShiftLeft ⟨[], false⟩ grid_2x3).bytes =
      (⟨[], false⟩ : OStream).bytes ++ (uint32_bytes grid_2x3.m_Y_AxisLen ++
        (uint32_bytes grid_2x3.m_X_AxisLen ++
          ([grid_2x3.m_fillCharacter] ++ grid_2x3.m_characterMatrix))) :=
  ⟨rfl, by decide, (operatorShiftLeft_layout ⟨[], false⟩ grid_2x3 rfl).1⟩

/-! ## C15: rejected records -/

/-- Claim C15, as amended. For every destination, every state of the static scratch
object and every stream that starts with the header of a record: declared rows
outside `[1, 50]` make `operator>>` throw the exception of `setY_AxisLen`;
declared rows inside and declared cols outside `[2, 168]` make it throw the
exception of `setX_AxisLen`; and declared rows and cols inside their ranges with
a drawing character as fill byte make it throw the exception of
`setFillCharacter`. Each setter throws the same exception on the same value. -/
theorem operatorShiftRight_rejects (rows cols fill : Nat) (rest : List Nat)
    (temp d : CharMatrix) (hrows : rows < UINT32_MOD) (hcols : cols < UINT32_MOD) :
    ((rows < 1 ∨ rows > 50) →
      (∃ st, (operatorShiftRight
          ⟨uint32_bytes rows ++ (uint32_bytes cols ++ (fill :: rest)), false⟩ temp d).char_matrix
          = .threw .Invalid_Y_Axis_Len_Exception st) ∧
      ∀ m : CharMatrix, m.setY_AxisLen rows = .threw .Invalid_Y_Axis_Len_Exception m) ∧
    (1 ≤ rows → rows ≤ 50 → (cols < 2 ∨ cols > 168) →
      (∃ st, (operatorShiftRight
          ⟨uint32_bytes rows ++ (uint32_bytes cols ++ (fill :: rest)), false⟩ temp d).char_matrix
          = .threw .Invalid_X_Axis_Len_Exception st) ∧
      ∀ m : CharMatrix, m.setX_AxisLen cols = .threw .Invalid_X_Axis_Len_Exception m) ∧
    (1 ≤ rows → rows ≤ 50 → 2 ≤ cols → cols ≤ 168 →
      chars_for_drawing_contains fill = true →
      (∃ st, (operatorShiftRight
          ⟨uint32_bytes rows ++ (uint32_bytes cols ++ (fill :: rest)), false⟩ temp d).char_matrix
          = .threw .Invalid_Fill_Character_Exception st) ∧
      ∀ m : CharMatrix, m.setFillCharacter fill = .threw .Invalid_Fill_Character_Exception m) := by
  have hrec := readRecord_header rows cols fill rest temp hrows hcols
  refine ⟨fun h => ⟨⟨⟨rows, d.m_X_AxisLen, d.m_fillCharacter, d.m_characterMatrix⟩, ?_⟩,
      fun m => setY_AxisLen_rejects m rows h⟩,
    fun h1 h2 h => ⟨⟨⟨rows, cols, d.m_fillCharacter, d.m_characterMatrix⟩, ?_⟩,
      fun m => setX_AxisLen_rejects m cols h⟩,
    fun h1 h2 h3 h4 h => ⟨⟨⟨rows, cols, fill, d.m_characterMatrix⟩, ?_⟩,
      fun m => setFillCharacter_rejects m fill h⟩⟩
  · unfold operatorShiftRight
    rw [hrec]
    exact assignFromTemp_bad_rows d _ h
  · unfold operatorShiftRight
    rw [hrec]
    exact assignFromTemp_bad_cols d _ h1 h2 h
  · unfold operatorShiftRight
    rw [hrec]
    exact assignFromTemp_bad_fill d _ h1 h2 h3 h4 h

/-- The hypotheses of the first part of claim C15 as amended hold for the header
that declares no row, and so does its conclusion. -/
theorem operatorShiftRight_rejects_witness :
    ((0 : Nat) < UINT32_MOD ∧ (3 : Nat) < UINT32_MOD ∧ ((0 : Nat) < 1 ∨ (0 : Nat) > 50)) ∧
    ((∃ st, (operatorShiftRight
        ⟨uint32_bytes 0 ++ (uint32_bytes 3 ++ (32 :: [])), false⟩ grid_2x5 grid_2x3).char_matrix
        = .threw .Invalid_Y_Axis_Len_Exception st) ∧
      ∀ m : CharMatrix, m.setY_AxisLen 0 = .threw .Invalid_Y_Axis_Len_Exception m) :=
  ⟨by decide,
   (operatorShiftRight_rejects 0 3 32 [] grid_2x5 grid_2x3 (by decide) (by decide)).1
     (by decide)⟩

/-- Claim C15 fails as stated in its second part. The header that declares no row,
five columns and the dash as fill byte has a drawing character as fill byte, and
reading it throws the exception of `setY_AxisLen`, the rows being checked first,
not the exception of `setFillCharacter`. -/
theorem operatorShiftRight_glyph_fill_refuted :
    chars_for_drawing_contains 45 = true ∧
    (operatorShiftRight
      ⟨uint32_bytes 0 ++ (uint32_bytes 5 ++ (45 :: [])), false⟩ grid_2x5 grid_2x3).char_matrix
      = .threw .Invalid_Y_Axis_Len_Exception ⟨0, 3, 32, [1, 2, 10, 3, 4, 10]⟩ := by
  decide

/-! ## C16: a rejected read and the destination -/

/-- Claim C16 against the code. Three records that `operator>>` rejects, read into
the grid of two rows of three cells: one declares no row, one declares 200
columns, one has the dash as fill byte. At the throw the destination already
holds the rejected rows, the rejected cols, the rejected fill character, and so
differs from what it was before the read. -/
theorem operatorShiftRight_not_atomic :
    ((operatorShiftRight
      ⟨uint32_bytes 0 ++ (uint32_bytes 3 ++ (32 :: [])), false⟩ grid_2x5 grid_2x3).char_matrix
      = .threw .Invalid_Y_Axis_Len_Exception ⟨0, 3, 32, [1, 2, 10, 3, 4, 10]⟩ ∧
     (⟨0, 3, 32, [1, 2, 10, 3, 4, 10]⟩ : CharMatrix) ≠ grid_2x3) ∧
    ((operatorShiftRight
      ⟨uint32_bytes 1 ++ (uint32_bytes 200 ++ (32 :: [])), false⟩ grid_2x5 grid_2x3).char_matrix
      = .threw .Invalid_X_Axis_Len_Exception ⟨1, 200, 32, [1, 2, 10, 3, 4, 10]⟩ ∧
     (⟨1, 200, 32, [1, 2, 10, 3, 4, 10]⟩ : CharMatrix) ≠ grid_2x3) ∧
    ((operatorShiftRight
      ⟨uint32_bytes 1 ++ (uint32_bytes 2 ++ (45 :: [32, 10])), false⟩ grid_2x5 grid_2x3).char_matrix
      = .threw .Invalid_Fill_Character_Exception ⟨1, 2, 45, [1, 2, 10, 3, 4, 10]⟩ ∧
     (⟨1, 2, 45, [1, 2, 10, 3, 4, 10]⟩ : CharMatrix) ≠ grid_2x3) := by
  decide

/-! ## C17: the constructor and the range of the rows -/

/-- Claim C17, as amended. For every cols in `[2, 168]` and every fill character
that is not a drawing character the constructor returns a grid of 51 rows just
as it returns one of 50 rows: it does not look at the range. The exception for
51 rows is thrown by `setY_AxisLen`, on every object, and `setY_AxisLen 50` never
throws it. -/
theorem construct_does_not_validate (cols fill : Nat)
    (hc1 : 2 ≤ cols) (hc2 : cols ≤ 168) (hfill : chars_for_drawing_contains fill = false) :
    (∃ m, CharMatrix.construct 51 cols fill = .returned m ∧
      m.getY_AxisLen = 51 ∧ m.getX_AxisLen = cols ∧ m.getFillCharacter = fill ∧
      m.getCharacterMatrix.length = 51 * cols) ∧
    (∃ m, CharMatrix.construct 50 cols fill = .returned m ∧
      m.getY_AxisLen = 50 ∧ m.getX_AxisLen = cols ∧ m.getFillCharacter = fill ∧
      m.getCharacterMatrix.length = 50 * cols) ∧
    (∀ m : CharMatrix, m.setY_AxisLen 51 = .threw .Invalid_Y_Axis_Len_Exception m) ∧
    (∀ m m1 : CharMatrix, m.setY_AxisLen 50 ≠ .threw .Invalid_Y_Axis_Len_Exception m1) := by
  have hU : UINT32_MOD = 4294967296 := rfl
  obtain ⟨b1, h1, l1⟩ := construct_returns 51 cols fill (by omega) (by omega) (by omega)
  obtain ⟨b2, h2, l2⟩ := construct_returns 50 cols fill (by omega) (by omega) (by omega)
  refine ⟨⟨_, h1, rfl, rfl, rfl, l1⟩, ⟨_, h2, rfl, rfl, rfl, l2⟩, ?_, ?_⟩
  · intro m
    unfold CharMatrix.setY_AxisLen
    rw [if_pos (by decide)]
  · intro m m1 h
    unfold CharMatrix.setY_AxisLen at h
    simp only [max_allowed_y_axis_len, min_allowed_y_axis_len] at h
    rw [if_neg (by omega)] at h
    split_ifs at h
    · split at h <;> cases h
    · cases h

/-- The hypotheses of claim C17 as amended hold for two columns and the space, and
so does its conclusion. -/
theorem construct_does_not_validate_witness :
    (2 ≤ 2 ∧ 2 ≤ 168 ∧ chars_for_drawing_contains 32 = false) ∧
    ((∃ m, CharMatrix.construct 51 2 32 = .returned m ∧
      m.getY_AxisLen = 51 ∧ m.getX_AxisLen = 2 ∧ m.getFillCharacter = 32 ∧
      m.getCharacterMatrix.length = 51 * 2) ∧
    (∃ m, CharMatrix.construct 50 2 32 = .returned m ∧
      m.getY_AxisLen = 50 ∧ m.getX_AxisLen = 2 ∧ m.getFillCharacter = 32 ∧
      m.getCharacterMatrix.length = 50 * 2) ∧
    (∀ m : CharMatrix, m.setY_AxisLen 51 = .threw .Invalid_Y_Axis_Len_Exception m) ∧
    (∀ m m1 : CharMatrix, m.setY_AxisLen 50 ≠ .threw .Invalid_Y_Axis_Len_Exception m1)) :=
  ⟨by decide, construct_does_not_validate 2 32 (by decide) (by decide) (by decide)⟩

/-- Claim C17 fails as stated. The constructor called with 51 rows, two columns and
the space returns a grid of 51 rows and throws nothing. -/
theorem construct_51_not_rejected :
    (2 ≤ 2 ∧ 2 ≤ 168 ∧ chars_for_drawing_contains 32 = false) ∧
    (∃ buf, CharMatrix.construct 51 2 32 = .returned ⟨51, 2, 32, buf⟩) ∧
    ∀ e m, CharMatrix.construct 51 2 32 ≠ .threw e m := by
  obtain ⟨buf, h, -⟩ := construct_returns 51 2 32 (by decide) (by decide) (by decide)
  refine ⟨by decide, ⟨buf, h⟩, ?_⟩
  intro e m h2
  rw [h] at h2
  cases h2

/-! ## C18: a dash on the grid of one row and two columns -/

/-- Claim C18. The constructor called with one row, two columns and the space gives
the buffer of the space and the line break; plotting `(0, 0, 1, 0)` on it leaves
a buffer of length 2 whose two cells both hold the dash, character 45. -/
theorem plot_dash_on_1x2 :
    CharMatrix.construct 1 2 32 = .returned ⟨1, 2, 32, [32, newline]⟩ ∧
    (⟨1, 2, 32, [32, newline]⟩ : CharMatrix).setCharacterMatrix ⟨0, 0, 1, 0⟩ =
      .returned ⟨1, 2, 32, [AllowedChars.Dash.toChar, AllowedChars.Dash.toChar]⟩ ∧
    [AllowedChars.Dash.toChar, AllowedChars.Dash.toChar].length = 2 ∧
    AllowedChars.Dash.toChar = 45 := by
  decide

/-! ## C19: the classifier is symmetric -/

/-- Claim C19. For all 32-bit unsigned `x1, y1, x2, y2` the classifier gives the same
result for `(x1, y1, x2, y2)` and for `(x2, y2, x1, y1)`; in particular a pair
classified as dash, or as vertical bar, is classified the same after its end
points are swapped. -/
theorem processCoordsToObtainCharType_symmetric (c : Coords)
    (hx1 : c.x1 < UINT32_MOD) (hy1 : c.y1 < UINT32_MOD)
    (hx2 : c.x2 < UINT32_MOD) (hy2 : c.y2 < UINT32_MOD) :
    processCoordsToObtainCharType c = processCoordsToObtainCharType ⟨c.x2, c.y2, c.x1, c.y1⟩ ∧
    (processCoordsToObtainCharType c = some .Dash →
      processCoordsToObtainCharType ⟨c.x2, c.y2, c.x1, c.y1⟩ = some .Dash) ∧
    (processCoordsToObtainCharType c = some .VerticalSlash →
      processCoordsToObtainCharType ⟨c.x2, c.y2, c.x1, c.y1⟩ = some .VerticalSlash) := by
  have key : processCoordsToObtainCharType c =
      processCoordsToObtainCharType ⟨c.x2, c.y2, c.x1, c.y1⟩ := by
    obtain ⟨x1, y1, x2, y2⟩ := c
    simp only at hx1 hy1 hx2 hy2 ⊢
    have hU : UINT32_MOD = 4294967296 := rfl
    have ex1 : toInt64 (x1 : Int) = x1 := toInt64_eq _ (by omega) (by omega)
    have ex2 : toInt64 (x2 : Int) = x2 := toInt64_eq _ (by omega) (by omega)
    have ey1 : toInt64 (y1 : Int) = y1 := toInt64_eq _ (by omega) (by omega)
    have ey2 : toInt64 (y2 : Int) = y2 := toInt64_eq _ (by omega) (by omega)
    have edx : toInt64 ((x1 : Int) - x2) = (x1 : Int) - x2 := toInt64_eq _ (by omega) (by omega)
    have edy : toInt64 ((y1 : Int) - y2) = (y1 : Int) - y2 := toInt64_eq _ (by omega) (by omega)
    have edx2 : toInt64 ((x2 : Int) - x1) = (x2 : Int) - x1 := toInt64_eq _ (by omega) (by omega)
    have edy2 : toInt64 ((y2 : Int) - y1) = (y2 : Int) - y1 := toInt64_eq _ (by omega) (by omega)
    have ax : ((x2 : Int) - x1).natAbs = ((x1 : Int) - x2).natAbs := by omega
    have ay : ((y2 : Int) - y1).natAbs = ((y1 : Int) - y2).natAbs := by omega
    have bx : (x2 == x1) = (x1 == x2) := by
      rw [Bool.eq_iff_iff]; simp only [beq_iff_eq]; exact eq_comm
    have bY : (y2 == y1) = (y1 == y2) := by
      rw [Bool.eq_iff_iff]; simp only [beq_iff_eq]; exact eq_comm
    have c3 : ((decide (x2 < x1) && decide (y2 > y1)) || (decide (x2 > x1) && decide (y2 < y1)))
        = ((decide (x1 < x2) && decide (y1 > y2)) || (decide (x1 > x2) && decide (y1 < y2))) :=
      Bool.or_comm _ _
    have c4 : ((decide (x2 < x1) && decide (y2 < y1)) || (decide (x2 > x1) && decide (y2 > y1)))
        = ((decide (x1 < x2) && decide (y1 < y2)) || (decide (x1 > x2) && decide (y1 > y2))) :=
      Bool.or_comm _ _
    unfold processCoordsToObtainCharType
    simp only [ex1, ex2, ey1, ey2, edx, edy, edx2, edy2, ax, ay, bx, bY, c3, c4]
  exact ⟨key, fun h => key ▸ h, fun h => key ▸ h⟩

/-- The hypotheses of claim C19 hold for the quadruple `(0, 0, 1, 0)`, and so does
its conclusion. -/
theorem processCoordsToObtainCharType_symmetric_witness :
    (coords_dash.x1 < UINT32_MOD ∧ coords_dash.y1 < UINT32_MOD ∧
      coords_dash.x2 < UINT32_MOD ∧ coords_dash.y2 < UINT32_MOD) ∧
    (processCoordsToObtainCharType coords_dash =
      processCoordsToObtainCharType ⟨coords_dash.x2, coords_dash.y2, coords_dash.x1, coords_dash.y1⟩ ∧
    (processCoordsToObtainCharType coords_dash = some .Dash →
      processCoordsToObtainCharType
        ⟨coords_dash.x2, coords_dash.y2, coords_dash.x1, coords_dash.y1⟩ = some .Dash) ∧
    (processCoordsToObtainCharType coords_dash = some .VerticalSlash →
      processCoordsToObtainCharType
        ⟨coords_dash.x2, coords_dash.y2, coords_dash.x1, coords_dash.y1⟩ =
          some .VerticalSlash)) :=
  ⟨by decide,
   processCoordsToObtainCharType_symmetric coords_dash (by decide) (by decide) (by decide)
     (by decide)⟩

/-! ## C20: equality ignores the buffer -/

/-- Claim C20. For any two grids `a == b` holds iff their rows, their cols and
their fill characters are equal; hence two grids with equal rows, cols and fill
character and different buffers compare equal. -/
theorem operatorEq_ignores_content (a b : CharMatrix) :
    (a.operatorEq b = true ↔
      a.m_Y_AxisLen = b.m_Y_AxisLen ∧ a.m_X_AxisLen = b.m_X_AxisLen ∧
        a.m_fillCharacter = b.m_fillCharacter) ∧
    (a.m_Y_AxisLen = b.m_Y_AxisLen → a.m_X_AxisLen = b.m_X_AxisLen →
      a.m_fillCharacter = b.m_fillCharacter → a.m_characterMatrix ≠ b.m_characterMatrix →
      a.operatorEq b = true) := by
  have h : a.operatorEq b = true ↔
      a.m_Y_AxisLen = b.m_Y_AxisLen ∧ a.m_X_AxisLen = b.m_X_AxisLen ∧
        a.m_fillCharacter = b.m_fillCharacter := by
    unfold CharMatrix.operatorEq
    simp only [Bool.and_eq_true, beq_iff_eq, and_assoc]
  exact ⟨h, fun h1 h2 h3 _ => h.mpr ⟨h1, h2, h3⟩⟩

/-- Two grids of two rows of three cells with the same fill character and
different buffers satisfy the hypotheses of the second part of claim C20, and
compare equal. -/
theorem operatorEq_ignores_content_witness :
    (grid_2x3.m_Y_AxisLen = grid_2x3_dashes.m_Y_AxisLen ∧
      grid_2x3.m_X_AxisLen = grid_2x3_dashes.m_X_AxisLen ∧
      grid_2x3.m_fillCharacter = grid_2x3_dashes.m_fillCharacter ∧
      grid_2x3.m_characterMatrix ≠ grid_2x3_dashes.m_characterMatrix) ∧
    grid_2x3.operatorEq grid_2x3_dashes = true :=
  ⟨by decide,
   (operatorEq_ignores_content grid_2x3 grid_2x3_dashes).2 (by decide) (by decide) (by decide)
     (by decide)⟩

/-! ## Lemmas on the ordering, the validator, the plot and the invariants -/

/-- On grids of at most 50 rows and 168 columns the 32-bit areas do not wrap, and
`operator<=>` compares the areas, then the rows, then the fill characters. -/
theorem operatorSpaceship_eq (a b : CharMatrix)
    (ha2 : a.m_Y_AxisLen ≤ 50) (ha4 : a.m_X_AxisLen ≤ 168)
    (hb2 : b.m_Y_AxisLen ≤ 50) (hb4 : b.m_X_AxisLen ≤ 168) :
    a.operatorSpaceship b =
      if a.m_Y_AxisLen * a.m_X_AxisLen < b.m_Y_AxisLen * b.m_X_AxisLen then .less
      else if b.m_Y_AxisLen * b.m_X_AxisLen < a.m_Y_AxisLen * a.m_X_AxisLen then .greater
      else if a.m_Y_AxisLen < b.m_Y_AxisLen then .less
      else if b.m_Y_AxisLen < a.m_Y_AxisLen then .greater
      else if a.m_fillCharacter = b.m_fillCharacter then .equivalent
      else .unordered := by
  have hU : UINT32_MOD = 4294967296 := rfl
  have hA : a.m_Y_AxisLen * a.m_X_AxisLen ≤ 50 * 168 := Nat.mul_le_mul ha2 ha4
  have hB : b.m_Y_AxisLen * b.m_X_AxisLen ≤ 50 * 168 := Nat.mul_le_mul hb2 hb4
  unfold CharMatrix.operatorSpaceship
  rw [u32mul_eq _ _ (by omega), u32mul_eq _ _ (by omega)]
  simp only [uint32_compare]
  split_ifs <;> first | rfl | omega | (exfalso; simp_all)

/-- Two grids of at least one row with equal areas and equal rows have equal
columns. -/
theorem cols_eq_of_area_eq (a b : CharMatrix) (ha : 1 ≤ a.m_Y_AxisLen)
    (hrows : a.m_Y_AxisLen = b.m_Y_AxisLen)
    (harea : a.m_Y_AxisLen * a.m_X_AxisLen = b.m_Y_AxisLen * b.m_X_AxisLen) :
    a.m_X_AxisLen = b.m_X_AxisLen := by
  rw [← hrows] at harea
  exact Nat.eq_of_mul_eq_mul_left ha harea

/-- What `validateEnteredCoords` leaves on a grid of at least one row and two
columns, rows and cols being 32-bit values, when the tokenizer reports four
tokens whose values are known: it accepts exactly when the two `x` are at most
`cols - 2` and the two `y` at most `rows - 1`, and on acceptance the output array
holds the four values. -/
theorem validateEnteredCoords_of_integers (u : Util) (m : CharMatrix) (line : List Nat)
    (out : Coords) (x1 y1 x2 y2 : Nat)
    (hrows : 1 ≤ m.m_Y_AxisLen) (hcols : 2 ≤ m.m_X_AxisLen)
    (hrows32 : m.m_Y_AxisLen < UINT32_MOD) (hcols32 : m.m_X_AxisLen < UINT32_MOD)
    (hcount : (u.tokenize_fast line 4).2 = 4)
    (h0 : u.to_integer ((u.tokenize_fast line 4).1.getD 0 []) = some x1)
    (h1 : u.to_integer ((u.tokenize_fast line 4).1.getD 1 []) = some y1)
    (h2 : u.to_integer ((u.tokenize_fast line 4).1.getD 2 []) = some x2)
    (h3 : u.to_integer ((u.tokenize_fast line 4).1.getD 3 []) = some y2) :
    ((m.validateEnteredCoords u line out).isValid = true ↔
      x1 ≤ m.m_X_AxisLen - 2 ∧ x2 ≤ m.m_X_AxisLen - 2 ∧
      y1 ≤ m.m_Y_AxisLen - 1 ∧ y2 ≤ m.m_Y_AxisLen - 1) ∧
    ((m.validateEnteredCoords u line out).isValid = true →
      (m.validateEnteredCoords u line out).int_enteredCoords_OUT = ⟨x1, y1, x2, y2⟩) := by
  have ey : u32sub m.m_Y_AxisLen 1 = m.m_Y_AxisLen - 1 := u32sub_eq _ _ hrows hrows32
  have ex : u32sub m.m_X_AxisLen 2 = m.m_X_AxisLen - 2 := u32sub_eq _ _ hcols hcols32
  unfold CharMatrix.validateEnteredCoords
  simp only [CharMatrix.getY_AxisLen, CharMatrix.getX_AxisLen, ey, ex, hcount, if_true,
    Util.convert_specific_tokens_to_integers, h0, h1, h2, h3, Nat.zero_le, true_and]
  by_cases b1 : y1 ≤ m.m_Y_AxisLen - 1
  · by_cases b3 : y2 ≤ m.m_Y_AxisLen - 1
    · by_cases b0 : x1 ≤ m.m_X_AxisLen - 2
      · by_cases b2 : x2 ≤ m.m_X_AxisLen - 2
        · simp [b0, b1, b2, b3, Coords.set]
        · simp [b0, b1, b2, b3, Coords.set]
      · simp [b0, b1, b3, Coords.set]
    · simp [b1, b3, Coords.set]
  · simp [b1, Coords.set]

/-- The validator rejects when the tokenizer does not report four tokens. -/
theorem validateEnteredCoords_count (u : Util) (m : CharMatrix) (line : List Nat)
    (out : Coords) (hcount : (u.tokenize_fast line 4).2 ≠ 4) :
    (m.validateEnteredCoords u line out).isValid = false := by
  unfold CharMatrix.validateEnteredCoords
  simp only [hcount, if_false]

/-- The validator rejects when one of the four tokens is not an integer. -/
theorem validateEnteredCoords_not_integer (u : Util) (m : CharMatrix) (line : List Nat)
    (out : Coords)
    (h : u.to_integer ((u.tokenize_fast line 4).1.getD 0 []) = none ∨
      u.to_integer ((u.tokenize_fast line 4).1.getD 1 []) = none ∨
      u.to_integer ((u.tokenize_fast line 4).1.getD 2 []) = none ∨
      u.to_integer ((u.tokenize_fast line 4).1.getD 3 []) = none) :
    (m.validateEnteredCoords u line out).isValid = false := by
  unfold CharMatrix.validateEnteredCoords
  simp only [Util.convert_specific_tokens_to_integers]
  generalize u.to_integer ((u.tokenize_fast line 4).1.getD 0 []) = a0 at h ⊢
  generalize u.to_integer ((u.tokenize_fast line 4).1.getD 1 []) = a1 at h ⊢
  generalize u.to_integer ((u.tokenize_fast line 4).1.getD 2 []) = a2 at h ⊢
  generalize u.to_integer ((u.tokenize_fast line 4).1.getD 3 []) = a3 at h ⊢
  by_cases hc : (u.tokenize_fast line 4).2 = 4
  · rw [if_pos hc]
    rcases a1 with _ | v1
    · rfl
    · by_cases b1 : 0 ≤ v1 ∧ v1 ≤ u32sub m.getY_AxisLen 1
      · simp only [if_pos b1]
        rcases a3 with _ | v3
        · rfl
        · by_cases b3 : 0 ≤ v3 ∧ v3 ≤ u32sub m.getY_AxisLen 1
          · simp only [if_pos b3, if_true]
            rcases a0 with _ | v0
            · rfl
            · by_cases b0 : 0 ≤ v0 ∧ v0 ≤ u32sub m.getX_AxisLen 2
              · simp only [if_pos b0]
                rcases a2 with _ | v2
                · rfl
                · simp at h
              · simp only [if_neg b0]
          · simp only [if_neg b3]
            rfl
      · simp only [if_neg b1]
        rfl
  · rw [if_neg hc]

/-- The validator passes the object on as it is. -/
theorem validateEnteredCoords_object (u : Util) (m : CharMatrix) (line : List Nat)
    (out : Coords) : (m.validateEnteredCoords u line out).object = m := by
  unfold CharMatrix.validateEnteredCoords
  dsimp only
  split_ifs <;> rfl

/-- The plot of a quadruple that the classifier maps to a character, both cell
indices lying inside the buffer: the call returns, and a cell of the new buffer
holds the character when it is one of the two cells and its old value
otherwise. -/
theorem setCharacterMatrix_some_spec (m : CharMatrix) (c : Coords) (g : AllowedChars)
    (h1 : m.cellIndex c.x1 c.y1 < m.m_characterMatrix.length)
    (h2 : m.cellIndex c.x2 c.y2 < m.m_characterMatrix.length)
    (hg : processCoordsToObtainCharType c = some g) :
    ∃ buf, m.setCharacterMatrix c =
        .returned ⟨m.m_Y_AxisLen, m.m_X_AxisLen, m.m_fillCharacter, buf⟩ ∧
      buf.length = m.m_characterMatrix.length ∧
      ∀ i, buf[i]? =
        if i = m.cellIndex c.x2 c.y2 then some g.toChar
        else if i = m.cellIndex c.x1 c.y1 then some g.toChar
        else m.m_characterMatrix[i]? := by
  obtain ⟨b1, hb1, l1, g1⟩ := store_spec m.m_characterMatrix _ g.toChar h1
  obtain ⟨b2, hb2, l2, g2⟩ := store_spec b1 (m.cellIndex c.x2 c.y2) g.toChar (by omega)
  refine ⟨b2, ?_, by omega, ?_⟩
  · unfold CharMatrix.setCharacterMatrix
    rw [hg]
    unfold CharMatrix.plot
    simp only [chars_for_drawing_contains_toChar, if_true, CharMatrix.assignCell, hb1,
      Option.map_some', Option.some_bind]
    have : CharMatrix.cellIndex { m with m_characterMatrix := b1 } c.x2 c.y2
        = m.cellIndex c.x2 c.y2 := rfl
    rw [this, hb2]
    rfl
  · intro i
    simp only [g2, g1]

/-- The plot of a quadruple that the classifier maps to nothing returns the grid
as it is. -/
theorem setCharacterMatrix_none_spec (m : CharMatrix) (c : Coords)
    (hg : processCoordsToObtainCharType c = none) :
    m.setCharacterMatrix c = .returned m := by
  unfold CharMatrix.setCharacterMatrix
  rw [hg]
  rfl

/-- The index of a cell whose column is at most `cols - 2` is not the index of the
last cell of a row. -/
theorem index_ne_terminator (cols r y x : Nat) (hx : x + 2 ≤ cols) :
    y * cols + x ≠ r * cols + (cols - 1) := by
  rcases Nat.lt_trichotomy r y with h | h | h
  · have := Nat.mul_le_mul_right cols (Nat.succ_le_of_lt h)
    rw [Nat.succ_mul] at this
    omega
  · subst h
    omega
  · have := Nat.mul_le_mul_right cols (Nat.succ_le_of_lt h)
    rw [Nat.succ_mul] at this
    omega

/-- The index of a cell of a grid is smaller than `rows * cols`. -/
theorem index_lt_area (rows cols y x : Nat) (hy : y < rows) (hx : x < cols) :
    y * cols + x < rows * cols := by
  have := Nat.mul_le_mul_right cols (Nat.succ_le_of_lt hy)
  rw [Nat.succ_mul] at this
  omega

/-- After `setY_AxisLen` on a grid of at least two columns that satisfies I1, I2
and I3, the 32-bit products of the old and of the new number of rows with the
columns not wrapping, the grid has the new number of rows and satisfies I1, I2
and I3 again. -/
theorem setY_AxisLen_invariants (m : CharMatrix) (n : Nat)
    (hI1 : m.m_characterMatrix.length = m.m_Y_AxisLen * m.m_X_AxisLen)
    (hI2 : ∀ r, r < m.m_Y_AxisLen →
      m.m_characterMatrix[r * m.m_X_AxisLen + (m.m_X_AxisLen - 1)]? = some newline)
    (hI3 : ∀ r x, r < m.m_Y_AxisLen → x < m.m_X_AxisLen - 1 →
      ∃ v, m.m_characterMatrix[r * m.m_X_AxisLen + x]? = some v ∧
        (v = m.m_fillCharacter ∨ chars_for_drawing_contains v = true))
    (hI4 : 2 ≤ m.m_X_AxisLen)
    (hn1 : 1 ≤ n) (hn2 : n ≤ 50)
    (hfit : m.m_Y_AxisLen * m.m_X_AxisLen < UINT32_MOD)
    (hfitY : n * m.m_X_AxisLen < UINT32_MOD) :
    ∃ buf, m.setY_AxisLen n = .returned ⟨n, m.m_X_AxisLen, m.m_fillCharacter, buf⟩ ∧
      buf.length = n * m.m_X_AxisLen ∧
      (∀ r, r < n → buf[r * m.m_X_AxisLen + (m.m_X_AxisLen - 1)]? = some newline) ∧
      (∀ r x, r < n → x < m.m_X_AxisLen - 1 →
        ∃ v, buf[r * m.m_X_AxisLen + x]? = some v ∧
          (v = m.m_fillCharacter ∨ chars_for_drawing_contains v = true)) := by
  rcases Nat.lt_trichotomy n m.m_Y_AxisLen with h | h | h
  · refine ⟨_, setY_AxisLen_shrink_spec m n hI1 hn1 hn2 h (by omega) hfit, ?_, ?_, ?_⟩
    · rw [List.length_take, hI1]
      exact Nat.min_eq_left (Nat.mul_le_mul_right _ (Nat.le_of_lt h))
    · intro r hr
      rw [List.getElem?_take, if_pos (index_lt_area _ _ _ _ hr (by omega))]
      exact hI2 r (by omega)
    · intro r x hr hx
      rw [List.getElem?_take, if_pos (index_lt_area _ _ _ _ hr (by omega))]
      exact hI3 r x (by omega) hx
  · subst h
    refine ⟨m.m_characterMatrix, ?_, hI1, hI2, hI3⟩
    exact setY_AxisLen_same m _ rfl hn1 hn2
  · obtain ⟨buf, hret, hlen, hold, hnew⟩ :=
      setY_AxisLen_grow_spec m n hI1 hn2 h (by omega) hfitY
    refine ⟨buf, hret, hlen, ?_, ?_⟩
    · intro r hr
      by_cases hr1 : r < m.m_Y_AxisLen
      · rw [hold _ (index_lt_area _ _ _ _ hr1 (by omega))]
        exact hI2 r hr1
      · rw [hnew r _ (by omega) hr (by omega), if_neg (by omega)]
    · intro r x hr hx
      by_cases hr1 : r < m.m_Y_AxisLen
      · rw [hold _ (index_lt_area _ _ _ _ hr1 (by omega))]
        exact hI3 r x hr1 hx
      · rw [hnew r x (by omega) hr (by omega), if_pos hx]
        exact ⟨_, rfl, Or.inl rfl⟩

/-- After `setX_AxisLen` on a grid of at least one row and two columns that
satisfies I1, I2 and I3, the 32-bit product of the rows with the new number of
columns not wrapping, the grid has the new number of columns and satisfies I1,
I2 and I3 again. -/
theorem setX_AxisLen_invariants (m : CharMatrix) (k : Nat)
    (hI1 : m.m_characterMatrix.length = m.m_Y_AxisLen * m.m_X_AxisLen)
    (hI2 : ∀ r, r < m.m_Y_AxisLen →
      m.m_characterMatrix[r * m.m_X_AxisLen + (m.m_X_AxisLen - 1)]? = some newline)
    (hI3 : ∀ r x, r < m.m_Y_AxisLen → x < m.m_X_AxisLen - 1 →
      ∃ v, m.m_characterMatrix[r * m.m_X_AxisLen + x]? = some v ∧
        (v = m.m_fillCharacter ∨ chars_for_drawing_contains v = true))
    (hI4 : 2 ≤ m.m_X_AxisLen) (hrows : 1 ≤ m.m_Y_AxisLen)
    (hk1 : 2 ≤ k) (hk2 : k ≤ 168)
    (hfitX : m.m_Y_AxisLen * k < UINT32_MOD) :
    ∃ buf, m.setX_AxisLen k = .returned ⟨m.m_Y_AxisLen, k, m.m_fillCharacter, buf⟩ ∧
      buf.length = m.m_Y_AxisLen * k ∧
      (∀ r, r < m.m_Y_AxisLen → buf[r * k + (k - 1)]? = some newline) ∧
      (∀ r x, r < m.m_Y_AxisLen → x < k - 1 →
        ∃ v, buf[r * k + x]? = some v ∧
          (v = m.m_fillCharacter ∨ chars_for_drawing_contains v = true)) := by
  rcases Nat.lt_trichotomy k m.m_X_AxisLen with h | h | h
  · obtain ⟨buf, hret, hlen, hcell⟩ := setX_AxisLen_shrink_spec m k hI1 hk1 h hk2 hfitX
    refine ⟨buf, hret, hlen, ?_, ?_⟩
    · intro r hr
      rw [hcell r _ hr (by omega), if_neg (by omega)]
    · intro r x hr hx
      rw [hcell r x hr (by omega), if_pos hx]
      exact hI3 r x hr (by omega)
  · subst h
    refine ⟨m.m_characterMatrix, ?_, hI1, hI2, hI3⟩
    exact setX_AxisLen_same m _ rfl hk1 hk2
  · obtain ⟨buf, hret, hlen, hcell⟩ :=
      setX_AxisLen_grow_spec m k hI1 (by omega) h hk1 hk2 hrows hfitX
    refine ⟨buf, hret, hlen, ?_, ?_⟩
    · intro r hr
      rw [hcell r _ hr (by omega), if_neg (by omega), if_neg (by omega)]
    · intro r x hr hx
      rw [hcell r x hr (by omega)]
      split_ifs with hx1
      · exact hI3 r x hr hx1
      · exact ⟨_, rfl, Or.inl rfl⟩

/-! ## C21: the ordering of two grids -/

/-- Claim C21. For any two grids `a` and `b` with rows in [1,50] and cols in
[2,168], `a <=> b` is less when the area `rows * cols` of `a` is smaller than that
of `b` and greater when it is larger; when the areas are equal it is less when
`a` has fewer rows and greater when it has more; when areas and rows are equal
it is equivalent if the fill characters are equal and unordered if they are
not. The result is the same whatever the two buffers hold. -/
theorem operatorSpaceship_orders_grids (a b : CharMatrix)
    (ha1 : 1 ≤ a.m_Y_AxisLen) (ha2 : a.m_Y_AxisLen ≤ 50)
    (ha3 : 2 ≤ a.m_X_AxisLen) (ha4 : a.m_X_AxisLen ≤ 168)
    (hb1 : 1 ≤ b.m_Y_AxisLen) (hb2 : b.m_Y_AxisLen ≤ 50)
    (hb3 : 2 ≤ b.m_X_AxisLen) (hb4 : b.m_X_AxisLen ≤ 168) :
    (a.m_Y_AxisLen * a.m_X_AxisLen < b.m_Y_AxisLen * b.m_X_AxisLen →
      a.operatorSpaceship b = .less) ∧
    (a.m_Y_AxisLen * a.m_X_AxisLen > b.m_Y_AxisLen * b.m_X_AxisLen →
      a.operatorSpaceship b = .greater) ∧
    (a.m_Y_AxisLen * a.m_X_AxisLen = b.m_Y_AxisLen * b.m_X_AxisLen →
      a.m_Y_AxisLen < b.m_Y_AxisLen → a.operatorSpaceship b = .less) ∧
    (a.m_Y_AxisLen * a.m_X_AxisLen = b.m_Y_AxisLen * b.m_X_AxisLen →
      a.m_Y_AxisLen > b.m_Y_AxisLen → a.operatorSpaceship b = .greater) ∧
    (a.m_Y_AxisLen * a.m_X_AxisLen = b.m_Y_AxisLen * b.m_X_AxisLen →
      a.m_Y_AxisLen = b.m_Y_AxisLen → a.m_fillCharacter = b.m_fillCharacter →
      a.operatorSpaceship b = .equivalent) ∧
    (a.m_Y_AxisLen * a.m_X_AxisLen = b.m_Y_AxisLen * b.m_X_AxisLen →
      a.m_Y_AxisLen = b.m_Y_AxisLen → a.m_fillCharacter ≠ b.m_fillCharacter →
      a.operatorSpaceship b = .unordered) ∧
    ∀ content_a content_b : List Nat,
      CharMatrix.operatorSpaceship
          ⟨a.m_Y_AxisLen, a.m_X_AxisLen, a.m_fillCharacter, content_a⟩
          ⟨b.m_Y_AxisLen, b.m_X_AxisLen, b.m_fillCharacter, content_b⟩ =
        a.operatorSpaceship b := by
  have _h := And.intro (And.intro ha1 ha3) (And.intro hb1 hb3)
  rw [operatorSpaceship_eq a b ha2 ha4 hb2 hb4]
  refine ⟨?_, ?_, ?_, ?_, ?_, ?_, ?_⟩
  · intro h
    rw [if_pos h]
  · intro h
    rw [if_neg (by omega), if_pos h]
  · intro h1 h2
    rw [if_neg (by omega), if_neg (by omega), if_pos h2]
  · intro h1 h2
    rw [if_neg (by omega), if_neg (by omega), if_neg (by omega), if_pos h2]
  · intro h1 h2 h3
    rw [if_neg (by omega), if_neg (by omega), if_neg (by omega), if_neg (by omega), if_pos h3]
  · intro h1 h2 h3
    rw [if_neg (by omega), if_neg (by omega), if_neg (by omega), if_neg (by omega), if_neg h3]
  · intro content_a content_b
    exact operatorSpaceship_eq ⟨a.m_Y_AxisLen, a.m_X_AxisLen, a.m_fillCharacter, content_a⟩
      ⟨b.m_Y_AxisLen, b.m_X_AxisLen, b.m_fillCharacter, content_b⟩ ha2 ha4 hb2 hb4

/-- The hypotheses of claim C21 hold for the grid of two rows of five cells and
the grid of five rows of two cells, which have the same area, and so does its
conclusion; the first is less than the second, having fewer rows. -/
theorem operatorSpaceship_orders_grids_witness :
    ((1 ≤ grid_2x5.m_Y_AxisLen ∧ grid_2x5.m_Y_AxisLen ≤ 50 ∧
      2 ≤ grid_2x5.m_X_AxisLen ∧ grid_2x5.m_X_AxisLen ≤ 168) ∧
     (1 ≤ grid_5x2.m_Y_AxisLen ∧ grid_5x2.m_Y_AxisLen ≤ 50 ∧
      2 ≤ grid_5x2.m_X_AxisLen ∧ grid_5x2.m_X_AxisLen ≤ 168)) ∧
    grid_2x5.operatorSpaceship grid_5x2 = .less ∧
    ((grid_2x5.m_Y_AxisLen * grid_2x5.m_X_AxisLen < grid_5x2.m_Y_AxisLen * grid_5x2.m_X_AxisLen →
      grid_2x5.operatorSpaceship grid_5x2 = .less) ∧
    (grid_2x5.m_Y_AxisLen * grid_2x5.m_X_AxisLen > grid_5x2.m_Y_AxisLen * grid_5x2.m_X_AxisLen →
      grid_2x5.operatorSpaceship grid_5x2 = .greater) ∧
    (grid_2x5.m_Y_AxisLen * grid_2x5.m_X_AxisLen = grid_5x2.m_Y_AxisLen * grid_5x2.m_X_AxisLen →
      grid_2x5.m_Y_AxisLen < grid_5x2.m_Y_AxisLen →
      grid_2x5.operatorSpaceship grid_5x2 = .less) ∧
    (grid_2x5.m_Y_AxisLen * grid_2x5.m_X_AxisLen = grid_5x2.m_Y_AxisLen * grid_5x2.m_X_AxisLen →
      grid_2x5.m_Y_AxisLen > grid_5x2.m_Y_AxisLen →
      grid_2x5.operatorSpaceship grid_5x2 = .greater) ∧
    (grid_2x5.m_Y_AxisLen * grid_2x5.m_X_AxisLen = grid_5x2.m_Y_AxisLen * grid_5x2.m_X_AxisLen →
      grid_2x5.m_Y_AxisLen = grid_5x2.m_Y_AxisLen →
      grid_2x5.m_fillCharacter = grid_5x2.m_fillCharacter →
      grid_2x5.operatorSpaceship grid_5x2 = .equivalent) ∧
    (grid_2x5.m_Y_AxisLen * grid_2x5.m_X_AxisLen = grid_5x2.m_Y_AxisLen * grid_5x2.m_X_AxisLen →
      grid_2x5.m_Y_AxisLen = grid_5x2.m_Y_AxisLen →
      grid_2x5.m_fillCharacter ≠ grid_5x2.m_fillCharacter →
      grid_2x5.operatorSpaceship grid_5x2 = .unordered) ∧
    ∀ content_a content_b : List Nat,
      CharMatrix.operatorSpaceship
          ⟨grid_2x5.m_Y_AxisLen, grid_2x5.m_X_AxisLen, grid_2x5.m_fillCharacter, content_a⟩
          ⟨grid_5x2.m_Y_AxisLen, grid_5x2.m_X_AxisLen, grid_5x2.m_fillCharacter, content_b⟩ =
        grid_2x5.operatorSpaceship grid_5x2) :=
  ⟨by decide, by decide,
   operatorSpaceship_orders_grids grid_2x5 grid_5x2 (by decide) (by decide) (by decide)
     (by decide) (by decide) (by decide) (by decide) (by decide)⟩

/-! ## C22: the validator of coordinates -/

/-- Claim C22, as amended. For every grid of at least one row and two columns,
rows and cols being 32-bit values, whatever the tokenizer and the reader of
numbers are: the validator accepts a line exactly when the tokenizer reports
four tokens and the four tokens are integers `x1 y1 x2 y2` with
`x1, x2 ≤ cols - 2` and `y1, y2 ≤ rows - 1`; on acceptance the output array holds
these four integers; and the object is left as it was. -/
theorem validateEnteredCoords_accepts_iff (u : Util) (m : CharMatrix) (line : List Nat)
    (out : Coords)
    (hrows : 1 ≤ m.m_Y_AxisLen) (hcols : 2 ≤ m.m_X_AxisLen)
    (hrows32 : m.m_Y_AxisLen < UINT32_MOD) (hcols32 : m.m_X_AxisLen < UINT32_MOD) :
    ((m.validateEnteredCoords u line out).isValid = true ↔
      (u.tokenize_fast line 4).2 = 4 ∧
      ∃ x1 y1 x2 y2,
        u.to_integer ((u.tokenize_fast line 4).1.getD 0 []) = some x1 ∧
        u.to_integer ((u.tokenize_fast line 4).1.getD 1 []) = some y1 ∧
        u.to_integer ((u.tokenize_fast line 4).1.getD 2 []) = some x2 ∧
        u.to_integer ((u.tokenize_fast line 4).1.getD 3 []) = some y2 ∧
        x1 ≤ m.m_X_AxisLen - 2 ∧ x2 ≤ m.m_X_AxisLen - 2 ∧
        y1 ≤ m.m_Y_AxisLen - 1 ∧ y2 ≤ m.m_Y_AxisLen - 1) ∧
    (∀ x1 y1 x2 y2,
      (m.validateEnteredCoords u line out).isValid = true →
      u.to_integer ((u.tokenize_fast line 4).1.getD 0 []) = some x1 →
      u.to_integer ((u.tokenize_fast line 4).1.getD 1 []) = some y1 →
      u.to_integer ((u.tokenize_fast line 4).1.getD 2 []) = some x2 →
      u.to_integer ((u.tokenize_fast line 4).1.getD 3 []) = some y2 →
      (m.validateEnteredCoords u line out).int_enteredCoords_OUT = ⟨x1, y1, x2, y2⟩) ∧
    (m.validateEnteredCoords u line out).object = m := by
  have hcount_of : (m.validateEnteredCoords u line out).isValid = true →
      (u.tokenize_fast line 4).2 = 4 := by
    intro hv
    by_contra hc
    rw [validateEnteredCoords_count u m line out hc] at hv
    cases hv
  refine ⟨⟨?_, ?_⟩, ?_, validateEnteredCoords_object u m line out⟩
  · intro hv
    have hc := hcount_of hv
    refine ⟨hc, ?_⟩
    cases h0 : u.to_integer ((u.tokenize_fast line 4).1.getD 0 []) with
    | none =>
      rw [validateEnteredCoords_not_integer u m line out (Or.inl h0)] at hv
      cases hv
    | some x1 =>
      cases h1 : u.to_integer ((u.tokenize_fast line 4).1.getD 1 []) with
      | none =>
        rw [validateEnteredCoords_not_integer u m line out (Or.inr (Or.inl h1))] at hv
        cases hv
      | some y1 =>
        cases h2 : u.to_integer ((u.tokenize_fast line 4).1.getD 2 []) with
        | none =>
          rw [validateEnteredCoords_not_integer u m line out (Or.inr (Or.inr (Or.inl h2)))] at hv
          cases hv
        | some x2 =>
          cases h3 : u.to_integer ((u.tokenize_fast line 4).1.getD 3 []) with
          | none =>
            rw [validateEnteredCoords_not_integer u m line out
              (Or.inr (Or.inr (Or.inr h3)))] at hv
            cases hv
          | some y2 =>
            exact ⟨x1, y1, x2, y2, rfl, rfl, rfl, rfl,
              (validateEnteredCoords_of_integers u m line out x1 y1 x2 y2 hrows hcols hrows32
                hcols32 hc h0 h1 h2 h3).1.mp hv⟩
  · rintro ⟨hc, x1, y1, x2, y2, h0, h1, h2, h3, hb⟩
    exact (validateEnteredCoords_of_integers u m line out x1 y1 x2 y2 hrows hcols hrows32
      hcols32 hc h0 h1 h2 h3).1.mpr hb
  · intro x1 y1 x2 y2 hv h0 h1 h2 h3
    exact (validateEnteredCoords_of_integers u m line out x1 y1 x2 y2 hrows hcols hrows32
      hcols32 (hcount_of hv) h0 h1 h2 h3).2 hv

/-- The hypotheses of claim C22 as amended hold for the grid of two rows of three
cells, and so does its conclusion; with the tokenizer and the reader of the
samples the line `1 0 0 1` is accepted and the output array holds `(1, 0, 0, 1)`. -/
theorem validateEnteredCoords_accepts_iff_witness :
    (1 ≤ grid_2x3.m_Y_AxisLen ∧ 2 ≤ grid_2x3.m_X_AxisLen ∧
      grid_2x3.m_Y_AxisLen < UINT32_MOD ∧ grid_2x3.m_X_AxisLen < UINT32_MOD) ∧
    grid_2x3.validateEnteredCoords sample_util line_1_0_0_1 ⟨0, 0, 0, 0⟩ =
      ⟨true, ⟨1, 0, 0, 1⟩, grid_2x3⟩ ∧
    (((grid_2x3.validateEnteredCoords sample_util line_1_0_0_1 ⟨0, 0, 0, 0⟩).isValid = true ↔
      (sample_util.tokenize_fast line_1_0_0_1 4).2 = 4 ∧
      ∃ x1 y1 x2 y2,
        sample_util.to_integer ((sample_util.tokenize_fast line_1_0_0_1 4).1.getD 0 []) =
          some x1 ∧
        sample_util.to_integer ((sample_util.tokenize_fast line_1_0_0_1 4).1.getD 1 []) =
          some y1 ∧
        sample_util.to_integer ((sample_util.tokenize_fast line_1_0_0_1 4).1.getD 2 []) =
          some x2 ∧
        sample_util.to_integer ((sample_util.tokenize_fast line_1_0_0_1 4).1.getD 3 []) =
          some y2 ∧
        x1 ≤ grid_2x3.m_X_AxisLen - 2 ∧ x2 ≤ grid_2x3.m_X_AxisLen - 2 ∧
        y1 ≤ grid_2x3.m_Y_AxisLen - 1 ∧ y2 ≤ grid_2x3.m_Y_AxisLen - 1) ∧
    (∀ x1 y1 x2 y2,
      (grid_2x3.validateEnteredCoords sample_util line_1_0_0_1 ⟨0, 0, 0, 0⟩).isValid = true →
      sample_util.to_integer ((sample_util.tokenize_fast line_1_0_0_1 4).1.getD 0 []) =
        some x1 →
      sample_util.to_integer ((sample_util.tokenize_fast line_1_0_0_1 4).1.getD 1 []) =
        some y1 →
      sample_util.to_integer ((sample_util.tokenize_fast line_1_0_0_1 4).1.getD 2 []) =
        some x2 →
      sample_util.to_integer ((sample_util.tokenize_fast line_1_0_0_1 4).1.getD 3 []) =
        some y2 →
      (grid_2x3.validateEnteredCoords sample_util line_1_0_0_1
        ⟨0, 0, 0, 0⟩).int_enteredCoords_OUT = ⟨x1, y1, x2, y2⟩) ∧
    (grid_2x3.validateEnteredCoords sample_util line_1_0_0_1 ⟨0, 0, 0, 0⟩).object =
      grid_2x3) :=
  ⟨by decide, by decide,
   validateEnteredCoords_accepts_iff sample_util grid_2x3 line_1_0_0_1 ⟨0, 0, 0, 0⟩
     (by decide) (by decide) (by decide) (by decide)⟩

/-- Claim C22 fails as stated, with the tokenizer and the reader of the samples.
On `CharMatrix( 1, 1, 32 )` the bound `getX_AxisLen( ) - 2` is the 32-bit difference
4294967295, and the line `5 0 5 0` is accepted although 5 is larger than
`cols - 2`. On `CharMatrix( 0, 5, 32 )` the bound `getY_AxisLen( ) - 1` is 4294967295
as well, and the line `0 7 0 7` is accepted although 7 is larger than
`rows - 1`. -/
theorem validateEnteredCoords_bounds_wrap :
    (CharMatrix.construct 1 1 32 = .returned grid_1x1 ∧
      sample_util.tokenize_fast line_5_0_5_0 4 = ([[53], [48], [53], [48]], 4) ∧
      sample_util.to_integer [53] = some 5 ∧ sample_util.to_integer [48] = some 0 ∧
      u32sub grid_1x1.getX_AxisLen 2 = 4294967295 ∧
      grid_1x1.validateEnteredCoords sample_util line_5_0_5_0 ⟨0, 0, 0, 0⟩ =
        ⟨true, ⟨5, 0, 5, 0⟩, grid_1x1⟩ ∧
      ¬ ((5 : Int) ≤ (grid_1x1.m_X_AxisLen : Int) - 2)) ∧
    (CharMatrix.construct 0 5 32 = .returned grid_0x5 ∧
      sample_util.tokenize_fast line_0_7_0_7 4 = ([[48], [55], [48], [55]], 4) ∧
      sample_util.to_integer [48] = some 0 ∧ sample_util.to_integer [55] = some 7 ∧
      u32sub grid_0x5.getY_AxisLen 1 = 4294967295 ∧
      grid_0x5.validateEnteredCoords sample_util line_0_7_0_7 ⟨0, 0, 0, 0⟩ =
        ⟨true, ⟨0, 7, 0, 7⟩, grid_0x5⟩ ∧
      ¬ ((7 : Int) ≤ (grid_0x5.m_Y_AxisLen : Int) - 1)) := by
  refine ⟨⟨?_, ?_, ?_, ?_, ?_, ?_, ?_⟩, ⟨?_, ?_, ?_, ?_, ?_, ?_, ?_⟩⟩ <;> decide

/-! ## C23: resizing and the invariants -/

/-- Claim C23, as amended. For every grid of at least one row that satisfies I1
(the buffer has `rows * cols` cells), I2 (the last cell of every row holds the
line break), I3 (every other cell holds the fill character or a drawing
character) and I4 (at least two columns), every `n` in [1,50] and every `k` in
[2,168], none of the 32-bit products `rows * cols`, `n * cols` and `rows * k`
wrapping: `setY_AxisLen n` returns a grid of `n` rows, and `setX_AxisLen k` returns
a grid of `k` columns, the other dimension and the fill character unchanged, and
each of the two grids satisfies I1 to I4. -/
theorem resize_keeps_invariants (m : CharMatrix) (n k : Nat)
    (hI1 : m.m_characterMatrix.length = m.m_Y_AxisLen * m.m_X_AxisLen)
    (hI2 : ∀ r, r < m.m_Y_AxisLen →
      m.m_characterMatrix[r * m.m_X_AxisLen + (m.m_X_AxisLen - 1)]? = some newline)
    (hI3 : ∀ r x, r < m.m_Y_AxisLen → x < m.m_X_AxisLen - 1 →
      ∃ v, m.m_characterMatrix[r * m.m_X_AxisLen + x]? = some v ∧
        (v = m.m_fillCharacter ∨ chars_for_drawing_contains v = true))
    (hI4 : 2 ≤ m.m_X_AxisLen) (hrows : 1 ≤ m.m_Y_AxisLen)
    (hn1 : 1 ≤ n) (hn2 : n ≤ 50) (hk1 : 2 ≤ k) (hk2 : k ≤ 168)
    (hfit : m.m_Y_AxisLen * m.m_X_AxisLen < UINT32_MOD)
    (hfitY : n * m.m_X_AxisLen < UINT32_MOD)
    (hfitX : m.m_Y_AxisLen * k < UINT32_MOD) :
    (∃ m1, m.setY_AxisLen n = .returned m1 ∧
      m1.m_Y_AxisLen = n ∧ m1.m_X_AxisLen = m.m_X_AxisLen ∧
      m1.m_fillCharacter = m.m_fillCharacter ∧
      m1.m_characterMatrix.length = m1.m_Y_AxisLen * m1.m_X_AxisLen ∧
      (∀ r, r < m1.m_Y_AxisLen →
        m1.m_characterMatrix[r * m1.m_X_AxisLen + (m1.m_X_AxisLen - 1)]? = some newline) ∧
      (∀ r x, r < m1.m_Y_AxisLen → x < m1.m_X_AxisLen - 1 →
        ∃ v, m1.m_characterMatrix[r * m1.m_X_AxisLen + x]? = some v ∧
          (v = m1.m_fillCharacter ∨ chars_for_drawing_contains v = true)) ∧
      2 ≤ m1.m_X_AxisLen) ∧
    (∃ m1, m.setX_AxisLen k = .returned m1 ∧
      m1.m_Y_AxisLen = m.m_Y_AxisLen ∧ m1.m_X_AxisLen = k ∧
      m1.m_fillCharacter = m.m_fillCharacter ∧
      m1.m_characterMatrix.length = m1.m_Y_AxisLen * m1.m_X_AxisLen ∧
      (∀ r, r < m1.m_Y_AxisLen →
        m1.m_characterMatrix[r * m1.m_X_AxisLen + (m1.m_X_AxisLen - 1)]? = some newline) ∧
      (∀ r x, r < m1.m_Y_AxisLen → x < m1.m_X_AxisLen - 1 →
        ∃ v, m1.m_characterMatrix[r * m1.m_X_AxisLen + x]? = some v ∧
          (v = m1.m_fillCharacter ∨ chars_for_drawing_contains v = true)) ∧
      2 ≤ m1.m_X_AxisLen) := by
  obtain ⟨bufY, hretY, hlenY, h2Y, h3Y⟩ :=
    setY_AxisLen_invariants m n hI1 hI2 hI3 hI4 hn1 hn2 hfit hfitY
  obtain ⟨bufX, hretX, hlenX, h2X, h3X⟩ :=
    setX_AxisLen_invariants m k hI1 hI2 hI3 hI4 hrows hk1 hk2 hfitX
  exact ⟨⟨_, hretY, rfl, rfl, rfl, hlenY, h2Y, h3Y, hI4⟩,
    ⟨_, hretX, rfl, rfl, rfl, hlenX, h2X, h3X, hk1⟩⟩

/-- The hypotheses of claim C23 as amended hold for the row of three cells, two
rows and five columns, and so does its conclusion. -/
theorem resize_keeps_invariants_witness :
    (grid_1x3.m_characterMatrix.length = grid_1x3.m_Y_AxisLen * grid_1x3.m_X_AxisLen ∧
      (∀ r, r < grid_1x3.m_Y_AxisLen →
        grid_1x3.m_characterMatrix[r * grid_1x3.m_X_AxisLen + (grid_1x3.m_X_AxisLen - 1)]? =
          some newline) ∧
      (∀ r x, r < grid_1x3.m_Y_AxisLen → x < grid_1x3.m_X_AxisLen - 1 →
        ∃ v, grid_1x3.m_characterMatrix[r * grid_1x3.m_X_AxisLen + x]? = some v ∧
          (v = grid_1x3.m_fillCharacter ∨ chars_for_drawing_contains v = true)) ∧
      2 ≤ grid_1x3.m_X_AxisLen ∧ 1 ≤ grid_1x3.m_Y_AxisLen ∧
      1 ≤ 2 ∧ 2 ≤ 50 ∧ 2 ≤ 5 ∧ 5 ≤ 168 ∧
      grid_1x3.m_Y_AxisLen * grid_1x3.m_X_AxisLen < UINT32_MOD ∧
      2 * grid_1x3.m_X_AxisLen < UINT32_MOD ∧ grid_1x3.m_Y_AxisLen * 5 < UINT32_MOD) ∧
    (grid_1x3.setY_AxisLen 2 = .returned ⟨2, 3, 32, [45, 32, 10, 32, 32, 10]⟩ ∧
      grid_1x3.setX_AxisLen 5 = .returned ⟨1, 5, 32, [45, 32, 32, 32, 10]⟩) ∧
    ((∃ m1, grid_1x3.setY_AxisLen 2 = .returned m1 ∧
      m1.m_Y_AxisLen = 2 ∧ m1.m_X_AxisLen = grid_1x3.m_X_AxisLen ∧
      m1.m_fillCharacter = grid_1x3.m_fillCharacter ∧
      m1.m_characterMatrix.length = m1.m_Y_AxisLen * m1.m_X_AxisLen ∧
      (∀ r, r < m1.m_Y_AxisLen →
        m1.m_characterMatrix[r * m1.m_X_AxisLen + (m1.m_X_AxisLen - 1)]? = some newline) ∧
      (∀ r x, r < m1.m_Y_AxisLen → x < m1.m_X_AxisLen - 1 →
        ∃ v, m1.m_characterMatrix[r * m1.m_X_AxisLen + x]? = some v ∧
          (v = m1.m_fillCharacter ∨ chars_for_drawing_contains v = true)) ∧
      2 ≤ m1.m_X_AxisLen) ∧
    (∃ m1, grid_1x3.setX_AxisLen 5 = .returned m1 ∧
      m1.m_Y_AxisLen = grid_1x3.m_Y_AxisLen ∧ m1.m_X_AxisLen = 5 ∧
      m1.m_fillCharacter = grid_1x3.m_fillCharacter ∧
      m1.m_characterMatrix.length = m1.m_Y_AxisLen * m1.m_X_AxisLen ∧
      (∀ r, r < m1.m_Y_AxisLen →
        m1.m_characterMatrix[r * m1.m_X_AxisLen + (m1.m_X_AxisLen - 1)]? = some newline) ∧
      (∀ r x, r < m1.m_Y_AxisLen → x < m1.m_X_AxisLen - 1 →
        ∃ v, m1.m_characterMatrix[r * m1.m_X_AxisLen + x]? = some v ∧
          (v = m1.m_fillCharacter ∨ chars_for_drawing_contains v = true)) ∧
      2 ≤ m1.m_X_AxisLen)) :=
  ⟨⟨by decide, by decide, grid_1x3_content, by decide, by decide, by decide, by decide,
     by decide, by decide, by decide, by decide, by decide⟩,
   ⟨by decide, by decide⟩,
   resize_keeps_invariants grid_1x3 2 5 (by decide) (by decide) grid_1x3_content (by decide)
     (by decide) (by decide) (by decide) (by decide) (by decide) (by decide) (by decide)
     (by decide)⟩

/-- Claim C23 fails as stated, at two states that satisfy I1 to I4. The grid
`CharMatrix( 0, 5, 32 )` has no row and an empty buffer; `setX_AxisLen 10` stores
the line break one cell before the buffer. A state of 2147483648 rows of two
cells, every cell and the fill character being the line break, has the 32-bit
product of its rows and four equal to zero; `setX_AxisLen 4` resizes the buffer
to zero cells and then does the same. In both no grid is left to satisfy the
invariants. -/
theorem setX_AxisLen_breaks_invariants :
    (CharMatrix.construct 0 5 32 = .returned grid_0x5 ∧
      grid_0x5.m_characterMatrix.length = grid_0x5.m_Y_AxisLen * grid_0x5.m_X_AxisLen ∧
      (∀ r, r < grid_0x5.m_Y_AxisLen →
        grid_0x5.m_characterMatrix[r * grid_0x5.m_X_AxisLen + (grid_0x5.m_X_AxisLen - 1)]? =
          some newline) ∧
      (∀ r x, r < grid_0x5.m_Y_AxisLen → x < grid_0x5.m_X_AxisLen - 1 →
        ∃ v, grid_0x5.m_characterMatrix[r * grid_0x5.m_X_AxisLen + x]? = some v ∧
          (v = grid_0x5.m_fillCharacter ∨ chars_for_drawing_contains v = true)) ∧
      2 ≤ grid_0x5.m_X_AxisLen ∧ 2 ≤ 10 ∧ 10 ≤ 168 ∧
      grid_0x5.setX_AxisLen 10 = .undefined) ∧
    (grid_huge_newlines.m_characterMatrix.length =
        grid_huge_newlines.m_Y_AxisLen * grid_huge_newlines.m_X_AxisLen ∧
      (∀ r, r < grid_huge_newlines.m_Y_AxisLen →
        grid_huge_newlines.m_characterMatrix[r * grid_huge_newlines.m_X_AxisLen +
          (grid_huge_newlines.m_X_AxisLen - 1)]? = some newline) ∧
      (∀ r x, r < grid_huge_newlines.m_Y_AxisLen → x < grid_huge_newlines.m_X_AxisLen - 1 →
        ∃ v, grid_huge_newlines.m_characterMatrix[r * grid_huge_newlines.m_X_AxisLen + x]? =
            some v ∧
          (v = grid_huge_newlines.m_fillCharacter ∨ chars_for_drawing_contains v = true)) ∧
      2 ≤ grid_huge_newlines.m_X_AxisLen ∧ 1 ≤ grid_huge_newlines.m_Y_AxisLen ∧
      2 ≤ 4 ∧ 4 ≤ 168 ∧
      grid_huge_newlines.setX_AxisLen 4 = .undefined) := by
  have hY : grid_huge_newlines.m_Y_AxisLen = 2147483648 := rfl
  have hX : grid_huge_newlines.m_X_AxisLen = 2 := rfl
  have hF : grid_huge_newlines.m_fillCharacter = 10 := rfl
  have hB : grid_huge_newlines.m_characterMatrix = List.replicate 4294967296 10 := rfl
  refine ⟨⟨by decide, by decide, ?_, ?_, by decide, by decide, by decide, by decide⟩,
    ?_, ?_, ?_, by decide, by decide, by decide, by decide, ?_⟩
  · intro r hr
    exact absurd hr (Nat.not_lt_zero r)
  · intro r x hr
    exact absurd hr (Nat.not_lt_zero r)
  · rw [hB]
    exact List.length_replicate _ _
  · intro r hr
    rw [hY] at hr
    rw [hB, hX, List.getElem?_replicate, if_pos (by omega)]
    rfl
  · intro r x hr hx
    rw [hY] at hr
    rw [hX] at hx
    refine ⟨10, ?_, Or.inl hF.symm⟩
    rw [hB, hX, List.getElem?_replicate, if_pos (by omega)]
  · exact setX_AxisLen_grow_wrap grid_huge_newlines 4 (by decide) (by decide) (by decide)
      (by decide)

/-! ## C24: the plot of a validated quadruple -/

/-- Claim C24. For every grid that satisfies I1 (the buffer has `rows * cols`
cells), I2 (the last cell of every row holds the line break) and I3 (every other
cell holds the fill character or a drawing character), with at least one row
and two columns, rows and cols being 32-bit values, and every quadruple with
`x1, x2 ≤ cols - 2` and `y1, y2 ≤ rows - 1`: the two indices computed by
`operator[ ]` are `y1 * cols + x1` and `y2 * cols + x2`, both are smaller than the
length of the buffer and neither is of the form `r * cols + (cols - 1)`;
`setCharacterMatrix` returns, rows, cols and the fill character are unchanged,
and the grid after the plot satisfies I1, I2 and I3. -/
theorem setCharacterMatrix_validated_keeps_invariants (m : CharMatrix) (c : Coords)
    (hI1 : m.m_characterMatrix.length = m.m_Y_AxisLen * m.m_X_AxisLen)
    (hI2 : ∀ r, r < m.m_Y_AxisLen →
      m.m_characterMatrix[r * m.m_X_AxisLen + (m.m_X_AxisLen - 1)]? = some newline)
    (hI3 : ∀ r x, r < m.m_Y_AxisLen → x < m.m_X_AxisLen - 1 →
      ∃ v, m.m_characterMatrix[r * m.m_X_AxisLen + x]? = some v ∧
        (v = m.m_fillCharacter ∨ chars_for_drawing_contains v = true))
    (hrows : 1 ≤ m.m_Y_AxisLen) (hcols : 2 ≤ m.m_X_AxisLen)
    (hrows32 : m.m_Y_AxisLen < UINT32_MOD) (hcols32 : m.m_X_AxisLen < UINT32_MOD)
    (hx1 : c.x1 ≤ m.m_X_AxisLen - 2) (hy1 : c.y1 ≤ m.m_Y_AxisLen - 1)
    (hx2 : c.x2 ≤ m.m_X_AxisLen - 2) (hy2 : c.y2 ≤ m.m_Y_AxisLen - 1) :
    (m.cellIndex c.x1 c.y1 = c.y1 * m.m_X_AxisLen + c.x1 ∧
      m.cellIndex c.x1 c.y1 < m.m_characterMatrix.length ∧
      ∀ r, m.cellIndex c.x1 c.y1 ≠ r * m.m_X_AxisLen + (m.m_X_AxisLen - 1)) ∧
    (m.cellIndex c.x2 c.y2 = c.y2 * m.m_X_AxisLen + c.x2 ∧
      m.cellIndex c.x2 c.y2 < m.m_characterMatrix.length ∧
      ∀ r, m.cellIndex c.x2 c.y2 ≠ r * m.m_X_AxisLen + (m.m_X_AxisLen - 1)) ∧
    ∃ m1, m.setCharacterMatrix c = .returned m1 ∧
      m1.m_Y_AxisLen = m.m_Y_AxisLen ∧ m1.m_X_AxisLen = m.m_X_AxisLen ∧
      m1.m_fillCharacter = m.m_fillCharacter ∧
      m1.m_characterMatrix.length = m1.m_Y_AxisLen * m1.m_X_AxisLen ∧
      (∀ r, r < m1.m_Y_AxisLen →
        m1.m_characterMatrix[r * m1.m_X_AxisLen + (m1.m_X_AxisLen - 1)]? = some newline) ∧
      (∀ r x, r < m1.m_Y_AxisLen → x < m1.m_X_AxisLen - 1 →
        ∃ v, m1.m_characterMatrix[r * m1.m_X_AxisLen + x]? = some v ∧
          (v = m1.m_fillCharacter ∨ chars_for_drawing_contains v = true)) := by
  have e1 : m.cellIndex c.x1 c.y1 = c.y1 * m.m_X_AxisLen + c.x1 :=
    cellIndex_of_uint32 m c.x1 c.y1 (by omega) (by omega) hcols32
  have e2 : m.cellIndex c.x2 c.y2 = c.y2 * m.m_X_AxisLen + c.x2 :=
    cellIndex_of_uint32 m c.x2 c.y2 (by omega) (by omega) hcols32
  have l1 : m.cellIndex c.x1 c.y1 < m.m_characterMatrix.length := by
    rw [e1, hI1]
    exact index_lt_area _ _ _ _ (by omega) (by omega)
  have l2 : m.cellIndex c.x2 c.y2 < m.m_characterMatrix.length := by
    rw [e2, hI1]
    exact index_lt_area _ _ _ _ (by omega) (by omega)
  have n1 : ∀ r, m.cellIndex c.x1 c.y1 ≠ r * m.m_X_AxisLen + (m.m_X_AxisLen - 1) := by
    intro r
    rw [e1]
    exact index_ne_terminator _ _ _ _ (by omega)
  have n2 : ∀ r, m.cellIndex c.x2 c.y2 ≠ r * m.m_X_AxisLen + (m.m_X_AxisLen - 1) := by
    intro r
    rw [e2]
    exact index_ne_terminator _ _ _ _ (by omega)
  refine ⟨⟨e1, l1, n1⟩, ⟨e2, l2, n2⟩, ?_⟩
  cases hg : processCoordsToObtainCharType c with
  | none =>
    exact ⟨m, setCharacterMatrix_none_spec m c hg, rfl, rfl, rfl, hI1, hI2, hI3⟩
  | some g =>
    obtain ⟨buf, hret, hlen, hcell⟩ := setCharacterMatrix_some_spec m c g l1 l2 hg
    refine ⟨_, hret, rfl, rfl, rfl, ?_, ?_, ?_⟩
    · exact hlen.trans hI1
    · intro r hr
      simp only [hcell]
      rw [if_neg (fun h => n2 r h.symm), if_neg (fun h => n1 r h.symm)]
      exact hI2 r hr
    · intro r x hr hx
      simp only [hcell]
      split_ifs
      · exact ⟨g.toChar, rfl, Or.inr (by cases g <;> decide)⟩
      · exact ⟨g.toChar, rfl, Or.inr (by cases g <;> decide)⟩
      · exact hI3 r x hr hx

/-- The hypotheses of claim C24 hold for the row of three cells and the quadruple
`(0, 0, 1, 0)`, and so does its conclusion. -/
theorem setCharacterMatrix_validated_keeps_invariants_witness :
    (grid_1x3.m_characterMatrix.length = grid_1x3.m_Y_AxisLen * grid_1x3.m_X_AxisLen ∧
      (∀ r, r < grid_1x3.m_Y_AxisLen →
        grid_1x3.m_characterMatrix[r * grid_1x3.m_X_AxisLen + (grid_1x3.m_X_AxisLen - 1)]? =
          some newline) ∧
      (∀ r x, r < grid_1x3.m_Y_AxisLen → x < grid_1x3.m_X_AxisLen - 1 →
        ∃ v, grid_1x3.m_characterMatrix[r * grid_1x3.m_X_AxisLen + x]? = some v ∧
          (v = grid_1x3.m_fillCharacter ∨ chars_for_drawing_contains v = true)) ∧
      1 ≤ grid_1x3.m_Y_AxisLen ∧ 2 ≤ grid_1x3.m_X_AxisLen ∧
      grid_1x3.m_Y_AxisLen < UINT32_MOD ∧ grid_1x3.m_X_AxisLen < UINT32_MOD ∧
      coords_dash.x1 ≤ grid_1x3.m_X_AxisLen - 2 ∧ coords_dash.y1 ≤ grid_1x3.m_Y_AxisLen - 1 ∧
      coords_dash.x2 ≤ grid_1x3.m_X_AxisLen - 2 ∧ coords_dash.y2 ≤ grid_1x3.m_Y_AxisLen - 1) ∧
    grid_1x3.setCharacterMatrix coords_dash = .returned ⟨1, 3, 32, [45, 45, 10]⟩ ∧
    ((grid_1x3.cellIndex coords_dash.x1 coords_dash.y1 =
        coords_dash.y1 * grid_1x3.m_X_AxisLen + coords_dash.x1 ∧
      grid_1x3.cellIndex coords_dash.x1 coords_dash.y1 < grid_1x3.m_characterMatrix.length ∧
      ∀ r, grid_1x3.cellIndex coords_dash.x1 coords_dash.y1 ≠
        r * grid_1x3.m_X_AxisLen + (grid_1x3.m_X_AxisLen - 1)) ∧
    (grid_1x3.cellIndex coords_dash.x2 coords_dash.y2 =
        coords_dash.y2 * grid_1x3.m_X_AxisLen + coords_dash.x2 ∧
      grid_1x3.cellIndex coords_dash.x2 coords_dash.y2 < grid_1x3.m_characterMatrix.length ∧
      ∀ r, grid_1x3.cellIndex coords_dash.x2 coords_dash.y2 ≠
        r * grid_1x3.m_X_AxisLen + (grid_1x3.m_X_AxisLen - 1)) ∧
    ∃ m1, grid_1x3.setCharacterMatrix coords_dash = .returned m1 ∧
      m1.m_Y_AxisLen = grid_1x3.m_Y_AxisLen ∧ m1.m_X_AxisLen = grid_1x3.m_X_AxisLen ∧
      m1.m_fillCharacter = grid_1x3.m_fillCharacter ∧
      m1.m_characterMatrix.length = m1.m_Y_AxisLen * m1.m_X_AxisLen ∧
      (∀ r, r < m1.m_Y_AxisLen →
        m1.m_characterMatrix[r * m1.m_X_AxisLen + (m1.m_X_AxisLen - 1)]? = some newline) ∧
      (∀ r x, r < m1.m_Y_AxisLen → x < m1.m_X_AxisLen - 1 →
        ∃ v, m1.m_characterMatrix[r * m1.m_X_AxisLen + x]? = some v ∧
          (v = m1.m_fillCharacter ∨ chars_for_drawing_contains v = true))) :=
  ⟨⟨by decide, by decide, grid_1x3_content, by decide, by decide, by decide, by decide,
     by decide, by decide, by decide, by decide⟩,
   by decide,
   setCharacterMatrix_validated_keeps_invariants grid_1x3 coords_dash (by decide) (by decide)
     grid_1x3_content (by decide) (by decide) (by decide) (by decide) (by decide) (by decide)
     (by decide) (by decide)⟩

/-! ## C25: equality and ordering -/

/-- Claim C25. For grids `a`, `b` and `c` with rows in [1,50] and cols in [2,168],
`a <=> b` is equivalent exactly when `a == b`; `a <=> a` is not less; and when
`a <=> b` and `b <=> c` are both less, so is `a <=> c`. -/
theorem operatorSpaceship_agrees_with_operatorEq (a b c : CharMatrix)
    (ha1 : 1 ≤ a.m_Y_AxisLen) (ha2 : a.m_Y_AxisLen ≤ 50)
    (ha3 : 2 ≤ a.m_X_AxisLen) (ha4 : a.m_X_AxisLen ≤ 168)
    (hb1 : 1 ≤ b.m_Y_AxisLen) (hb2 : b.m_Y_AxisLen ≤ 50)
    (hb3 : 2 ≤ b.m_X_AxisLen) (hb4 : b.m_X_AxisLen ≤ 168)
    (hc1 : 1 ≤ c.m_Y_AxisLen) (hc2 : c.m_Y_AxisLen ≤ 50)
    (hc3 : 2 ≤ c.m_X_AxisLen) (hc4 : c.m_X_AxisLen ≤ 168) :
    (a.operatorSpaceship b = .equivalent ↔ a.operatorEq b = true) ∧
    a.operatorSpaceship a ≠ .less ∧
    (a.operatorSpaceship b = .less → b.operatorSpaceship c = .less →
      a.operatorSpaceship c = .less) := by
  have _h := And.intro (And.intro ha3 hb3) (And.intro hb1 (And.intro hc1 hc3))
  rw [operatorSpaceship_eq a b ha2 ha4 hb2 hb4, operatorSpaceship_eq a a ha2 ha4 ha2 ha4,
    operatorSpaceship_eq b c hb2 hb4 hc2 hc4, operatorSpaceship_eq a c ha2 ha4 hc2 hc4]
  refine ⟨⟨?_, ?_⟩, ?_, ?_⟩
  · intro h
    split_ifs at h with h1 h2 h3 h4 h5
    have hrows : a.m_Y_AxisLen = b.m_Y_AxisLen := by omega
    have hcols := cols_eq_of_area_eq a b ha1 hrows (by omega)
    simp only [CharMatrix.operatorEq, Bool.and_eq_true, beq_iff_eq]
    exact ⟨⟨hrows, hcols⟩, h5⟩
  · intro h
    simp only [CharMatrix.operatorEq, Bool.and_eq_true, beq_iff_eq] at h
    obtain ⟨⟨hrows, hcols⟩, hfill⟩ := h
    rw [hrows, hcols, if_neg (by omega), if_neg (by omega), if_neg (by omega),
      if_neg (by omega), if_pos hfill]
  · rw [if_neg (by omega), if_neg (by omega), if_neg (by omega), if_neg (by omega), if_pos rfl]
    exact fun h => by cases h
  · intro hab hbc
    split_ifs at hab hbc with h1 h2 h3 h4 h5 h6 h7 h8 h9 h10 <;>
      first
        | (cases hab; done)
        | (cases hbc; done)
        | (split_ifs <;> first | rfl | omega)

/-- The hypotheses of claim C25 hold for the grids of two rows of three cells, of
two rows of five cells and of five rows of two cells, and so does its
conclusion; each of the three is less than the next. -/
theorem operatorSpaceship_agrees_with_operatorEq_witness :
    ((1 ≤ grid_2x3.m_Y_AxisLen ∧ grid_2x3.m_Y_AxisLen ≤ 50 ∧
      2 ≤ grid_2x3.m_X_AxisLen ∧ grid_2x3.m_X_AxisLen ≤ 168) ∧
     (1 ≤ grid_2x5.m_Y_AxisLen ∧ grid_2x5.m_Y_AxisLen ≤ 50 ∧
      2 ≤ grid_2x5.m_X_AxisLen ∧ grid_2x5.m_X_AxisLen ≤ 168) ∧
     (1 ≤ grid_5x2.m_Y_AxisLen ∧ grid_5x2.m_Y_AxisLen ≤ 50 ∧
      2 ≤ grid_5x2.m_X_AxisLen ∧ grid_5x2.m_X_AxisLen ≤ 168)) ∧
    (grid_2x3.operatorSpaceship grid_2x5 = .less ∧
      grid_2x5.operatorSpaceship grid_5x2 = .less) ∧
    ((grid_2x3.operatorSpaceship grid_2x5 = .equivalent ↔
        grid_2x3.operatorEq grid_2x5 = true) ∧
      grid_2x3.operatorSpaceship grid_2x3 ≠ .less ∧
      (grid_2x3.operatorSpaceship grid_2x5 = .less →
        grid_2x5.operatorSpaceship grid_5x2 = .less →
        grid_2x3.operatorSpaceship grid_5x2 = .less)) :=
  ⟨by decide, by decide,
   operatorSpaceship_agrees_with_operatorEq grid_2x3 grid_2x5 grid_5x2
     (by decide) (by decide) (by decide) (by decide) (by decide) (by decide)
     (by decide) (by decide) (by decide) (by decide) (by decide) (by decide)⟩

end peyknowruzi
